import Mathlib

/-!
# The RAP worker (`rap.c`): a shallow embedding

The worker is sequential and blocking, so every function of `rap.c` becomes a pure
function of its arguments, of the process-wide state (`WorkerState`) and of an `Env`
record that answers the system calls made while one request is handled.  What a
function does to the outside world is returned as a list of `Event`s, in program order.
Functions whose loops are driven by the XML reader take a `fuel` argument and return
`none` when they do not come back within it.

C strings are `String`s without NUL; a `char *` that may be `NULL` is an `Option String`.
-/

namespace Rap

/-! ## Constants and messages (`shared.h`) -/

/-- Modelled from the spec: the message kinds of `shared.h`, which is not among the
sources.  Section 3 of the specification lists the client requests, the server responses
and the interim lock exchange; `RAP_OTHER` stands for any other integer value of `mID`. -/
inductive RapConstant where
  | RAP_REQUEST_AUTHENTICATE
  | RAP_REQUEST_GET
  | RAP_REQUEST_PUT
  | RAP_REQUEST_MKCOL
  | RAP_REQUEST_DELETE
  | RAP_REQUEST_MOVE
  | RAP_REQUEST_COPY
  | RAP_REQUEST_PROPFIND
  | RAP_REQUEST_PROPPATCH
  | RAP_REQUEST_LOCK
  | RAP_RESPOND_CONTINUE
  | RAP_RESPOND_OK
  | RAP_RESPOND_CREATED
  | RAP_RESPOND_OK_NO_CONTENT
  | RAP_RESPOND_MULTISTATUS
  | RAP_RESPOND_ACCESS_DENIED
  | RAP_RESPOND_NOT_FOUND
  | RAP_RESPOND_CONFLICT
  | RAP_RESPOND_LOCKED
  | RAP_RESPOND_INSUFFICIENT_STORAGE
  | RAP_RESPOND_BAD_CLIENT_REQUEST
  | RAP_RESPOND_AUTH_FAILLED
  | RAP_RESPOND_INTERNAL_ERROR
  | RAP_INTERIM_RESPOND_LOCK
  | RAP_INTERIM_RESPOND_RELOCK
  | RAP_COMPLETE_REQUEST_LOCK
  | RAP_COMPLETE_REQUEST_RELOCK
  | RAP_OTHER (code : Nat)
  deriving DecidableEq, Repr

open RapConstant

/-- Modelled from the spec: the positional parameter names of `shared.h` (section 3).
Their numeric positions are not in the sources, so a message stores its parameters
under their names. -/
inductive ParamName where
  | RAP_PARAM_REQUEST_FILE
  | RAP_PARAM_REQUEST_TARGET
  | RAP_PARAM_REQUEST_DEPTH
  | RAP_PARAM_REQUEST_LOCK
  | RAP_PARAM_AUTH_USER
  | RAP_PARAM_AUTH_PASSWORD
  | RAP_PARAM_AUTH_RHOST
  | RAP_PARAM_RESPONSE_DATE
  | RAP_PARAM_RESPONSE_MIME
  | RAP_PARAM_RESPONSE_LOCATION
  | RAP_PARAM_LOCK_LOCATION
  | RAP_PARAM_LOCK_TYPE
  | RAP_PARAM_LOCK_TOKEN
  | RAP_PARAM_LOCK_TIMEOUT
  | RAP_PARAM_ERROR_REASON
  | RAP_PARAM_ERROR_NAMESPACE
  deriving DecidableEq, Repr

open ParamName

/-- Modelled from the spec: `LockType` of `shared.h`.  `LOCK_TYPE_ZERO` is the value left
by `memset(lockRequest, 0, ...)` before any scope or type element has been seen. -/
inductive LockType where
  | LOCK_TYPE_ZERO
  | LOCK_TYPE_SHARED
  | LOCK_TYPE_EXCLUSIVE
  deriving DecidableEq, Repr

open LockType

/-- One `struct iovec` of a message: a NUL-terminated string, a binary `time_t`, a binary
`LockType`, or nothing (`iov_base == NULL`). -/
inductive Param where
  | null
  | str (s : String)
  | time (t : Int)
  | lockType (t : LockType)
  deriving DecidableEq, Repr

/-- The `Message` of `shared.h`: kind, descriptor (`-1` when absent), the declared
`paramCount`, and the parameter slots that have been filled in. -/
structure Message where
  mID : RapConstant
  fd : Int
  paramCount : Int
  params : List (ParamName × Param)
  deriving DecidableEq, Repr

/-- The slot `message->params[name]`. -/
def Message.param (m : Message) (name : ParamName) : Param :=
  (m.params.lookup name).getD Param.null

/-- Modelled from the spec: `messageParamToString` of `shared.h`; a string slot yields its
string, anything else yields `NULL`. -/
def messageParamToString (p : Param) : Option String :=
  match p with
  | Param.str s => some s
  | _ => none

/-- Modelled from the spec: `stringToMessageParam` of `shared.h`; `NULL` gives an empty slot. -/
def stringToMessageParam (s : Option String) : Param :=
  match s with
  | some str => Param.str str
  | none => Param.null

/-! ## The operating system as seen by one request -/

/-- The `errno` values that `rap.c` distinguishes, and any other value. -/
inductive Errno where
  | EACCES | ENOENT | EPERM | EXDEV | EDQUOT | ENOSPC | EEXIST | ENOTDIR | EBADF | EFAULT
  | EOTHER (n : Nat)
  deriving DecidableEq, Repr

open Errno

/-- The value of `st_mode & S_IFMT`. -/
inductive FileType where
  | S_IFDIR | S_IFREG | S_IFOTHER
  deriving DecidableEq, Repr

open FileType

/-- The fields of `struct stat` that `rap.c` reads. -/
structure Stat where
  st_mode : FileType
  st_size : Int
  st_mtime : Int
  st_ctime : Int
  deriving DecidableEq, Repr

/-- The fields of `struct statvfs` that `rap.c` reads (all `unsigned long`). -/
structure StatVfs where
  f_bsize : Nat
  f_blocks : Nat
  f_bfree : Nat
  f_bavail : Nat
  deriving DecidableEq, Repr

/-- The value of `d_type` in a `struct dirent`. -/
inductive DType where
  | DT_DIR | DT_REG | DT_OTHER
  deriving DecidableEq, Repr

open DType

/-- A `struct dirent`.  `d_name` is the content of the name buffer from its first byte on,
the terminating NUL and whatever follows it included; bytes past the end of the list are
NUL. -/
structure Dirent where
  d_name : List Char
  d_type : DType
  deriving DecidableEq, Repr

/-- The NUL byte. -/
def NUL : Char := Char.ofNat 0

/-- The byte `dp->d_name[i]`. -/
def Dirent.byte (dp : Dirent) (i : Nat) : Char := dp.d_name.getD i NUL

/-- The C string held in `dp->d_name`: the bytes before the first NUL. -/
def Dirent.name (dp : Dirent) : String := String.mk (dp.d_name.takeWhile (fun c => c != NUL))

/-- The flags given to `open`. -/
inductive OpenFlag where
  | O_RDONLY | O_WRONLY | O_CREAT | O_TRUNC
  deriving DecidableEq, Repr

open OpenFlag

/-- Modelled from the spec: the reader side of `xml.h` (not among the sources) together
with the libxml2 text reader it wraps.  A reader is a state machine over states numbered
by `Nat`, state `0` being the freshly created reader; `stepInto` and `stepOver` return the
`int` result and the next state. -/
structure XmlReader where
  stepInto : Nat → Int × Nat
  stepOver : Nat → Int × Nat
  depth : Nat → Int
  nodeTypeIsNone : Nat → Bool
  namespaceUri : Nat → Option String
  localName : Nat → Option String
  elementMatches : Nat → String → String → Bool
  isNamespaceElement : Nat → String → Bool

/-- The calls made on an `xmlTextWriter`, in order.  `writeElementString` and `writeURL`
are the helpers of `xml.h`. -/
inductive XmlOp where
  | startDocument (version encoding : String)
  | startElementNS (pfx name : String) (ns : Option String)
  | startElement (name : String)
  | endElement
  | writeAttribute (name value : String)
  | writeAttributeNS (pfx name : String) (ns : Option String) (value : String)
  | startAttribute (name : String)
  | endAttribute
  | writeElementString (pfx : Option String) (name : String) (content : Option String)
  | writeURL (url : Option String)
  | writeString (content : String)
  | writeFormatString (content : String)
  deriving DecidableEq, Repr

/-- The request handlers that `main` calls, under their names in `rap.c`. -/
inductive Handler where
  | authenticate | readFile | writeFile | mkcol | deleteFile | moveFile | copyFile
  | propfind | proppatch | lockFile
  deriving DecidableEq, Repr

/-- What the worker does to the outside world; `call` marks the entry into a handler. -/
inductive Event where
  | recvMessage (result : Int) (m : Message)
  | sendMessage (m : Message)
  | sendRecvMessage (m : Message)
  | close (fd : Int)
  | readXml (fd : Int)
  | writeXml (fd : Int) (ops : List XmlOp)
  | open (file : Option String) (flags : List OpenFlag)
  | read (fd : Int) (result : Int)
  | write (fd : Int) (result : Int)
  | flock (fd : Int) (type : LockType)
  | mkdir (file : Option String)
  | rename (source target : Option String)
  | unlink (file : Option String)
  | rmdir (file : Option String)
  | pamAuthenticate (user password rhost : Option String)
  | call (handler : Handler)
  deriving DecidableEq, Repr

/-- The answers of the operating system, of PAM and of the peer while one request is
handled.  A system call that fails gives its `errno`; the wrappers `sysStat`, `sysOpen`, ...
below answer `EFAULT` for a `NULL` path. -/
structure Env where
  /-- The result of `sendMessage(RAP_CONTROL_SOCKET, &m)`. -/
  sendMessage : Message → Int
  /-- The result of `sendRecvMessage` and the reply left in the message. -/
  sendRecvMessage : Message → Int × Message
  /-- The two ends `(read, write)` made by `pipe`, or `none` when it fails. -/
  pipe : Option (Int × Int)
  /-- The value stored by `time(&fileTime)`. -/
  time : Int
  stat : String → Except Errno Stat
  statvfs : String → Option StatVfs
  openFile : String → List OpenFlag → Except Errno Int
  fstat : Int → Stat
  fstatat : Int → String → Stat
  flock : Int → LockType → Except Errno Unit
  /-- The entries that `readdir` returns after `opendir(path)`, or `none` when it fails. -/
  opendir : String → Option (List Dirent)
  /-- The entries that `readdir` returns after `fdopendir(fd)`. -/
  fdopendir : Int → List Dirent
  /-- The successive results of `read` on the request body, each with the result of the
  `write` that follows it; after the last one `read` returns `0`. -/
  chunks : List (Int × Int)
  mkdir : String → Except Errno Unit
  rename : String → String → Except Errno Unit
  unlink : String → Except Errno Unit
  rmdir : String → Except Errno Unit
  xmlReaderForFd : Int → Option XmlReader
  /-- The byte stored in memory just before the first byte of the given string. -/
  byteBefore : String → Char
  strerror : Errno → String
  strcoll : String → String → Int
  getWebDate : Int → String
  getLocalDate : Int → String
  /-- The rendering by `snprintf` of `(double) size / divisor` with the given number of
  decimals. -/
  formatDouble : Nat → Int → Int → String
  /-- The value of `errno` after `stdLogError`, given its value before. -/
  errnoAfterLog : Errno → Errno
  pam_start : Bool
  /-- Whether setting the items, authenticating, checking the account, establishing the
  credentials and opening the session all return `PAM_SUCCESS`. -/
  pam_session : Bool
  /-- The canonical user name, when `pam_get_item` and `pam_getenvlist` both succeed. -/
  pam_user : Option String
  lockToUser : Bool

/-- The extension table entry `MimeType`. -/
structure MimeType where
  fileExtension : String
  type : String
  typeStringSize : Nat
  deriving DecidableEq, Repr

/-- The process-wide variables of `rap.c`. -/
structure WorkerState where
  authenticated : Bool
  authenticatedUser : Option String
  mimeTypes : List MimeType
  deriving DecidableEq, Repr

def WEBDAV_NAMESPACE : String := "DAV:"
def EXTENSIONS_NAMESPACE : String := "urn:couling-webdav:"
def MICROSOFT_NAMESPACE : String := "urn:schemas-microsoft-com:"

def UNKNOWN_MIME_TYPE : MimeType :=
  ⟨"", "application/octet-stream", "application/octet-stream".length + 1⟩

def XML_MIME_TYPE : MimeType :=
  ⟨"", "application/xml; charset=utf-8", "application/xml; charset=utf-8".length + 1⟩

/-- A system call on a path that may be `NULL`: the kernel answers `EFAULT` for `NULL`. -/
def sysPath {α : Type} (call : String → Except Errno α) (file : Option String) : Except Errno α :=
  match file with
  | none => Except.error EFAULT
  | some f => call f

def sysStat (env : Env) (file : Option String) : Except Errno Stat := sysPath env.stat file

def sysOpen (env : Env) (file : Option String) (flags : List OpenFlag) : Except Errno Int :=
  sysPath (fun f => env.openFile f flags) file

def sysMkdir (env : Env) (file : Option String) : Except Errno Unit := sysPath env.mkdir file

def sysUnlink (env : Env) (file : Option String) : Except Errno Unit := sysPath env.unlink file

def sysRmdir (env : Env) (file : Option String) : Except Errno Unit := sysPath env.rmdir file

def sysRename (env : Env) (source target : Option String) : Except Errno Unit :=
  match source, target with
  | some s, some t => env.rename s t
  | _, _ => Except.error EFAULT

/-- The events of a call and its `ssize_t` result. -/
abbrev Reply := List Event × Int

/-- The function `respond`: a message of the given kind, no descriptor, no parameter. -/
def respond (env : Env) (result : RapConstant) : Reply :=
  let message : Message := ⟨result, -1, 0, []⟩
  ([Event.sendMessage message], env.sendMessage message)

/-- The function `normalizeDirName`: the new string, one `/` longer when `isDir` holds
and the byte `file[size - 1]` is not `/` (for the empty string that byte is the one
stored before it). -/
def normalizeDirName (before : Char) (file : String) (isDir : Bool) : String :=
  if isDir && (file.data.getLast?.getD before != '/') then file ++ "/" else file

/-! ## Directory listing helpers -/

/-- The loop of `formatFileSize`: `left` is `8 - magnitude`; the test
`(tmpSize & 1023) != tmpSize` holds exactly when `tmpSize` is negative or at least 1024,
and `tmpSize >>= 10` is the division by 1024 rounded down. -/
def magnitudeLoop : Nat → Nat → Int → Nat × Int
  | 0, magnitude, tmpSize => (magnitude, tmpSize)
  | left + 1, magnitude, tmpSize =>
    if tmpSize < 0 ∨ 1024 ≤ tmpSize then magnitudeLoop left (magnitude + 1) (tmpSize / 1024)
    else (magnitude, tmpSize)

/-- The array `suffix` of `formatFileSize`; the literals `"PiB" "EiB"` have no comma
between them, so they are one entry. -/
def suffix : List String := ["B", "KiB", "MiB", "GiB", "TiB", "PiB" ++ "EiB", "ZiB", "YiB"]

/-- What `formatFileSize` hands to `snprintf`: the magnitude, the decimals of the format,
the divisor, and `suffix[magnitude]` (`none` past the end of the array). -/
structure FileSizeFormat where
  magnitude : Nat
  decimals : Nat
  divisor : Int
  suffixString : Option String
  deriving DecidableEq, Repr

/-- The function `formatFileSize` up to the call of `snprintf`.  The divisor
`((off_t) 1) << (magnitude * 10)` is kept as the power of two, also for the magnitudes 7
and 8 where the shift leaves the 64 bits of `off_t`. -/
def formatFileSizeParts (size : Int) : FileSizeFormat :=
  let r := magnitudeLoop 8 0 size
  let magnitude := r.1
  let tmpSize := r.2
  if magnitude > 0 then
    ⟨magnitude, if tmpSize ≥ 100 then 0 else if tmpSize ≥ 10 then 1 else 2,
      (2 : Int) ^ (magnitude * 10), suffix.get? magnitude⟩
  else
    ⟨magnitude, 0, 1, suffix.get? magnitude⟩

/-- The function `formatFileSize`: the text left in the buffer. -/
def formatFileSize (env : Env) (size : Int) : String :=
  let f := formatFileSizeParts size
  env.formatDouble f.decimals size f.divisor ++ " " ++ f.suffixString.getD ""

/-! ## Mime -/

/-- The function `strcmp` on the bytes of two strings. -/
def strcmp : List Char → List Char → Int
  | [], [] => 0
  | [], _ :: _ => -1
  | _ :: _, [] => 1
  | a :: as, b :: bs => if a = b then strcmp as bs else (a.toNat : Int) - (b.toNat : Int)

/-- The function `compareExt`. -/
def compareExt (a b : MimeType) : Int := strcmp a.fileExtension.data b.fileExtension.data

/-- The library function `bsearch` on the interval `[l, u)` of the table. -/
def bsearch (key : MimeType) (table : List MimeType) : Nat → Nat → Nat → Option MimeType
  | 0, _, _ => none
  | fuel + 1, l, u =>
    if l < u then
      let idx := (l + u) / 2
      match table.get? idx with
      | none => none
      | some p =>
        let comparison := compareExt key p
        if comparison < 0 then bsearch key table fuel l idx
        else if comparison > 0 then bsearch key table fuel (idx + 1) u
        else some p
    else none

/-- The scan of `findMimeType` from the end of the path: the first list holds the bytes
from the current one back to the start, the second the bytes after the current one.
`none` when a `/` or the start is reached before a `.`. -/
def scanExtension : List Char → List Char → Option (List Char)
  | [], _ => none
  | c :: before, after =>
    if c = '/' then none
    else if c = '.' then some after
    else scanExtension before (c :: after)

/-- The function `findMimeType`.  For the empty path the first byte read is the one stored
before the string. -/
def findMimeType (mimeTypes : List MimeType) (before : Char) (file : Option String) : MimeType :=
  match file with
  | none => UNKNOWN_MIME_TYPE
  | some f =>
    match scanExtension (if f.data = [] then [before] else f.data.reverse) [] with
    | none => UNKNOWN_MIME_TYPE
    | some ext =>
      match bsearch ⟨String.mk ext, "", 0⟩ mimeTypes (mimeTypes.length + 1) 0 mimeTypes.length with
      | some result => result
      | none => UNKNOWN_MIME_TYPE

/-! ## Error response -/

/-- The three response parameters filled in by the XML responses. -/
def xmlResponseParams (time : Int) (location : Param) : List (ParamName × Param) :=
  [(RAP_PARAM_RESPONSE_DATE, Param.time time),
   (RAP_PARAM_RESPONSE_MIME, Param.str XML_MIME_TYPE.type),
   (RAP_PARAM_RESPONSE_LOCATION, location)]

/-- The document written by `writeErrorResponse`. -/
def errorResponseXml (textError error file : Option String) : List XmlOp :=
  [XmlOp.startDocument "1.0" "utf-8",
   XmlOp.startElementNS "d" "error" (some WEBDAV_NAMESPACE),
   XmlOp.writeAttributeNS "xmlns" "x" none EXTENSIONS_NAMESPACE]
  ++ (match error with
      | some e =>
        [XmlOp.startElementNS "d" e none, XmlOp.startElementNS "d" "href" none,
         XmlOp.writeURL file, XmlOp.endElement, XmlOp.endElement]
      | none => [])
  ++ (match textError with
      | some t =>
        [XmlOp.startElementNS "x" "text-error" none, XmlOp.startElementNS "x" "href" none,
         XmlOp.writeURL file, XmlOp.writeElementString (some "x") "text" (some t),
         XmlOp.endElement, XmlOp.endElement]
      | none => [])
  ++ [XmlOp.endElement]

/-- The function `writeErrorResponse`. -/
def writeErrorResponse (env : Env) (responseCode : RapConstant) (textError error file : Option String) :
    Reply :=
  match env.pipe with
  | none => respond env RAP_RESPOND_INTERNAL_ERROR
  | some (pipeRead, pipeWrite) =>
    let message : Message :=
      ⟨responseCode, pipeRead, 2, xmlResponseParams env.time (stringToMessageParam file)⟩
    let messageResult := env.sendMessage message
    if messageResult ≤ 0 then
      ([Event.sendMessage message, Event.close pipeWrite], messageResult)
    else
      ([Event.sendMessage message, Event.writeXml pipeWrite (errorResponseXml textError error file)],
        messageResult)

/-! ## LOCK -/

/-- The structure `LockRequest`. -/
structure LockRequest where
  isNewLock : Bool
  type : LockType
  deriving DecidableEq, Repr

/-- The loop over the children of `lockscope` in `parseLockRequest`. -/
def lockScopeLoop (r : XmlReader) : Nat → Int → Nat → LockType → Option (Int × Nat × LockType)
  | 0, _, _, _ => none
  | fuel + 1, readResult, s, type =>
    if readResult ≠ 0 ∧ r.depth s = 2 then
      if r.isNamespaceElement s WEBDAV_NAMESPACE then
        match r.localName s with
        | none => none
        | some nodeName =>
          let type1 :=
            if nodeName = "shared" then
              (if type ≠ LOCK_TYPE_EXCLUSIVE then LOCK_TYPE_SHARED else type)
            else if nodeName = "exclusive" then LOCK_TYPE_EXCLUSIVE
            else type
          lockScopeLoop r fuel (r.stepOver s).1 (r.stepOver s).2 type1
      else lockScopeLoop r fuel (r.stepOver s).1 (r.stepOver s).2 type
    else some (readResult, s, type)

/-- The loop over the children of `locktype` in `parseLockRequest`. -/
def lockTypeLoop (r : XmlReader) : Nat → Int → Nat → LockType → Option (Int × Nat × LockType)
  | 0, _, _, _ => none
  | fuel + 1, readResult, s, type =>
    if readResult ≠ 0 ∧ r.depth s = 2 then
      if r.isNamespaceElement s WEBDAV_NAMESPACE then
        match r.localName s with
        | none => none
        | some nodeName =>
          let type1 :=
            if nodeName = "read" ∧ type ≠ LOCK_TYPE_EXCLUSIVE then LOCK_TYPE_SHARED
            else if nodeName = "write" then LOCK_TYPE_EXCLUSIVE
            else type
          lockTypeLoop r fuel (r.stepOver s).1 (r.stepOver s).2 type1
      else lockTypeLoop r fuel (r.stepOver s).1 (r.stepOver s).2 type
    else some (readResult, s, type)

/-- The loop over the children of `lockinfo` in `parseLockRequest`.  A node that is not
an element of the `DAV:` namespace is left where it is. -/
def lockInfoLoop (r : XmlReader) : Nat → Int → Nat → LockType → Option (Int × Nat × LockType)
  | 0, _, _, _ => none
  | fuel + 1, readResult, s, type =>
    if readResult ≠ 0 ∧ r.depth s = 1 then
      if r.isNamespaceElement s WEBDAV_NAMESPACE then
        match r.localName s with
        | none => none
        | some nodeName =>
          if nodeName = "lockscope" then
            match lockScopeLoop r fuel (r.stepInto s).1 (r.stepInto s).2 type with
            | none => none
            | some (readResult1, s1, type1) => lockInfoLoop r fuel readResult1 s1 type1
          else if nodeName = "locktype" then
            match lockTypeLoop r fuel (r.stepInto s).1 (r.stepInto s).2 type with
            | none => none
            | some (readResult1, s1, type1) => lockInfoLoop r fuel readResult1 s1 type1
          else lockInfoLoop r fuel (r.stepOver s).1 (r.stepOver s).2 type
      else lockInfoLoop r fuel readResult s type
    else some (readResult, s, type)

/-- The loop `while (readResult) readResult = stepOver(reader)`; the final state. -/
def finishLoop (r : XmlReader) : Nat → Int → Nat → Option Nat
  | 0, _, _ => none
  | fuel + 1, readResult, s =>
    if readResult ≠ 0 then finishLoop r fuel (r.stepOver s).1 (r.stepOver s).2 else some s

/-- The function `parseLockRequest`: its events and the request it fills in. -/
def parseLockRequest (fuel : Nat) (env : Env) (fd : Int) : Option (List Event × LockRequest) :=
  if fd = -1 then some ([], ⟨false, LOCK_TYPE_ZERO⟩)
  else
    match env.xmlReaderForFd fd with
    | none => some ([Event.close fd], ⟨false, LOCK_TYPE_ZERO⟩)
    | some r =>
      if (r.stepInto 0).1 = 0 ∨ r.elementMatches (r.stepInto 0).2 WEBDAV_NAMESPACE "lockinfo" = false then
        some ([Event.readXml fd, Event.close fd], ⟨false, LOCK_TYPE_ZERO⟩)
      else
        let s0 := (r.stepInto 0).2
        match lockInfoLoop r fuel (r.stepInto s0).1 (r.stepInto s0).2 LOCK_TYPE_ZERO with
        | none => none
        | some (readResult, s, type) =>
          match finishLoop r fuel readResult s with
          | none => none
          | some _ => some ([Event.readXml fd, Event.close fd], ⟨true, type⟩)

/-- Modelled from the spec: `LOCK_TOKEN_URN_PREFIX` of `shared.h` (section 4.3: the href of
the lock token is `urn:uuid:` followed by the token). -/
def LOCK_TOKEN_URN_PREFIX : String := "urn:uuid:"

/-- The conversion `(int) timeout` of a `time_t`. -/
def toInt32 (x : Int) : Int := (x + 2 ^ 31) % 2 ^ 32 - 2 ^ 31

/-- The document written by `writeLockResponse`. -/
def lockResponseXml (owner fileName : Option String) (request : LockRequest) (lockToken : Option String)
    (timeout : Int) : List XmlOp :=
  [XmlOp.startDocument "1.0" "utf-8",
   XmlOp.startElementNS "d" "prop" (some WEBDAV_NAMESPACE),
   XmlOp.startElementNS "d" "lockdiscovery" none,
   XmlOp.startElementNS "d" "activelock" none,
   XmlOp.startElementNS "d" "locktype" none,
   XmlOp.writeElementString (some "d") (if request.type = LOCK_TYPE_EXCLUSIVE then "write" else "read") none,
   XmlOp.endElement,
   XmlOp.startElementNS "d" "lockscope" none,
   XmlOp.writeElementString (some "d")
     (if request.type = LOCK_TYPE_EXCLUSIVE then "exclusive" else "shared") none,
   XmlOp.endElement,
   XmlOp.writeElementString (some "d") "depth" (some "infinity"),
   XmlOp.writeElementString (some "d") "owner" owner,
   XmlOp.startElementNS "d" "lockroot" none,
   XmlOp.startElementNS "d" "href" none,
   XmlOp.writeURL fileName,
   XmlOp.endElement,
   XmlOp.endElement,
   XmlOp.startElementNS "d" "locktoken" none,
   XmlOp.startElementNS "d" "href" none,
   XmlOp.writeFormatString (LOCK_TOKEN_URN_PREFIX ++ lockToken.getD "(null)"),
   XmlOp.endElement,
   XmlOp.endElement,
   XmlOp.startElement "d:timeout",
   XmlOp.writeFormatString ("Second-" ++ toString (toInt32 timeout)),
   XmlOp.endElement,
   XmlOp.endElement,
   XmlOp.endElement,
   XmlOp.endElement]

/-- The function `writeLockResponse`. -/
def writeLockResponse (env : Env) (st : WorkerState) (fileName : Option String) (request : LockRequest)
    (lockToken : Option String) (timeout : Int) : Reply :=
  match env.pipe with
  | none => respond env RAP_RESPOND_INTERNAL_ERROR
  | some (pipeRead, pipeWrite) =>
    let message : Message :=
      ⟨RAP_RESPOND_OK, pipeRead, 2, xmlResponseParams env.time (stringToMessageParam fileName)⟩
    let messageResult := env.sendMessage message
    if messageResult ≤ 0 then
      ([Event.sendMessage message, Event.close pipeWrite], messageResult)
    else
      ([Event.sendMessage message,
        Event.writeXml pipeWrite
          (lockResponseXml st.authenticatedUser fileName request lockToken timeout)],
        messageResult)

/-- The second phase of `lockFile`: the exchange with the lock coordinator and the final
response.  `none` when the reply carries no binary timeout to read. -/
def lockFileComplete (env : Env) (st : WorkerState) (file : Option String) (lockRequest : LockRequest)
    (interimMessage : Message) : Option Reply :=
  let ioResponse := (env.sendRecvMessage interimMessage).1
  let reply := (env.sendRecvMessage interimMessage).2
  if ioResponse ≤ 0 then some ([Event.sendRecvMessage interimMessage], ioResponse)
  else if reply.mID = RAP_COMPLETE_REQUEST_LOCK then
    match reply.param RAP_PARAM_LOCK_TIMEOUT with
    | Param.time timeout =>
      let w := writeLockResponse env st file lockRequest
        (messageParamToString (reply.param RAP_PARAM_LOCK_TOKEN)) timeout
      some (Event.sendRecvMessage interimMessage :: w.1, w.2)
    | _ => none
  else
    let w := writeErrorResponse env reply.mID (messageParamToString (reply.param RAP_PARAM_ERROR_REASON))
      none file
    some (Event.sendRecvMessage interimMessage :: w.1, w.2)

/-- The first phase of `lockFile` once the body has been parsed: either the final reply,
or the events so far and the interim message for the coordinator. -/
def lockFilePrepare (env : Env) (message : Message) (lockRequest : LockRequest) :
    Reply ⊕ (List Event × Message) :=
  let file := messageParamToString (message.param RAP_PARAM_REQUEST_FILE)
  let lockToken := messageParamToString (message.param RAP_PARAM_REQUEST_LOCK)
  if lockRequest.isNewLock then
    if lockToken.isSome then
      Sum.inl (writeErrorResponse env RAP_RESPOND_BAD_CLIENT_REQUEST
        (some "lock-token header provided for new lock") (some "lock-token-submitted") file)
    else
      let openFlags :=
        if lockRequest.type = LOCK_TYPE_EXCLUSIVE then [O_WRONLY, O_CREAT] else [O_RDONLY]
      match sysOpen env file openFlags with
      | Except.error e =>
        let w :=
          match e with
          | EACCES => writeErrorResponse env RAP_RESPOND_ACCESS_DENIED (some (env.strerror e)) none file
          | ENOENT => writeErrorResponse env RAP_RESPOND_NOT_FOUND (some (env.strerror e)) none file
          | _ => writeErrorResponse env RAP_RESPOND_NOT_FOUND (some (env.strerror e)) none file
        Sum.inl (Event.open file openFlags :: w.1, w.2)
      | Except.ok fd =>
        if (env.fstat fd).st_mode ≠ S_IFREG then
          let w := writeErrorResponse env RAP_RESPOND_CONFLICT (some "Refusing to non-regular file") none file
          Sum.inl (Event.open file openFlags :: Event.close fd :: w.1, w.2)
        else
          match env.flock fd lockRequest.type with
          | Except.error e =>
            let w := writeErrorResponse env RAP_RESPOND_LOCKED (some (env.strerror e))
              (some "no-conflicting-lock") file
            Sum.inl (Event.open file openFlags :: Event.flock fd lockRequest.type :: Event.close fd :: w.1,
              w.2)
          | Except.ok _ =>
            Sum.inr ([Event.open file openFlags, Event.flock fd lockRequest.type],
              ⟨RAP_INTERIM_RESPOND_LOCK, fd, 2,
                [(RAP_PARAM_LOCK_LOCATION, message.param RAP_PARAM_REQUEST_FILE),
                 (RAP_PARAM_LOCK_TYPE, Param.lockType lockRequest.type)]⟩)
  else
    if lockToken.isNone then
      Sum.inl (writeErrorResponse env RAP_RESPOND_BAD_CLIENT_REQUEST
        (some "No lock tokent submitted for refresh request") (some "lock-token-submitted") file)
    else
      Sum.inr ([],
        ⟨RAP_INTERIM_RESPOND_RELOCK, -1, 2,
          [(RAP_PARAM_LOCK_LOCATION, message.param RAP_PARAM_REQUEST_FILE),
           (RAP_PARAM_LOCK_TOKEN, stringToMessageParam lockToken)]⟩)

/-- The function `lockFile`. -/
def lockFile (fuel : Nat) (env : Env) (st : WorkerState) (message : Message) : Option Reply :=
  let file := messageParamToString (message.param RAP_PARAM_REQUEST_FILE)
  let c := respond env RAP_RESPOND_CONTINUE
  match parseLockRequest fuel env message.fd with
  | none => none
  | some (parseEvents, lockRequest) =>
    match lockFilePrepare env message lockRequest with
    | Sum.inl w => some (c.1 ++ parseEvents ++ w.1, w.2)
    | Sum.inr (events, interimMessage) =>
      match lockFileComplete env st file lockRequest interimMessage with
      | none => none
      | some w => some (c.1 ++ parseEvents ++ events ++ w.1, w.2)

/-! ## PROPFIND -/

def PROPFIND_RESOURCE_TYPE : String := "resourcetype"
def PROPFIND_CREATION_DATE : String := "creationdate"
def PROPFIND_CONTENT_LENGTH : String := "getcontentlength"
def PROPFIND_LAST_MODIFIED : String := "getlastmodified"
def PROPFIND_DISPLAY_NAME : String := "displayname"
def PROPFIND_CONTENT_TYPE : String := "getcontenttype"
def PROPFIND_USED_BYTES : String := "quota-used-bytes"
def PROPFIND_AVAILABLE_BYTES : String := "quota-available-bytes"
def PROPFIND_ETAG : String := "getetag"
def PROPFIND_WINDOWS_ATTRIBUTES : String := "Win32FileAttributes"

/-- The structure `PropertySet`; a `char` flag is `true` when it is not zero. -/
structure PropertySet where
  creationDate : Bool
  displayName : Bool
  contentLength : Bool
  contentType : Bool
  etag : Bool
  lastModified : Bool
  resourceType : Bool
  usedBytes : Bool
  availableBytes : Bool
  windowsHidden : Bool
  deriving DecidableEq, Repr

/-- The result of `memset(properties, 1, sizeof(*properties))`. -/
def PropertySet.all : PropertySet := ⟨true, true, true, true, true, true, true, true, true, true⟩

/-- The result of `memset(properties, 0, sizeof(PropertySet))`. -/
def PropertySet.none : PropertySet :=
  ⟨false, false, false, false, false, false, false, false, false, false⟩

/-- The first loop of `parsePropFind`, which looks for the `prop` element; the result of
`stepOver` is not stored, so `readResult` stays what it was. -/
def findPropLoop (r : XmlReader) (readResult : Int) : Nat → Nat → Option Nat
  | 0, _ => none
  | fuel + 1, s =>
    if readResult ≠ 0 ∧ r.depth s > 0 ∧ r.elementMatches s WEBDAV_NAMESPACE "prop" = false then
      findPropLoop r readResult fuel (r.stepOver s).2
    else some s

/-- The flag set in `parsePropFind` for one child of `prop` in the `DAV:` namespace. -/
def setDavProperty (nodeName : String) (p : PropertySet) : PropertySet :=
  if nodeName = PROPFIND_RESOURCE_TYPE then { p with resourceType := true }
  else if nodeName = PROPFIND_CREATION_DATE then { p with creationDate := true }
  else if nodeName = PROPFIND_CONTENT_LENGTH then { p with contentLength := true }
  else if nodeName = PROPFIND_LAST_MODIFIED then { p with lastModified := true }
  else if nodeName = PROPFIND_DISPLAY_NAME then { p with displayName := true }
  else if nodeName = PROPFIND_CONTENT_TYPE then { p with contentType := true }
  else if nodeName = PROPFIND_AVAILABLE_BYTES then { p with availableBytes := true }
  else if nodeName = PROPFIND_USED_BYTES then { p with usedBytes := true }
  else if nodeName = PROPFIND_ETAG then { p with etag := true }
  else p

/-- The second loop of `parsePropFind`, over the children of `prop`.  `strcmp` on a `NULL`
namespace or name does not come back. -/
def propLoop (r : XmlReader) : Nat → Int → Nat → PropertySet → Option (Nat × PropertySet)
  | 0, _, _, _ => none
  | fuel + 1, readResult, s, p =>
    if readResult ≠ 0 ∧ r.depth s > 1 then
      match r.namespaceUri s with
      | none => none
      | some ns =>
        if ns = WEBDAV_NAMESPACE then
          match r.localName s with
          | none => none
          | some nodeName => propLoop r fuel (r.stepOver s).1 (r.stepOver s).2 (setDavProperty nodeName p)
        else if ns = MICROSOFT_NAMESPACE then
          match r.localName s with
          | none => none
          | some nodeName =>
            propLoop r fuel (r.stepOver s).1 (r.stepOver s).2
              (if nodeName = PROPFIND_WINDOWS_ATTRIBUTES then { p with windowsHidden := true } else p)
        else propLoop r fuel (r.stepOver s).1 (r.stepOver s).2 p
    else some (s, p)

/-- The loop `while (stepOver(reader));`. -/
def consumeLoop (r : XmlReader) : Nat → Nat → Option Nat
  | 0, _ => none
  | fuel + 1, s => if (r.stepOver s).1 ≠ 0 then consumeLoop r fuel (r.stepOver s).2 else some (r.stepOver s).2

/-- The function `parsePropFind`: its events, its `int` result and the property set. -/
def parsePropFind (fuel : Nat) (env : Env) (fd : Int) : Option (List Event × Int × PropertySet) :=
  match env.xmlReaderForFd fd with
  | none => some ([Event.close fd], 0, PropertySet.none)
  | some r =>
    if (r.stepInto 0).1 = 0 then some ([Event.readXml fd, Event.close fd], 0, PropertySet.none)
    else
      let s0 := (r.stepInto 0).2
      if r.nodeTypeIsNone s0 then some ([Event.readXml fd, Event.close fd], 1, PropertySet.all)
      else if r.elementMatches s0 WEBDAV_NAMESPACE "propfind" = false then
        some ([Event.readXml fd, Event.close fd], 0, PropertySet.none)
      else
        let readResult := (r.stepInto s0).1
        match findPropLoop r readResult fuel (r.stepInto s0).2 with
        | none => none
        | some s1 =>
          if readResult = 0 then some ([Event.readXml fd, Event.close fd], 0, PropertySet.none)
          else
            match propLoop r fuel (r.stepInto s1).1 (r.stepInto s1).2 PropertySet.none with
            | none => none
            | some (s2, p) =>
              match consumeLoop r fuel s2 with
              | none => none
              | some _ => some ([Event.readXml fd, Event.close fd], 1, p)

/-- The product `a * b` of two `unsigned long` values. -/
def mulU64 (a b : Nat) : Nat := (a * b) % 2 ^ 64

/-- The difference `a - b` of two `unsigned long` values. -/
def subU64 (a b : Nat) : Nat := (a % 2 ^ 64 + 2 ^ 64 - b % 2 ^ 64) % 2 ^ 64

/-- The elements that `writePropFindResponsePart` writes between the start and the end of
`d:prop`.  The `displayname` block of the source is commented out. -/
def propElements (env : Env) (st : WorkerState) (fileName displayName : String) (properties : PropertySet)
    (fileStat : Stat) : List XmlOp :=
  (if properties.etag then
     [XmlOp.writeElementString (some "d") PROPFIND_ETAG
        (some (toString fileStat.st_size ++ "-" ++ toString fileStat.st_mtime))]
   else [])
  ++ (if properties.creationDate then
        [XmlOp.writeElementString (some "d") PROPFIND_CREATION_DATE (some (env.getWebDate fileStat.st_ctime))]
      else [])
  ++ (if properties.lastModified then
        [XmlOp.writeElementString (some "d") PROPFIND_LAST_MODIFIED (some (env.getWebDate fileStat.st_ctime))]
      else [])
  ++ (if properties.resourceType then
        [XmlOp.startElementNS "d" PROPFIND_RESOURCE_TYPE none]
        ++ (if fileStat.st_mode = S_IFDIR then [XmlOp.startElementNS "d" "collection" none, XmlOp.endElement]
            else [])
        ++ [XmlOp.endElement]
      else [])
  ++ (if fileStat.st_mode = S_IFDIR then
        (if properties.availableBytes then
           match env.statvfs fileName with
           | some fsStat =>
             [XmlOp.writeElementString (some "d") PROPFIND_AVAILABLE_BYTES
                (some (toString (mulU64 fsStat.f_bavail fsStat.f_bsize)))]
             ++ (if properties.usedBytes then
                   [XmlOp.writeElementString (some "d") PROPFIND_USED_BYTES
                      (some (toString (mulU64 (subU64 fsStat.f_blocks fsStat.f_bfree) fsStat.f_bsize)))]
                 else [])
           | none => []
         else [])
        ++ (if properties.usedBytes then
              match env.statvfs fileName with
              | some fsStat =>
                [XmlOp.writeElementString (some "d") PROPFIND_USED_BYTES
                   (some (toString (mulU64 (subU64 fsStat.f_blocks fsStat.f_bfree) fsStat.f_bsize)))]
              | none => []
            else [])
        ++ (if properties.windowsHidden then
              [XmlOp.writeElementString (some "z") PROPFIND_WINDOWS_ATTRIBUTES
                 (some (if displayName.data.head? = some '.' then "00000012" else "00000010"))]
            else [])
      else
        (if properties.contentLength then
           [XmlOp.writeElementString (some "d") PROPFIND_CONTENT_LENGTH (some (toString fileStat.st_size))]
         else [])
        ++ (if properties.contentType then
              [XmlOp.writeElementString (some "d") PROPFIND_CONTENT_TYPE
                 (some (findMimeType st.mimeTypes (env.byteBefore fileName) (some fileName)).type)]
            else [])
        ++ (if properties.windowsHidden then
              [XmlOp.writeElementString (some "z") PROPFIND_WINDOWS_ATTRIBUTES
                 (some (if displayName.data.head? = some '.' then "00000022" else "00000020"))]
            else []))

/-- The function `writePropFindResponsePart`. -/
def writePropFindResponsePart (env : Env) (st : WorkerState) (fileName displayName : String)
    (properties : PropertySet) (fileStat : Stat) : List XmlOp :=
  [XmlOp.startElementNS "d" "response" none,
   XmlOp.startElementNS "d" "href" none,
   XmlOp.writeURL (some fileName),
   XmlOp.endElement,
   XmlOp.startElementNS "d" "propstat" none,
   XmlOp.startElementNS "d" "prop" none]
  ++ propElements env st fileName displayName properties fileStat
  ++ [XmlOp.endElement,
      XmlOp.writeElementString (some "d") "status" (some "HTTP/1.1 200 OK"),
      XmlOp.endElement,
      XmlOp.endElement]

/-- The test of `respondToPropFind` on a directory entry: `true` when the entry is listed. -/
def childFilter (dp : Dirent) : Bool :=
  dp.byte 0 != '.' || (dp.byte 1 != NUL && dp.byte 1 != '.') || dp.byte 2 != NUL

/-- The body of the `readdir` loop of `respondToPropFind` for one entry. -/
def propFindChild (env : Env) (st : WorkerState) (filePath : String) (properties : PropertySet)
    (dp : Dirent) : List XmlOp :=
  if childFilter dp then
    let childFileName := filePath ++ dp.name
    match env.stat childFileName with
    | Except.ok fileStat =>
      writePropFindResponsePart env st
        (if fileStat.st_mode = S_IFDIR then childFileName ++ "/" else childFileName)
        dp.name properties fileStat
    | Except.error _ => []
  else []

/-- The loop `while ((dp = readdir(dir)) != NULL)` of `respondToPropFind`. -/
def readdirLoop (env : Env) (st : WorkerState) (filePath : String) (properties : PropertySet) :
    List Dirent → List XmlOp
  | [] => []
  | dp :: rest => propFindChild env st filePath properties dp ++ readdirLoop env st filePath properties rest

/-- The name computed in `respondToPropFind`: from `&file[fileNameSize - 2]` back to the
byte after the previous `/`, or to the start of the path. -/
def displayNameOf (before : Char) (file : String) : String :=
  if file.data = [] then (if before = NUL then "" else String.mk [before])
  else
    String.mk ((file.data.dropLast.reverse.takeWhile (fun c => c != '/')).reverse
      ++ file.data.drop (file.data.length - 1))

/-- The document written by `respondToPropFind`. -/
def propFindXml (env : Env) (st : WorkerState) (file filePath : String) (properties : PropertySet)
    (fileStat : Stat) (depth : Int) : List XmlOp :=
  [XmlOp.startDocument "1.0" "utf-8",
   XmlOp.startElementNS "d" "multistatus" (some WEBDAV_NAMESPACE),
   XmlOp.writeAttribute "xmlns:z" MICROSOFT_NAMESPACE]
  ++ writePropFindResponsePart env st filePath (displayNameOf (env.byteBefore file) file) properties fileStat
  ++ (if depth > 1 ∧ fileStat.st_mode = S_IFDIR then
        match env.opendir filePath with
        | some entries => readdirLoop env st filePath properties entries
        | none => []
      else [])
  ++ [XmlOp.endElement]

/-- The function `respondToPropFind`. -/
def respondToPropFind (env : Env) (st : WorkerState) (file : Option String) (properties : PropertySet)
    (depth : Int) : Reply :=
  match file with
  | none => respond env RAP_RESPOND_NOT_FOUND
  | some f =>
    match env.stat f with
    | Except.error e =>
      match e with
      | EACCES => respond env RAP_RESPOND_ACCESS_DENIED
      | _ => respond env RAP_RESPOND_NOT_FOUND
    | Except.ok fileStat =>
      match env.pipe with
      | none => respond env RAP_RESPOND_INTERNAL_ERROR
      | some (pipeRead, pipeWrite) =>
        let filePath := normalizeDirName (env.byteBefore f) f (fileStat.st_mode = S_IFDIR)
        let message : Message :=
          ⟨RAP_RESPOND_MULTISTATUS, pipeRead, 2, xmlResponseParams env.time (Param.str filePath)⟩
        let messageResult := env.sendMessage message
        if messageResult ≤ 0 then
          ([Event.sendMessage message, Event.close pipeWrite], messageResult)
        else
          ([Event.sendMessage message,
            Event.writeXml pipeWrite (propFindXml env st f filePath properties fileStat depth)],
            messageResult)

/-- The function `propfind`. -/
def propfind (fuel : Nat) (env : Env) (st : WorkerState) (requestMessage : Message) : Option Reply :=
  if requestMessage.paramCount ≠ 3 then
    let w := respond env RAP_RESPOND_INTERNAL_ERROR
    some (Event.close requestMessage.fd :: w.1, w.2)
  else
    let file := messageParamToString (requestMessage.param RAP_PARAM_REQUEST_FILE)
    let depthString := (messageParamToString (requestMessage.param RAP_PARAM_REQUEST_DEPTH)).getD "1"
    let depth : Int := if strcmp "0".data depthString.data ≠ 0 then 2 else 1
    if requestMessage.fd = -1 then
      some (respondToPropFind env st file PropertySet.all depth)
    else
      let c := respond env RAP_RESPOND_CONTINUE
      if c.2 < 0 then some c
      else
        match parsePropFind fuel env requestMessage.fd with
        | none => none
        | some (parseEvents, ret, properties) =>
          if ret = 0 then
            let w := respond env RAP_RESPOND_BAD_CLIENT_REQUEST
            some (c.1 ++ parseEvents ++ w.1, w.2)
          else
            let w := respondToPropFind env st file properties depth
            some (c.1 ++ parseEvents ++ w.1, w.2)

/-! ## PROPPATCH -/

/-- The loop `while ((bytesRead = read(fd, ...)) > 0)` of `proppatch`, which drops what it
reads. -/
def drainBody (fd : Int) : List (Int × Int) → List Event
  | [] => [Event.read fd 0]
  | (bytesRead, _) :: rest =>
    if bytesRead > 0 then Event.read fd bytesRead :: drainBody fd rest else [Event.read fd bytesRead]

/-- The function `proppatch`. -/
def proppatch (env : Env) (st : WorkerState) (requestMessage : Message) : Reply :=
  if requestMessage.fd ≠ -1 then
    let c := respond env RAP_RESPOND_CONTINUE
    let file := messageParamToString (requestMessage.param RAP_PARAM_REQUEST_FILE)
    let w := respondToPropFind env st file PropertySet.all 1
    (c.1 ++ drainBody requestMessage.fd env.chunks ++ [Event.close requestMessage.fd] ++ w.1, w.2)
  else respond env RAP_RESPOND_BAD_CLIENT_REQUEST

/-! ## MKCOL, COPY, MOVE, DELETE -/

/-- The statement `if (requestMessage->fd != -1) close(requestMessage->fd);`. -/
def closeRequestFd (requestMessage : Message) : List Event :=
  if requestMessage.fd ≠ -1 then [Event.close requestMessage.fd] else []

/-- The function `mkcol`. -/
def mkcol (env : Env) (requestMessage : Message) : Reply :=
  let fileName := messageParamToString (requestMessage.param RAP_PARAM_REQUEST_FILE)
  let w :=
    match sysMkdir env fileName with
    | Except.error e =>
      match e with
      | EACCES => writeErrorResponse env RAP_RESPOND_ACCESS_DENIED (some (env.strerror e)) none fileName
      | ENOSPC => writeErrorResponse env RAP_RESPOND_INSUFFICIENT_STORAGE (some (env.strerror e)) none fileName
      | EDQUOT => writeErrorResponse env RAP_RESPOND_INSUFFICIENT_STORAGE (some (env.strerror e)) none fileName
      | _ => writeErrorResponse env RAP_RESPOND_CONFLICT (some (env.strerror e)) none fileName
    | Except.ok _ => respond env RAP_RESPOND_CREATED
  (closeRequestFd requestMessage ++ [Event.mkdir fileName] ++ w.1, w.2)

/-- The function `_copyFile`. -/
def _copyFile (_sourceFile _targetFile : Option String) : Int := -1

/-- The function `copyFile`. -/
def copyFile (env : Env) (requestMessage : Message) : Reply :=
  let w := respond env RAP_RESPOND_INTERNAL_ERROR
  (closeRequestFd requestMessage ++ w.1, w.2)

/-- The function `moveFile`. -/
def moveFile (env : Env) (requestMessage : Message) : Reply :=
  let sourceFile := messageParamToString (requestMessage.param RAP_PARAM_REQUEST_FILE)
  let targetFile := messageParamToString (requestMessage.param RAP_PARAM_REQUEST_TARGET)
  let w : Reply :=
    if targetFile.isNone then
      writeErrorResponse env RAP_RESPOND_BAD_CLIENT_REQUEST (some "Target not specified") none sourceFile
    else
      match sysRename env sourceFile targetFile with
      | Except.error e =>
        if e = EXDEV then
          if _copyFile sourceFile targetFile ≠ -1 then
            match sysUnlink env sourceFile with
            | Except.error e1 =>
              let r := writeErrorResponse env RAP_RESPOND_INTERNAL_ERROR (some (env.strerror e1)) none sourceFile
              (Event.rename sourceFile targetFile :: Event.unlink sourceFile :: r.1, r.2)
            | Except.ok _ =>
              let r := respond env RAP_RESPOND_OK_NO_CONTENT
              (Event.rename sourceFile targetFile :: Event.unlink sourceFile :: r.1, r.2)
          else
            let r := respond env RAP_RESPOND_OK_NO_CONTENT
            (Event.rename sourceFile targetFile :: r.1, r.2)
        else
          let r :=
            match e with
            | EPERM => writeErrorResponse env RAP_RESPOND_ACCESS_DENIED (some (env.strerror e)) none sourceFile
            | EACCES => writeErrorResponse env RAP_RESPOND_ACCESS_DENIED (some (env.strerror e)) none sourceFile
            | EDQUOT =>
              writeErrorResponse env RAP_RESPOND_INSUFFICIENT_STORAGE (some (env.strerror e)) none sourceFile
            | _ => writeErrorResponse env RAP_RESPOND_CONFLICT (some (env.strerror e)) none sourceFile
          (Event.rename sourceFile targetFile :: r.1, r.2)
      | Except.ok _ =>
        let r := respond env RAP_RESPOND_OK_NO_CONTENT
        (Event.rename sourceFile targetFile :: r.1, r.2)
  (closeRequestFd requestMessage ++ w.1, w.2)

/-- The response of `deleteFile` to a failure, chosen by the value of `errno` after the
call of `stdLogError`. -/
def deleteError (env : Env) (e : Errno) : Reply :=
  match env.errnoAfterLog e with
  | EACCES => respond env RAP_RESPOND_ACCESS_DENIED
  | EPERM => respond env RAP_RESPOND_ACCESS_DENIED
  | ENOTDIR => respond env RAP_RESPOND_NOT_FOUND
  | ENOENT => respond env RAP_RESPOND_NOT_FOUND
  | _ => respond env RAP_RESPOND_INTERNAL_ERROR

/-- The function `deleteFile`. -/
def deleteFile (env : Env) (requestMessage : Message) : Reply :=
  let file := messageParamToString (requestMessage.param RAP_PARAM_REQUEST_FILE)
  let w : Reply :=
    match sysStat env file with
    | Except.error e => deleteError env e
    | Except.ok fileStat =>
      if fileStat.st_mode ≠ S_IFDIR then
        match sysUnlink env file with
        | Except.error e => let r := deleteError env e; (Event.unlink file :: r.1, r.2)
        | Except.ok _ => let r := respond env RAP_RESPOND_OK_NO_CONTENT; (Event.unlink file :: r.1, r.2)
      else
        match sysRmdir env file with
        | Except.error e => let r := deleteError env e; (Event.rmdir file :: r.1, r.2)
        | Except.ok _ => let r := respond env RAP_RESPOND_OK_NO_CONTENT; (Event.rmdir file :: r.1, r.2)
  (closeRequestFd requestMessage ++ w.1, w.2)

/-! ## PUT -/

/-- The copy loop of `writeFile`: its events, and whether it stopped on a short write. -/
def copyBody (requestFd fd : Int) : List (Int × Int) → List Event × Bool
  | [] => ([Event.read requestFd 0], false)
  | (bytesRead, bytesWritten) :: rest =>
    if bytesRead > 0 then
      if bytesWritten < bytesRead then
        ([Event.read requestFd bytesRead, Event.write fd bytesWritten], true)
      else
        let r := copyBody requestFd fd rest
        (Event.read requestFd bytesRead :: Event.write fd bytesWritten :: r.1, r.2)
    else ([Event.read requestFd bytesRead], false)

/-- The function `writeFile`. -/
def writeFile (env : Env) (requestMessage : Message) : Reply :=
  if requestMessage.fd = -1 then respond env RAP_RESPOND_INTERNAL_ERROR
  else
    let file := messageParamToString (requestMessage.param RAP_PARAM_REQUEST_FILE)
    let openFlags := [O_WRONLY, O_CREAT, O_TRUNC]
    match sysOpen env file openFlags with
    | Except.error e =>
      let r :=
        match e with
        | EACCES => respond env RAP_RESPOND_ACCESS_DENIED
        | _ => respond env RAP_RESPOND_CONFLICT
      (Event.open file openFlags :: r.1, r.2)
    | Except.ok fd =>
      let c := respond env RAP_RESPOND_CONTINUE
      if c.2 < 0 then (Event.open file openFlags :: c.1, c.2)
      else
        let body := copyBody requestMessage.fd fd env.chunks
        let r :=
          if body.2 then respond env RAP_RESPOND_INSUFFICIENT_STORAGE
          else respond env RAP_RESPOND_CREATED
        (Event.open file openFlags :: c.1 ++ body.1 ++ [Event.close fd, Event.close requestMessage.fd] ++ r.1,
          r.2)

/-! ## GET -/

/-- The function `compareDirent`. -/
def compareDirent (env : Env) (lhs rhs : Dirent) : Int :=
  let result := env.strcoll lhs.name rhs.name
  if result ≠ 0 then result else strcmp lhs.name.data rhs.name.data

/-- The table row that `listDir` writes for one entry; entries whose name starts with `.`
give nothing. -/
def listDirRow (env : Env) (st : WorkerState) (filePath : String) (dirFd : Int) (dp : Dirent) : List XmlOp :=
  if dp.byte 0 != '.' then
    let stat := env.fstatat dirFd dp.name
    [XmlOp.startElement "tr",
     XmlOp.writeElementString none "td" (some (if dp.d_type = DT_DIR then "dir" else "file")),
     XmlOp.startElement "td",
     XmlOp.startElement "a",
     XmlOp.startAttribute "href",
     XmlOp.writeURL (some filePath),
     XmlOp.writeURL (some dp.name)]
    ++ (if dp.d_type = DT_DIR then [XmlOp.writeString "/"] else [])
    ++ [XmlOp.endAttribute, XmlOp.writeString dp.name]
    ++ (if dp.d_type = DT_DIR then [XmlOp.writeString "/"] else [])
    ++ [XmlOp.endElement,
        (if dp.d_type = DT_REG then XmlOp.writeElementString none "td" (some (formatFileSize env stat.st_size))
         else XmlOp.writeElementString none "td" (some "-")),
        XmlOp.writeElementString none "td"
          (some (if dp.d_type = DT_DIR then "-"
                 else (findMimeType st.mimeTypes (env.byteBefore dp.name) (some dp.name)).type)),
        XmlOp.writeElementString none "td" (some (env.getLocalDate stat.st_mtime)),
        XmlOp.endElement,
        XmlOp.endElement]
  else []

/-- The loop over the sorted entries in `listDir`. -/
def listDirRows (env : Env) (st : WorkerState) (filePath : String) (dirFd : Int) : List Dirent → List XmlOp
  | [] => []
  | dp :: rest => listDirRow env st filePath dirFd dp ++ listDirRows env st filePath dirFd rest

/-- The function `listDir`; `qsort` is a sort by `compareDirent`. -/
def listDir (env : Env) (st : WorkerState) (file : String) (dirFd writeFd : Int) : List Event :=
  let filePath := normalizeDirName (env.byteBefore file) file true
  let directoryEntries :=
    (env.fdopendir dirFd).mergeSort (fun a b => decide (compareDirent env a b ≤ 0))
  [Event.writeXml writeFd
    ([XmlOp.startElement "html",
      XmlOp.startElement "head",
      XmlOp.writeElementString none "title" (some filePath),
      XmlOp.endElement,
      XmlOp.startElement "body",
      XmlOp.writeElementString none "h1" (some filePath),
      XmlOp.startElement "table",
      XmlOp.writeAttribute "cellpadding" "5",
      XmlOp.writeAttribute "cellspacing" "5",
      XmlOp.writeAttribute "border" "1",
      XmlOp.writeElementString none "th" (some "Type"),
      XmlOp.writeElementString none "th" (some "Name"),
      XmlOp.writeElementString none "th" (some "Size"),
      XmlOp.writeElementString none "th" (some "Mime Type"),
      XmlOp.writeElementString none "th" (some "Last Modified")]
     ++ listDirRows env st filePath dirFd directoryEntries
     ++ [XmlOp.endElement, XmlOp.endElement, XmlOp.endElement]),
   Event.close dirFd]

/-- The function `readFile`. -/
def readFile (env : Env) (st : WorkerState) (requestMessage : Message) : Reply :=
  let file := messageParamToString (requestMessage.param RAP_PARAM_REQUEST_FILE)
  let w : Reply :=
    match file with
    | none => let r := respond env RAP_RESPOND_NOT_FOUND; (Event.open file [O_RDONLY] :: r.1, r.2)
    | some f =>
      match env.openFile f [O_RDONLY] with
      | Except.error e =>
        let r :=
          match e with
          | EACCES => respond env RAP_RESPOND_ACCESS_DENIED
          | _ => respond env RAP_RESPOND_NOT_FOUND
        (Event.open file [O_RDONLY] :: r.1, r.2)
      | Except.ok fd =>
        let statinfo := env.fstat fd
        if statinfo.st_mode = S_IFDIR then
          match env.pipe with
          | none =>
            let r := respond env RAP_RESPOND_INTERNAL_ERROR
            (Event.open file [O_RDONLY] :: Event.close fd :: r.1, r.2)
          | some (pipeRead, pipeWrite) =>
            let message : Message :=
              ⟨RAP_RESPOND_OK, pipeRead, 3,
                [(RAP_PARAM_RESPONSE_DATE, Param.time env.time),
                 (RAP_PARAM_RESPONSE_MIME, Param.str "text/html"),
                 (RAP_PARAM_RESPONSE_LOCATION, requestMessage.param RAP_PARAM_REQUEST_FILE)]⟩
            let messageResult := env.sendMessage message
            if messageResult ≤ 0 then
              ([Event.open file [O_RDONLY], Event.sendMessage message, Event.close fd, Event.close pipeWrite],
                messageResult)
            else
              (Event.open file [O_RDONLY] :: Event.sendMessage message :: listDir env st f fd pipeWrite,
                messageResult)
        else
          let mimeType := findMimeType st.mimeTypes (env.byteBefore f) file
          let message : Message :=
            ⟨RAP_RESPOND_OK, fd, 3,
              [(RAP_PARAM_RESPONSE_DATE, Param.time statinfo.st_mtime),
               (RAP_PARAM_RESPONSE_MIME, Param.str mimeType.type),
               (RAP_PARAM_RESPONSE_LOCATION, requestMessage.param RAP_PARAM_REQUEST_FILE)]⟩
          ([Event.open file [O_RDONLY], Event.sendMessage message], env.sendMessage message)
  (closeRequestFd requestMessage ++ w.1, w.2)

/-! ## Authenticate -/

/-- The function `pamAuthenticate`: its `int` result and the process-wide state it
leaves.  Every `return 0` of the source comes before the assignments to
`authenticatedUser` and `authenticated`. -/
def pamAuthenticate (env : Env) (st : WorkerState) (_user _password _hostname : Option String) :
    Bool × WorkerState :=
  if env.pam_start = false then (false, st)
  else if env.pam_session = false then (false, st)
  else
    match env.pam_user with
    | none => (false, st)
    | some user =>
      if env.lockToUser = false then (false, st)
      else (true, { st with authenticated := true, authenticatedUser := some user })

/-- The function `authenticate`. -/
def authenticate (env : Env) (st : WorkerState) (message : Message) : Reply × WorkerState :=
  let user := messageParamToString (message.param RAP_PARAM_AUTH_USER)
  let password := messageParamToString (message.param RAP_PARAM_AUTH_PASSWORD)
  let rhost := messageParamToString (message.param RAP_PARAM_AUTH_RHOST)
  let a := pamAuthenticate env st user password rhost
  let r := if a.1 then respond env RAP_RESPOND_OK else respond env RAP_RESPOND_AUTH_FAILLED
  ((closeRequestFd message ++ [Event.pamAuthenticate user password rhost] ++ r.1, r.2), a.2)

/-! ## The main dispatcher -/

/-- What the control socket and the system hold for one turn of a loop of `main`: the
result of `recvMessage`, the message received, and the answers to the calls made while it
is handled. -/
structure Step where
  recvResult : Int
  message : Message
  env : Env

/-- How a run of `main` over a finite list of steps ends: with an exit code, blocked in
`recvMessage` once the steps are used up, or inside a handler that does not come back. -/
inductive Outcome where
  | exit (code : Nat)
  | waiting
  | stuck
  deriving DecidableEq, Repr

/-- The body of the first loop of `main` once a message has been received: the
`if (message.mID == RAP_REQUEST_AUTHENTICATE) ... else ...`. -/
def preAuthStep (st : WorkerState) (s : Step) : Reply × WorkerState :=
  if s.message.mID = RAP_REQUEST_AUTHENTICATE then
    let r := authenticate s.env st s.message
    ((Event.call Handler.authenticate :: r.1.1, r.1.2), r.2)
  else (respond s.env RAP_RESPOND_INTERNAL_ERROR, st)

/-- The first loop of `main` (`do ... while (ioResult > 0 && !authenticated)`): its
events, the state it leaves and, unless it is still waiting for a message, the last
`ioResult` with the steps not yet used. -/
def preAuthLoop (st : WorkerState) : List Step → List Event × WorkerState × Option (Int × List Step)
  | [] => ([], st, none)
  | s :: rest =>
    if s.recvResult ≤ 0 then
      ([Event.recvMessage s.recvResult s.message], st, some (s.recvResult, rest))
    else
      let a := preAuthStep st s
      if a.1.2 > 0 ∧ a.2.authenticated = false then
        let r := preAuthLoop a.2 rest
        (Event.recvMessage s.recvResult s.message :: a.1.1 ++ r.1, r.2.1, r.2.2)
      else
        (Event.recvMessage s.recvResult s.message :: a.1.1, a.2, some (a.1.2, rest))

/-- The `switch (message.mID)` of the second loop of `main`. -/
def dispatch (fuel : Nat) (env : Env) (st : WorkerState) (message : Message) : Option Reply :=
  match message.mID with
  | RAP_REQUEST_GET =>
    let r := readFile env st message
    some (Event.call Handler.readFile :: r.1, r.2)
  | RAP_REQUEST_PUT =>
    let r := writeFile env message
    some (Event.call Handler.writeFile :: r.1, r.2)
  | RAP_REQUEST_MKCOL =>
    let r := mkcol env message
    some (Event.call Handler.mkcol :: r.1, r.2)
  | RAP_REQUEST_DELETE =>
    let r := deleteFile env message
    some (Event.call Handler.deleteFile :: r.1, r.2)
  | RAP_REQUEST_MOVE =>
    let r := moveFile env message
    some (Event.call Handler.moveFile :: r.1, r.2)
  | RAP_REQUEST_COPY =>
    let r := copyFile env message
    some (Event.call Handler.copyFile :: r.1, r.2)
  | RAP_REQUEST_PROPFIND =>
    (propfind fuel env st message).map (fun r => (Event.call Handler.propfind :: r.1, r.2))
  | RAP_REQUEST_PROPPATCH =>
    let r := proppatch env st message
    some (Event.call Handler.proppatch :: r.1, r.2)
  | RAP_REQUEST_LOCK =>
    (lockFile fuel env st message).map (fun r => (Event.call Handler.lockFile :: r.1, r.2))
  | _ => some (respond env RAP_RESPOND_INTERNAL_ERROR)

/-- The second loop of `main` (`while (ioResult > 0)`) and the `return` after it. -/
def verbLoop (fuel : Nat) (st : WorkerState) : Int → List Step → List Event × Outcome
  | ioResult, [] => if ioResult > 0 then ([], Outcome.waiting) else ([], Outcome.exit (if ioResult < 0 then 1 else 0))
  | ioResult, s :: rest =>
    if ioResult > 0 then
      if s.recvResult ≤ 0 then
        ([Event.recvMessage s.recvResult s.message], Outcome.exit (if s.recvResult = 0 then 0 else 1))
      else
        match dispatch fuel s.env st s.message with
        | none => ([Event.recvMessage s.recvResult s.message], Outcome.stuck)
        | some w =>
          let r := verbLoop fuel st w.2 rest
          (Event.recvMessage s.recvResult s.message :: w.1 ++ r.1, r.2)
    else ([], Outcome.exit (if ioResult < 0 then 1 else 0))

/-- A run of `main`: the events, the final process-wide state and the outcome. -/
structure Run where
  events : List Event
  state : WorkerState
  outcome : Outcome

/-- The function `main` after its start-up (locale, PAM service name, MIME table), on the
messages and answers given by `steps`. -/
def main (fuel : Nat) (mimeTypes : List MimeType) (steps : List Step) : Run :=
  let p := preAuthLoop ⟨false, none, mimeTypes⟩ steps
  match p.2.2 with
  | none => ⟨p.1, p.2.1, Outcome.waiting⟩
  | some (ioResult, rest) =>
    let v := verbLoop fuel p.2.1 ioResult rest
    ⟨p.1 ++ v.1, p.2.1, v.2⟩

/-! ## A concrete reader -/

/-- Modelled from the spec: a node met by the XML reader, with its depth, whether it is an
element start, its namespace and its local name. -/
structure XmlNode where
  depth : Nat
  isElement : Bool
  namespaceUri : Option String
  localName : Option String
  deriving DecidableEq, Repr

/-- The position after `stepOver` from the node at index `i` of depth `d`: the first later
node that is not deeper than `d`. -/
def skipSubtree (d : Nat) : List XmlNode → Nat → Option Nat
  | [], _ => none
  | n :: rest, i => if n.depth ≤ d then some i else skipSubtree d rest (i + 1)

/-- Modelled from the spec: a reader over a document given as the list of its nodes in
document order.  State `0` is the fresh reader, state `k + 1` stands on node `k`;
`stepInto` moves to the next node and `stepOver` to the next node that is not below the
current one; both return `0` at the end of the document. -/
def readerOfNodes (nodes : List XmlNode) : XmlReader where
  stepInto := fun s => if s < nodes.length then (1, s + 1) else (0, nodes.length + 1)
  stepOver := fun s =>
    match s with
    | 0 => if 0 < nodes.length then (1, 1) else (0, nodes.length + 1)
    | k + 1 =>
      match nodes.get? k with
      | none => (0, nodes.length + 1)
      | some n =>
        match skipSubtree n.depth (nodes.drop (k + 1)) (k + 1) with
        | some j => (1, j + 1)
        | none => (0, nodes.length + 1)
  depth := fun s => match s with
    | 0 => 0
    | k + 1 => ((nodes.get? k).map (fun n => (n.depth : Int))).getD 0
  nodeTypeIsNone := fun s => match s with
    | 0 => true
    | k + 1 => (nodes.get? k).isNone
  namespaceUri := fun s => match s with
    | 0 => none
    | k + 1 => (nodes.get? k).bind (fun n => n.namespaceUri)
  localName := fun s => match s with
    | 0 => none
    | k + 1 => (nodes.get? k).bind (fun n => n.localName)
  elementMatches := fun s ns name => match s with
    | 0 => false
    | k + 1 =>
      match nodes.get? k with
      | none => false
      | some n => n.isElement && n.namespaceUri == some ns && n.localName == some name
  isNamespaceElement := fun s ns => match s with
    | 0 => false
    | k + 1 =>
      match nodes.get? k with
      | none => false
      | some n => n.isElement && n.namespaceUri == some ns

/-! ## Worked inputs -/

/-- A small system for worked examples: every send transfers one byte, `pipe` gives the
descriptors 3 and 4, no path exists, every other call succeeds, PAM accepts `alice`. -/
def exampleEnv : Env where
  sendMessage := fun _ => 1
  sendRecvMessage := fun m => (1, m)
  pipe := some (3, 4)
  time := 0
  stat := fun _ => Except.error ENOENT
  statvfs := fun _ => none
  openFile := fun _ _ => Except.error ENOENT
  fstat := fun _ => ⟨S_IFREG, 0, 0, 0⟩
  fstatat := fun _ _ => ⟨S_IFREG, 0, 0, 0⟩
  flock := fun _ _ => Except.ok ()
  opendir := fun _ => none
  fdopendir := fun _ => []
  chunks := []
  mkdir := fun _ => Except.ok ()
  rename := fun _ _ => Except.ok ()
  unlink := fun _ => Except.ok ()
  rmdir := fun _ => Except.ok ()
  xmlReaderForFd := fun _ => none
  byteBefore := fun _ => NUL
  strerror := fun _ => "error"
  strcoll := fun a b => strcmp a.data b.data
  getWebDate := fun t => toString t
  getLocalDate := fun t => toString t
  formatDouble := fun _ size _ => toString size
  errnoAfterLog := fun e => e
  pam_start := true
  pam_session := true
  pam_user := some "alice"
  lockToUser := true

/-- The process-wide state at the start of `main`, with an empty MIME table. -/
def initialState : WorkerState := ⟨false, none, []⟩

/-- A request of the given kind on the given path, without descriptor. -/
def requestFor (kind : RapConstant) (file : String) : Message :=
  ⟨kind, -1, 1, [(RAP_PARAM_REQUEST_FILE, Param.str file)]⟩

/-! ## Predicates on traces -/

/-- No event of the list is a run of the authenticator. -/
def NoPam (l : List Event) : Prop := ∀ u p r, Event.pamAuthenticate u p r ∉ l

/-- A GET followed by an AUTHENTICATE that PAM rejects. -/
def rejectedSteps : List Step :=
  [⟨1, requestFor RAP_REQUEST_GET "/srv/x", exampleEnv⟩,
   ⟨1, ⟨RAP_REQUEST_AUTHENTICATE, -1, 3,
        [(RAP_PARAM_AUTH_USER, Param.str "alice"), (RAP_PARAM_AUTH_PASSWORD, Param.str "wrong"),
         (RAP_PARAM_AUTH_RHOST, Param.str "host")]⟩,
      { exampleEnv with pam_session := false }⟩]

/-- An AUTHENTICATE for `alice`. -/
def authenticateAlice : Message :=
  ⟨RAP_REQUEST_AUTHENTICATE, -1, 3,
    [(RAP_PARAM_AUTH_USER, Param.str "alice"), (RAP_PARAM_AUTH_PASSWORD, Param.str "secret"),
     (RAP_PARAM_AUTH_RHOST, Param.str "host")]⟩

/-- A MOVE of `/a/src` to `/b/dst`. -/
def moveAcrossDevices : Message :=
  ⟨RAP_REQUEST_MOVE, -1, 2,
    [(RAP_PARAM_REQUEST_FILE, Param.str "/a/src"), (RAP_PARAM_REQUEST_TARGET, Param.str "/b/dst")]⟩

/-- A system in which `/a` and `/b` are on different devices: `rename` fails with `EXDEV`. -/
def twoDevicesEnv : Env := { exampleEnv with rename := fun _ _ => Except.error EXDEV }

/-- A PUT of `/srv/x/new` whose body is on descriptor 5. -/
def putWithBody : Message :=
  ⟨RAP_REQUEST_PUT, 5, 1, [(RAP_PARAM_REQUEST_FILE, Param.str "/srv/x/new")]⟩

/-- A system in which the user may not write: `open` fails with `EACCES`. -/
def readOnlyEnv : Env := { exampleEnv with openFile := fun _ _ => Except.error EACCES }

/-- A system in which `/srv/x` is a directory that `open` gives as descriptor 7. -/
def directoryEnv : Env :=
  { exampleEnv with
    openFile := fun f _ => if f = "/srv/x" then Except.ok 7 else Except.error ENOENT
    fstat := fun _ => ⟨S_IFDIR, 0, 0, 0⟩ }

/-- Whether a call on the writer starts an element of the given local name. -/
def XmlOp.startsElement (name : String) : XmlOp → Bool
  | XmlOp.startElementNS _ n _ => n == name
  | XmlOp.startElement n => n == name
  | XmlOp.writeElementString _ n _ => n == name
  | _ => false

/-- The number of elements of the given local name started in a sequence of calls. -/
def elementCount (name : String) (ops : List XmlOp) : Nat := ops.countP (XmlOp.startsElement name)

/-- The number of `d:response` elements in a sequence of calls on the writer. -/
def responseCount (ops : List XmlOp) : Nat := elementCount "response" ops

/-- The entries of a directory other than `.` and `..` whose `stat` succeeds. -/
def listedChildren (env : Env) (filePath : String) (entries : List Dirent) : List Dirent :=
  entries.filter (fun dp => dp.name != "." && dp.name != ".." && (env.stat (filePath ++ dp.name)).toBool)

/-- The entries of the directory `/srv/x/`: `.`, `..`, the regular file `a.txt` and the
dangling link `gone`. -/
def listingEntries : List Dirent :=
  [⟨['.'], DT_DIR⟩, ⟨['.', '.'], DT_DIR⟩, ⟨"a.txt".data, DT_REG⟩, ⟨"gone".data, DT_OTHER⟩]

/-- A system in which `/srv/x/` is a directory with the entries `listingEntries`; `stat`
succeeds on the directory and on `a.txt` and fails on the dangling link. -/
def listingEnv : Env :=
  { exampleEnv with
    stat := fun f =>
      if f = "/srv/x/" then Except.ok ⟨S_IFDIR, 0, 0, 0⟩
      else if f = "/srv/x/a.txt" then Except.ok ⟨S_IFREG, 17, 0, 0⟩
      else Except.error ENOENT
    opendir := fun f => if f = "/srv/x/" then some listingEntries else none }

/-- A PROPFIND of `/srv/x/` without body, with the given depth. -/
def propfindDepth (depth : String) : Message :=
  ⟨RAP_REQUEST_PROPFIND, -1, 3,
    [(RAP_PARAM_REQUEST_FILE, Param.str "/srv/x/"), (RAP_PARAM_REQUEST_DEPTH, Param.str depth)]⟩

/-- A PROPPATCH of `/srv/x/` whose body is on descriptor 5. -/
def proppatchRequest : Message :=
  ⟨RAP_REQUEST_PROPPATCH, 5, 1, [(RAP_PARAM_REQUEST_FILE, Param.str "/srv/x/")]⟩

/-- A LOCK of `/srv/x/a.txt` without body and with a lock token: a refresh. -/
def refreshRequest : Message :=
  ⟨RAP_REQUEST_LOCK, -1, 2,
    [(RAP_PARAM_REQUEST_FILE, Param.str "/srv/x/a.txt"),
     (RAP_PARAM_REQUEST_LOCK, Param.str "opaquelocktoken:1")]⟩

/-- A system whose lock coordinator completes a refresh with COMPLETE_REQUEST_RELOCK, the
token and a timeout of one hour. -/
def relockEnv : Env :=
  { exampleEnv with
    sendRecvMessage := fun _ =>
      (1, ⟨RAP_COMPLETE_REQUEST_RELOCK, -1, 2,
            [(RAP_PARAM_LOCK_TOKEN, Param.str "opaquelocktoken:1"),
             (RAP_PARAM_LOCK_TIMEOUT, Param.time 3600)]⟩) }

/-- The nodes of `<lockinfo><lockscope><exclusive/></lockscope><locktype><write/></locktype></lockinfo>`
in the `DAV:` namespace. -/
def exclusiveWriteLockinfo : List XmlNode :=
  [⟨0, true, some "DAV:", some "lockinfo"⟩,
   ⟨1, true, some "DAV:", some "lockscope"⟩,
   ⟨2, true, some "DAV:", some "exclusive"⟩,
   ⟨1, true, some "DAV:", some "locktype"⟩,
   ⟨2, true, some "DAV:", some "write"⟩]

/-- A LOCK of the given path without lock token, whose body is on descriptor 5. -/
def newLockRequest (file : String) : Message :=
  ⟨RAP_REQUEST_LOCK, 5, 1, [(RAP_PARAM_REQUEST_FILE, Param.str file)]⟩

/-- A system in which `/` is a writable directory and `/nope` does not exist: `stat` fails
with `ENOENT`, `open` without `O_CREAT` fails with `ENOENT`, `open` with `O_CREAT` creates
the regular file and gives descriptor 7.  The body on descriptor 5 is the exclusive write
`lockinfo`, and the coordinator grants the lock. -/
def createEnv : Env :=
  { exampleEnv with
    openFile := fun _ flags => if O_CREAT ∈ flags then Except.ok 7 else Except.error ENOENT
    xmlReaderForFd := fun _ => some (readerOfNodes exclusiveWriteLockinfo)
    sendRecvMessage := fun _ =>
      (1, ⟨RAP_COMPLETE_REQUEST_LOCK, -1, 2,
            [(RAP_PARAM_LOCK_TOKEN, Param.str "opaquelocktoken:1"),
             (RAP_PARAM_LOCK_TIMEOUT, Param.time 3600)]⟩) }

/-- The entry `.` as `readdir` may give it: the name, its terminating NUL, and a byte left
over in the buffer. -/
def dotWithLeftover : Dirent := ⟨['.', NUL, 'x'], DT_DIR⟩

/-- The response that section 4.9 of the specification gives for a failure of DELETE:
a missing path or a non-directory on the way is NOT_FOUND, a refusal is ACCESS_DENIED, any
other error is INTERNAL_ERROR. -/
def specDeleteFailure (e : Errno) : RapConstant :=
  if e = ENOENT ∨ e = ENOTDIR then RAP_RESPOND_NOT_FOUND
  else if e = EACCES ∨ e = EPERM then RAP_RESPOND_ACCESS_DENIED
  else RAP_RESPOND_INTERNAL_ERROR

/-- A system in which `/srv/empty/` is an empty directory. -/
def emptyDirEnv : Env :=
  { exampleEnv with stat := fun f => if f = "/srv/empty/" then Except.ok ⟨S_IFDIR, 0, 0, 0⟩
                                     else Except.error ENOENT }

/-- A system like `emptyDirEnv` in which the calls made by `stdLogError` leave `EBADF` in
`errno`. -/
def logClobbersErrnoEnv : Env := { emptyDirEnv with errnoAfterLog := fun _ => EBADF }

/-- The values assigned to `ioResult` in the first loop of `main`, in order: the result of
each `recvMessage` and, when a message was received, the result of handling it. -/
def preAuthResults (st : WorkerState) : List Step → List Int
  | [] => []
  | s :: rest =>
    if s.recvResult ≤ 0 then [s.recvResult]
    else
      let a := preAuthStep st s
      if a.1.2 > 0 ∧ a.2.authenticated = false then s.recvResult :: a.1.2 :: preAuthResults a.2 rest
      else [s.recvResult, a.1.2]

/-- The values assigned to `ioResult` in the second loop of `main`, in order; nothing is
assigned by a handler that does not come back. -/
def verbResults (fuel : Nat) (st : WorkerState) : Int → List Step → List Int
  | _, [] => []
  | ioResult, s :: rest =>
    if ioResult > 0 then
      if s.recvResult ≤ 0 then [s.recvResult]
      else
        match dispatch fuel s.env st s.message with
        | none => [s.recvResult]
        | some w => s.recvResult :: w.2 :: verbResults fuel st w.2 rest
    else []

/-- The values assigned to `ioResult` during a run of `main`, in order. -/
def mainResults (fuel : Nat) (mimeTypes : List MimeType) (steps : List Step) : List Int :=
  preAuthResults ⟨false, none, mimeTypes⟩ steps
    ++ (match (preAuthLoop ⟨false, none, mimeTypes⟩ steps).2.2 with
        | none => []
        | some (ioResult, rest) =>
          verbResults fuel (preAuthLoop ⟨false, none, mimeTypes⟩ steps).2.1 ioResult rest)

/-- An accepted AUTHENTICATE, a GET of a missing file, and then the peer closing the
control socket. -/
def sessionSteps : List Step :=
  [⟨1, authenticateAlice, exampleEnv⟩,
   ⟨1, requestFor RAP_REQUEST_GET "/srv/none", exampleEnv⟩,
   ⟨0, requestFor RAP_REQUEST_GET "/srv/none", exampleEnv⟩]

/-- The C string that starts at offset `p` of a buffer: the bytes up to the next NUL. -/
def cStringAt (buffer : List Char) (p : Nat) : String :=
  String.mk ((buffer.drop p).takeWhile (fun c => c != NUL))

/-- The loop `while (partStartPtr < end && *partStartPtr != '\n') partStartPtr++` of
`initializeMimeTypes`; the pointer moves forward at every turn, so a fuel of the size of
the buffer is enough. -/
def skipToNewline (buffer : List Char) : Nat → Nat → Nat
  | 0, p => p
  | fuel + 1, p =>
    if p < buffer.length ∧ buffer.getD p NUL ≠ '\n' then skipToNewline buffer fuel (p + 1) else p

/-- The first inner loop of `initializeMimeTypes`, which looks for the start of the next
part: the pointer where it stops and the value of `type`.  The `+ 1` after a comment
steps over its newline without setting `type` to `NULL`. -/
def findPartStart (buffer : List Char) : Nat → Nat → Option Nat → Nat × Option Nat
  | 0, p, type => (p, type)
  | fuel + 1, p, type =>
    if p < buffer.length then
      if buffer.getD p NUL = '#' then
        findPartStart buffer fuel (skipToNewline buffer buffer.length p + 1) type
      else if buffer.getD p NUL = ' ' ∨ buffer.getD p NUL = '\t' ∨ buffer.getD p NUL = '\r'
          ∨ buffer.getD p NUL = '\n' then
        findPartStart buffer fuel (p + 1) (if buffer.getD p NUL = '\n' then none else type)
      else (p, type)
    else (p, type)

/-- The second inner loop of `initializeMimeTypes`, which looks for the end of the part:
the first blank at or after the pointer, or a pointer at or past the end. -/
def findPartEnd (buffer : List Char) : Nat → Nat → Nat
  | 0, p => p
  | fuel + 1, p =>
    if p < buffer.length then
      if buffer.getD p NUL = ' ' ∨ buffer.getD p NUL = '\t' ∨ buffer.getD p NUL = '\r'
          ∨ buffer.getD p NUL = '\n' then p
      else findPartEnd buffer fuel (p + 1)
    else p

/-- An element of `mimeTypes` as `initializeMimeTypes` fills it in: two pointers into the
buffer, as offsets, and the size. -/
structure MimeSlot where
  type : Nat
  fileExtension : Nat
  typeStringSize : Nat
  deriving DecidableEq, Repr

/-- The `do ... while (partStartPtr < end)` loop of `initializeMimeTypes`: the buffer
after the writes of NUL and the elements added to `mimeTypes`.  Each turn moves
`partStartPtr` forward by two at least. -/
def parseMimeFile : Nat → List Char → Nat → Option Nat → List MimeSlot → List Char × List MimeSlot
  | 0, buffer, _, _, slots => (buffer, slots)
  | fuel + 1, buffer, partStartPtr, type, slots =>
    let start := findPartStart buffer (buffer.length + 1) partStartPtr type
    let partEndPtr := findPartEnd buffer (buffer.length + 1) (start.1 + 1)
    if partEndPtr < buffer.length then
      let slots1 :=
        match start.2 with
        | none => slots
        | some t => slots ++ [⟨t, start.1, partEndPtr - start.1 + 1⟩]
      let type1 :=
        match start.2 with
        | none => some start.1
        | some t => some t
      let type2 := if buffer.getD partEndPtr NUL = '\n' then none else type1
      if partEndPtr + 1 < buffer.length then
        parseMimeFile fuel (buffer.set partEndPtr NUL) (partEndPtr + 1) type2 slots1
      else (buffer.set partEndPtr NUL, slots1)
    else (buffer, slots)

/-- The library function `qsort` with `compareExt`: a sort of the table. -/
def qsortMimeTypes (table : List MimeType) : List MimeType :=
  table.insertionSort (fun a b => compareExt a b ≤ 0)

/-- The function `initializeMimeTypes` on the content of the MIME file, once
`loadFileToBuffer` has returned it: the table `mimeTypes`, whose strings are read in the
buffer as the parser left it. -/
def initializeMimeTypes (mimeFile : String) : List MimeType :=
  let r := parseMimeFile (mimeFile.data.length + 1) mimeFile.data 0 none []
  qsortMimeTypes
    (r.2.map (fun slot =>
      ⟨cStringAt r.1 slot.fileExtension, cStringAt r.1 slot.type, slot.typeStringSize⟩))

/-- The substring of a path after its last `.`, in the words of the specification (the
whole path when it holds no `.`). -/
def specAfterLastDot (path : List Char) : List Char :=
  (path.reverse.takeWhile (fun c => c != '.')).reverse

/-- A table as `initializeMimeTypes` leaves it for a file of two lines. -/
def sampleMimeTypes : List MimeType :=
  initializeMimeTypes "text/html html htm\nimage/png png\n"

/-- A node directly below a child of `lockinfo`, with the nodes beneath it in document
order.  The depths are set when the document is laid out. -/
structure LockInfoLeaf where
  node : XmlNode
  below : List XmlNode
  deriving DecidableEq, Repr

/-- A child of `lockinfo` that is an element of the `DAV:` namespace: its local name and
the nodes directly below it. -/
structure LockInfoChild where
  localName : String
  leaves : List LockInfoLeaf
  deriving DecidableEq, Repr

/-- The nodes of a leaf in document order: the node at depth 2, then the nodes beneath
it, at depth 3 or more. -/
def leafNodes (l : LockInfoLeaf) : List XmlNode :=
  { l.node with depth := 2 } :: l.below.map (fun n => { n with depth := n.depth + 3 })

/-- The nodes of a list of leaves, one leaf after the other. -/
def leavesNodes : List LockInfoLeaf → List XmlNode
  | [] => []
  | l :: ls => leafNodes l ++ leavesNodes ls

/-- The nodes of a child of `lockinfo` in document order: the element at depth 1, then its
leaves. -/
def childNodes (c : LockInfoChild) : List XmlNode :=
  ⟨1, true, some WEBDAV_NAMESPACE, some c.localName⟩ :: leavesNodes c.leaves

/-- The nodes of a list of children, one child after the other. -/
def childrenNodes : List LockInfoChild → List XmlNode
  | [] => []
  | c :: cs => childNodes c ++ childrenNodes cs

/-- The nodes of a body whose root is `DAV:` `lockinfo` and whose direct children are
elements of the `DAV:` namespace. -/
def lockinfoNodes (children : List LockInfoChild) : List XmlNode :=
  ⟨0, true, some WEBDAV_NAMESPACE, some "lockinfo"⟩ :: childrenNodes children

/-- Whether a node is the `DAV:` element of the given local name. -/
def isDavElement (n : XmlNode) (name : String) : Bool :=
  n.isElement && n.namespaceUri == some WEBDAV_NAMESPACE && n.localName == some name

/-- Whether a `DAV:` element of the given name appears directly under a child of
`lockinfo` of the given name. -/
def appearsUnder (children : List LockInfoChild) (parent name : String) : Bool :=
  children.any (fun c => c.localName == parent && c.leaves.any (fun l => isDavElement l.node name))

/-- The lock type in the words of the specification: Exclusive if `exclusive` appears
under `lockscope` or `write` under `locktype`; otherwise Shared if `shared` appears under
`lockscope` or `read` under `locktype`; otherwise the zero of `memset`. -/
def specLockType (children : List LockInfoChild) : LockType :=
  if appearsUnder children "lockscope" "exclusive" || appearsUnder children "locktype" "write" then
    LOCK_TYPE_EXCLUSIVE
  else if appearsUnder children "lockscope" "shared" || appearsUnder children "locktype" "read" then
    LOCK_TYPE_SHARED
  else LOCK_TYPE_ZERO

/-- The result and the state of a reader of a list of nodes that has moved to the node of
index `i`: `(1, i + 1)` when there is such a node, the end of the document otherwise. -/
def positionAt (nodes : List XmlNode) (i : Nat) : Int × Nat :=
  if i < nodes.length then (1, i + 1) else (0, nodes.length + 1)

/-- The type after more elements have been read: Exclusive stays, and is set when
`exclusive` is `true`; otherwise Shared stays, and is set when `shared` is `true`. -/
def mergeLockType (type : LockType) (exclusive shared : Bool) : LockType :=
  if type = LOCK_TYPE_EXCLUSIVE ∨ exclusive = true then LOCK_TYPE_EXCLUSIVE
  else if type = LOCK_TYPE_SHARED ∨ shared = true then LOCK_TYPE_SHARED
  else type

/-- The children of a `lockinfo` that names `read` under `locktype` first, then `shared`
and `exclusive` under `lockscope`, then an `owner` with a text below its `href`. -/
def sharedThenExclusive : List LockInfoChild :=
  [⟨"locktype", [⟨⟨0, true, some "DAV:", some "read"⟩, []⟩]⟩,
   ⟨"lockscope", [⟨⟨0, true, some "DAV:", some "shared"⟩, []⟩,
                  ⟨⟨0, true, some "DAV:", some "exclusive"⟩, []⟩]⟩,
   ⟨"owner", [⟨⟨0, true, some "DAV:", some "href"⟩, [⟨0, false, none, none⟩]⟩]⟩]

/-- The system of `createEnv` in which the body on every descriptor is the `lockinfo` of
`sharedThenExclusive`. -/
def sharedThenExclusiveEnv : Env :=
  { createEnv with xmlReaderForFd := fun _ => some (readerOfNodes (lockinfoNodes sharedThenExclusive)) }

/-- The nodes of `<lockinfo xmlns="DAV:"><x:note xmlns:x="urn:other"/></lockinfo>`: the
only child of `lockinfo` is an element of another namespace. -/
def foreignChildLockinfo : List XmlNode :=
  [⟨0, true, some "DAV:", some "lockinfo"⟩,
   ⟨1, true, some "urn:other", some "note"⟩]

/-- The system of `createEnv` in which the body on every descriptor is the `lockinfo` with
a child of another namespace. -/
def foreignChildEnv : Env :=
  { createEnv with xmlReaderForFd := fun _ => some (readerOfNodes foreignChildLockinfo) }

/-! # Theorems -/

/-! ## The two loops of `main` -/

theorem respond_events (env : Env) (k : RapConstant) :
    (respond env k).1 = [Event.sendMessage ⟨k, -1, 0, []⟩] := rfl

theorem respond_result (env : Env) (k : RapConstant) :
    (respond env k).2 = env.sendMessage ⟨k, -1, 0, []⟩ := rfl

theorem call_mem_closeRequestFd (m : Message) (h : Handler) : Event.call h ∉ closeRequestFd m := by
  unfold closeRequestFd; split <;> simp

theorem preAuthStep_calls (st : WorkerState) (s : Step) (h : Handler)
    (hc : Event.call h ∈ (preAuthStep st s).1.1) : h = Handler.authenticate := by
  unfold preAuthStep at hc
  split at hc
  · simp only [authenticate, List.mem_cons, List.mem_append, Event.call.injEq] at hc
    rcases hc with hc | (hc | hc | hc) | hc
    · exact hc
    · exact absurd hc (call_mem_closeRequestFd _ _)
    · cases hc
    · simp at hc
    · split at hc <;> simp [respond] at hc
  · simp [respond] at hc

theorem preAuthLoop_cons (st : WorkerState) (s : Step) (rest : List Step) :
    preAuthLoop st (s :: rest) =
      if s.recvResult ≤ 0 then
        ([Event.recvMessage s.recvResult s.message], st, some (s.recvResult, rest))
      else if (preAuthStep st s).1.2 > 0 ∧ (preAuthStep st s).2.authenticated = false then
        (Event.recvMessage s.recvResult s.message :: (preAuthStep st s).1.1
            ++ (preAuthLoop (preAuthStep st s).2 rest).1,
          (preAuthLoop (preAuthStep st s).2 rest).2.1, (preAuthLoop (preAuthStep st s).2 rest).2.2)
      else
        (Event.recvMessage s.recvResult s.message :: (preAuthStep st s).1.1, (preAuthStep st s).2,
          some ((preAuthStep st s).1.2, rest)) := by
  rfl

theorem preAuthLoop_calls (st : WorkerState) (steps : List Step) (h : Handler)
    (hc : Event.call h ∈ (preAuthLoop st steps).1) : h = Handler.authenticate := by
  induction steps generalizing st with
  | nil => simp [preAuthLoop] at hc
  | cons s rest ih =>
    rw [preAuthLoop_cons] at hc
    split at hc
    · simp at hc
    · split at hc
      · dsimp only at hc
        simp only [List.mem_cons, List.mem_append] at hc
        rcases hc with (hc | hc) | hc
        · cases hc
        · exact preAuthStep_calls _ _ _ hc
        · exact ih _ hc
      · dsimp only at hc
        simp only [List.mem_cons] at hc
        rcases hc with hc | hc
        · cases hc
        · exact preAuthStep_calls _ _ _ hc

theorem preAuthLoop_exit (st : WorkerState) (steps : List Step) (io : Int) (rest : List Step)
    (h : (preAuthLoop st steps).2.2 = some (io, rest)) :
    io ≤ 0 ∨ (preAuthLoop st steps).2.1.authenticated = true := by
  induction steps generalizing st with
  | nil => simp [preAuthLoop] at h
  | cons s tl ih =>
    rw [preAuthLoop_cons] at h ⊢
    split at h
    · rename_i hr
      simp only [Option.some.injEq, Prod.mk.injEq] at h
      left; omega
    · rename_i hr
      rw [if_neg hr]
      split at h
      · rename_i hc
        rw [if_pos hc]
        exact ih _ h
      · rename_i hc
        rw [if_neg hc]
        simp only [Option.some.injEq, Prod.mk.injEq] at h
        simp only [not_and_or] at hc
        rcases hc with hc | hc
        · left; rw [← h.1]; omega
        · right; simpa using hc

theorem verbLoop_nonpos (fuel : Nat) (st : WorkerState) (io : Int) (steps : List Step) (h : io ≤ 0) :
    (verbLoop fuel st io steps).1 = [] := by
  cases steps with
  | nil => simp only [verbLoop]; split <;> rfl
  | cons s tl => simp only [verbLoop, if_neg (not_lt.mpr h)]

theorem main_events (fuel : Nat) (mimeTypes : List MimeType) (steps : List Step) :
    (main fuel mimeTypes steps).state = (preAuthLoop ⟨false, none, mimeTypes⟩ steps).2.1 ∧
    ((main fuel mimeTypes steps).events = (preAuthLoop ⟨false, none, mimeTypes⟩ steps).1 ∨
      ∃ io rest, 0 < io ∧ (preAuthLoop ⟨false, none, mimeTypes⟩ steps).2.2 = some (io, rest) ∧
        (main fuel mimeTypes steps).events =
          (preAuthLoop ⟨false, none, mimeTypes⟩ steps).1
            ++ (verbLoop fuel (preAuthLoop ⟨false, none, mimeTypes⟩ steps).2.1 io rest).1) := by
  cases hp : (preAuthLoop ⟨false, none, mimeTypes⟩ steps).2.2 with
  | none => simp only [main, hp, true_and, true_or]
  | some v =>
    obtain ⟨io, rest⟩ := v
    simp only [main, hp, true_and]
    by_cases hio : 0 < io
    · right; exact ⟨io, rest, hio, rfl, rfl⟩
    · left
      simp [verbLoop_nonpos fuel _ io rest (not_lt.mp hio)]

/-! ## No handler of the second loop runs the authenticator -/

@[simp] theorem noPam_nil : NoPam [] := by intro u p r; simp

@[simp] theorem noPam_append (a b : List Event) : NoPam (a ++ b) ↔ NoPam a ∧ NoPam b := by
  simp only [NoPam, List.mem_append, not_or]
  constructor
  · intro h; exact ⟨fun u p r => (h u p r).1, fun u p r => (h u p r).2⟩
  · intro h u p r; exact ⟨h.1 u p r, h.2 u p r⟩

@[simp] theorem noPam_cons (e : Event) (l : List Event) :
    NoPam (e :: l) ↔ (∀ u p r, e ≠ Event.pamAuthenticate u p r) ∧ NoPam l := by
  simp only [NoPam, List.mem_cons, not_or]
  constructor
  · intro h; exact ⟨fun u p r heq => (h u p r).1 heq.symm, fun u p r => (h u p r).2⟩
  · intro h u p r; exact ⟨fun heq => h.1 u p r heq.symm, h.2 u p r⟩

@[simp] theorem noPam_respond (env : Env) (k : RapConstant) : NoPam (respond env k).1 := by
  simp [respond]

@[simp] theorem noPam_writeErrorResponse (env : Env) (k : RapConstant) (a b c : Option String) :
    NoPam (writeErrorResponse env k a b c).1 := by
  unfold writeErrorResponse
  split
  · simp
  · dsimp only; split <;> simp

@[simp] theorem noPam_writeLockResponse (env : Env) (st : WorkerState) (f : Option String) (lr : LockRequest)
    (t : Option String) (n : Int) : NoPam (writeLockResponse env st f lr t n).1 := by
  unfold writeLockResponse
  split
  · simp
  · dsimp only; split <;> simp

@[simp] theorem noPam_closeRequestFd (m : Message) : NoPam (closeRequestFd m) := by
  unfold closeRequestFd; split <;> simp

@[simp] theorem noPam_mkcol (env : Env) (m : Message) : NoPam (mkcol env m).1 := by
  unfold mkcol; dsimp only
  simp only [noPam_append, noPam_closeRequestFd, true_and]
  refine ⟨by simp, ?_⟩
  split
  · split <;> simp
  · simp

@[simp] theorem noPam_copyFile (env : Env) (m : Message) : NoPam (copyFile env m).1 := by
  simp [copyFile]

@[simp] theorem noPam_moveFile (env : Env) (m : Message) : NoPam (moveFile env m).1 := by
  unfold moveFile; dsimp only
  simp only [noPam_append, noPam_closeRequestFd, true_and]
  split
  · simp
  · split
    · split
      · split
        · split <;> simp
        · simp
      · simp only [noPam_cons]
        refine ⟨by simp, ?_⟩
        split <;> simp
    · simp

@[simp] theorem noPam_deleteError (env : Env) (e : Errno) : NoPam (deleteError env e).1 := by
  unfold deleteError; split <;> simp

@[simp] theorem noPam_deleteFile (env : Env) (m : Message) : NoPam (deleteFile env m).1 := by
  unfold deleteFile; dsimp only
  simp only [noPam_append, noPam_closeRequestFd, true_and]
  split
  · simp
  · split
    · split <;> simp
    · split <;> simp

theorem noPam_copyBody (a b : Int) (l : List (Int × Int)) : NoPam (copyBody a b l).1 := by
  induction l with
  | nil => simp [copyBody]
  | cons c tl ih =>
    obtain ⟨x, y⟩ := c
    simp only [copyBody]
    split
    · split
      · simp
      · simp [ih]
    · simp

theorem noPam_drainBody (a : Int) (l : List (Int × Int)) : NoPam (drainBody a l) := by
  induction l with
  | nil => simp [drainBody]
  | cons c tl ih =>
    obtain ⟨x, y⟩ := c
    simp only [drainBody]
    split
    · simp [ih]
    · simp

@[simp] theorem noPam_writeFile (env : Env) (m : Message) : NoPam (writeFile env m).1 := by
  unfold writeFile
  split
  · simp
  · dsimp only
    split
    · simp only [noPam_cons]
      refine ⟨by simp, ?_⟩
      split <;> simp
    · split
      · simp
      · simp only [noPam_append, noPam_cons, noPam_copyBody]
        refine ⟨⟨⟨⟨by simp, by simp⟩, trivial⟩, by simp⟩, ?_⟩
        split <;> simp

@[simp] theorem noPam_respondToPropFind (env : Env) (st : WorkerState) (f : Option String) (p : PropertySet)
    (d : Int) : NoPam (respondToPropFind env st f p d).1 := by
  unfold respondToPropFind
  split
  · simp
  · split
    · split <;> simp
    · split
      · simp
      · dsimp only; split <;> simp

@[simp] theorem noPam_proppatch (env : Env) (st : WorkerState) (m : Message) : NoPam (proppatch env st m).1 := by
  unfold proppatch
  split
  · simp [noPam_drainBody]
  · simp

theorem noPam_parsePropFind (fuel : Nat) (env : Env) (fd : Int) (ev : List Event) (ret : Int) (p : PropertySet)
    (h : parsePropFind fuel env fd = some (ev, ret, p)) : NoPam ev := by
  have key : ev = [Event.close fd] ∨ ev = [Event.readXml fd, Event.close fd] := by
    unfold parsePropFind at h
    split at h
    · simp at h; exact Or.inl h.1.symm
    · right
      split at h
      · simp at h; exact h.1.symm
      · dsimp only at h
        split at h
        · simp at h; exact h.1.symm
        · split at h
          · simp at h; exact h.1.symm
          · split at h
            · simp at h
            · split at h
              · simp at h; exact h.1.symm
              · split at h
                · simp at h
                · split at h
                  · simp at h
                  · simp at h; exact h.1.symm
  rcases key with key | key <;> subst key <;> simp

theorem noPam_propfind (fuel : Nat) (env : Env) (st : WorkerState) (m : Message) (w : Reply)
    (h : propfind fuel env st m = some w) : NoPam w.1 := by
  unfold propfind at h
  split at h
  · simp at h; subst h; simp
  · dsimp only at h
    split at h
    · simp at h; subst h; simp
    · split at h
      · simp at h; subst h; simp
      · split at h
        · simp at h
        · rename_i pe ret props hp
          split at h <;> simp at h <;> subst h <;> simp [noPam_parsePropFind _ _ _ _ _ _ hp]

@[simp] theorem noPam_listDir (env : Env) (st : WorkerState) (f : String) (a b : Int) :
    NoPam (listDir env st f a b) := by
  simp [listDir]

@[simp] theorem noPam_readFile (env : Env) (st : WorkerState) (m : Message) : NoPam (readFile env st m).1 := by
  unfold readFile; dsimp only
  simp only [noPam_append, noPam_closeRequestFd, true_and]
  split
  · simp
  · split
    · simp only [noPam_cons]
      refine ⟨by simp, ?_⟩
      split <;> simp
    · split
      · split
        · simp
        · split <;> simp
      · simp

theorem noPam_parseLockRequest (fuel : Nat) (env : Env) (fd : Int) (ev : List Event) (lr : LockRequest)
    (h : parseLockRequest fuel env fd = some (ev, lr)) : NoPam ev := by
  have key : ev = [] ∨ ev = [Event.close fd] ∨ ev = [Event.readXml fd, Event.close fd] := by
    unfold parseLockRequest at h
    split at h
    · simp at h; exact Or.inl h.1
    · right
      split at h
      · simp at h; exact Or.inl h.1.symm
      · right
        split at h
        · simp at h; exact h.1.symm
        · dsimp only at h
          split at h
          · simp at h
          · split at h
            · simp at h
            · simp at h; exact h.1.symm
  rcases key with key | key | key <;> subst key <;> simp

theorem noPam_lockFilePrepare_inl (env : Env) (m : Message) (lr : LockRequest) (w : Reply)
    (h : lockFilePrepare env m lr = Sum.inl w) : NoPam w.1 := by
  unfold lockFilePrepare at h
  dsimp only at h
  split at h
  · split at h
    · simp at h; subst h; simp
    · split at h
      · simp at h; subst h
        simp only [noPam_cons]
        refine ⟨by simp, ?_⟩
        split <;> simp
      · split at h
        · simp at h; subst h; simp
        · split at h
          · simp at h; subst h; simp
          · simp at h
  · split at h
    · simp at h; subst h; simp
    · simp at h

theorem noPam_lockFilePrepare_inr (env : Env) (m : Message) (lr : LockRequest) (ev : List Event)
    (im : Message) (h : lockFilePrepare env m lr = Sum.inr (ev, im)) : NoPam ev := by
  unfold lockFilePrepare at h
  dsimp only at h
  split at h
  · split at h
    · simp at h
    · split at h
      · simp at h
      · split at h
        · simp at h
        · split at h
          · simp at h
          · simp at h; rw [← h.1]; simp
  · split at h
    · simp at h
    · simp at h; rw [h.1]; simp

theorem noPam_lockFileComplete (env : Env) (st : WorkerState) (f : Option String) (lr : LockRequest)
    (im : Message) (w : Reply) (h : lockFileComplete env st f lr im = some w) : NoPam w.1 := by
  unfold lockFileComplete at h
  dsimp only at h
  split at h
  · simp at h; subst h; simp
  · split at h
    · split at h
      · simp at h; subst h; simp
      · simp at h
    · simp at h; subst h; simp

theorem noPam_lockFile (fuel : Nat) (env : Env) (st : WorkerState) (m : Message) (w : Reply)
    (h : lockFile fuel env st m = some w) : NoPam w.1 := by
  unfold lockFile at h
  dsimp only at h
  split at h
  · simp at h
  · rename_i pe lr hp
    split at h
    · rename_i w1 h1
      simp at h; subst h
      simp [noPam_parseLockRequest _ _ _ _ _ hp, noPam_lockFilePrepare_inl _ _ _ _ h1]
    · rename_i ev im h1
      split at h
      · simp at h
      · rename_i w2 h2
        simp at h; subst h
        simp [noPam_parseLockRequest _ _ _ _ _ hp, noPam_lockFilePrepare_inr _ _ _ _ _ h1,
          noPam_lockFileComplete _ _ _ _ _ _ h2]

theorem noPam_dispatch (fuel : Nat) (env : Env) (st : WorkerState) (m : Message) (w : Reply)
    (h : dispatch fuel env st m = some w) : NoPam w.1 := by
  unfold dispatch at h
  split at h
  all_goals try (simp at h; subst h; simp)
  · simp only [Option.map_eq_some'] at h
    obtain ⟨r, hr, rfl⟩ := h
    simp [noPam_propfind _ _ _ _ _ hr]
  · simp only [Option.map_eq_some'] at h
    obtain ⟨r, hr, rfl⟩ := h
    simp [noPam_lockFile _ _ _ _ _ hr]

theorem noPam_verbLoop (fuel : Nat) (st : WorkerState) (io : Int) (steps : List Step) :
    NoPam (verbLoop fuel st io steps).1 := by
  induction steps generalizing io with
  | nil => simp only [verbLoop]; split <;> simp
  | cons s tl ih =>
    simp only [verbLoop]
    split
    · split
      · simp
      · split
        · simp
        · rename_i w hw
          simp [noPam_dispatch _ _ _ _ _ hw, ih]
    · simp

/-! ## Authentication (C1, C2) -/

/-- C1. While the worker is not authenticated: a message that is not AUTHENTICATE is
answered with INTERNAL_ERROR, a failed AUTHENTICATE is answered with AUTH_FAILED and leaves
the state as it was, in both cases the first loop goes on with the next message when the
reply was sent; the first loop calls no handler but `authenticate`, and a run of `main`
that leaves the worker unauthenticated has called no other handler either. -/
theorem unauthenticated_worker_runs_no_verb (st : WorkerState) (hst : st.authenticated = false) :
    (∀ (s : Step) (rest : List Step), 0 < s.recvResult → s.message.mID ≠ RAP_REQUEST_AUTHENTICATE →
      preAuthLoop st (s :: rest) =
        if 0 < s.env.sendMessage ⟨RAP_RESPOND_INTERNAL_ERROR, -1, 0, []⟩ then
          (Event.recvMessage s.recvResult s.message
              :: Event.sendMessage ⟨RAP_RESPOND_INTERNAL_ERROR, -1, 0, []⟩ :: (preAuthLoop st rest).1,
            (preAuthLoop st rest).2)
        else
          ([Event.recvMessage s.recvResult s.message,
              Event.sendMessage ⟨RAP_RESPOND_INTERNAL_ERROR, -1, 0, []⟩],
            st, some (s.env.sendMessage ⟨RAP_RESPOND_INTERNAL_ERROR, -1, 0, []⟩, rest))) ∧
    (∀ (s : Step) (rest : List Step), 0 < s.recvResult → s.message.mID = RAP_REQUEST_AUTHENTICATE →
      (pamAuthenticate s.env st (messageParamToString (s.message.param RAP_PARAM_AUTH_USER))
        (messageParamToString (s.message.param RAP_PARAM_AUTH_PASSWORD))
        (messageParamToString (s.message.param RAP_PARAM_AUTH_RHOST))).1 = false →
      preAuthLoop st (s :: rest) =
        if 0 < s.env.sendMessage ⟨RAP_RESPOND_AUTH_FAILLED, -1, 0, []⟩ then
          (Event.recvMessage s.recvResult s.message :: Event.call Handler.authenticate
              :: (closeRequestFd s.message
                ++ [Event.pamAuthenticate (messageParamToString (s.message.param RAP_PARAM_AUTH_USER))
                      (messageParamToString (s.message.param RAP_PARAM_AUTH_PASSWORD))
                      (messageParamToString (s.message.param RAP_PARAM_AUTH_RHOST)),
                    Event.sendMessage ⟨RAP_RESPOND_AUTH_FAILLED, -1, 0, []⟩]
                ++ (preAuthLoop st rest).1),
            (preAuthLoop st rest).2)
        else
          (Event.recvMessage s.recvResult s.message :: Event.call Handler.authenticate
              :: (closeRequestFd s.message
                ++ [Event.pamAuthenticate (messageParamToString (s.message.param RAP_PARAM_AUTH_USER))
                      (messageParamToString (s.message.param RAP_PARAM_AUTH_PASSWORD))
                      (messageParamToString (s.message.param RAP_PARAM_AUTH_RHOST)),
                    Event.sendMessage ⟨RAP_RESPOND_AUTH_FAILLED, -1, 0, []⟩]),
            st, some (s.env.sendMessage ⟨RAP_RESPOND_AUTH_FAILLED, -1, 0, []⟩, rest))) ∧
    (∀ (steps : List Step) (h : Handler),
      Event.call h ∈ (preAuthLoop st steps).1 → h = Handler.authenticate) ∧
    (∀ (fuel : Nat) (mimeTypes : List MimeType) (steps : List Step),
      (main fuel mimeTypes steps).state.authenticated = false →
      ∀ h : Handler, Event.call h ∈ (main fuel mimeTypes steps).events → h = Handler.authenticate) := by
  refine ⟨?_, ?_, ?_, ?_⟩
  · intro s rest hr hm
    have hstep : preAuthStep st s = (respond s.env RAP_RESPOND_INTERNAL_ERROR, st) := by
      simp [preAuthStep, hm]
    rw [preAuthLoop_cons, if_neg (not_le.mpr hr), hstep]
    simp only [respond, hst, and_true, gt_iff_lt]
    split <;> rfl
  · intro s rest hr hm hp
    have hpam : (pamAuthenticate s.env st (messageParamToString (s.message.param RAP_PARAM_AUTH_USER))
        (messageParamToString (s.message.param RAP_PARAM_AUTH_PASSWORD))
        (messageParamToString (s.message.param RAP_PARAM_AUTH_RHOST))).2 = st := by
      revert hp
      unfold pamAuthenticate
      split
      · intro _; rfl
      · split
        · intro _; rfl
        · split
          · intro _; rfl
          · split
            · intro _; rfl
            · intro h; simp at h
    rw [preAuthLoop_cons, if_neg (not_le.mpr hr)]
    simp only [preAuthStep, hm, if_true, authenticate, hp, hpam, respond, hst, and_true, gt_iff_lt,
      Bool.false_eq_true, if_false]
    split
    · simp
    · simp
  · intro steps h hc
    exact preAuthLoop_calls st steps h hc
  · intro fuel mimeTypes steps hauth h hc
    obtain ⟨hstate, hev⟩ := main_events fuel mimeTypes steps
    rcases hev with hev | ⟨io, rest, hio, hp, _⟩
    · rw [hev] at hc
      exact preAuthLoop_calls _ steps h hc
    · rw [hstate] at hauth
      rcases preAuthLoop_exit _ steps io rest hp with h1 | h1
      · omega
      · rw [hauth] at h1; cases h1

theorem unauthenticated_worker_runs_no_verb_witness :
    initialState.authenticated = false ∧
    (preAuthLoop initialState rejectedSteps).1 =
      [Event.recvMessage 1 (requestFor RAP_REQUEST_GET "/srv/x"),
       Event.sendMessage ⟨RAP_RESPOND_INTERNAL_ERROR, -1, 0, []⟩,
       Event.recvMessage 1 ⟨RAP_REQUEST_AUTHENTICATE, -1, 3,
        [(RAP_PARAM_AUTH_USER, Param.str "alice"), (RAP_PARAM_AUTH_PASSWORD, Param.str "wrong"),
         (RAP_PARAM_AUTH_RHOST, Param.str "host")]⟩,
       Event.call Handler.authenticate,
       Event.pamAuthenticate (some "alice") (some "wrong") (some "host"),
       Event.sendMessage ⟨RAP_RESPOND_AUTH_FAILLED, -1, 0, []⟩] ∧
    (preAuthLoop initialState rejectedSteps).2 = (initialState, none) := by
  have h := unauthenticated_worker_runs_no_verb initialState rfl
  refine ⟨rfl, ?_, ?_⟩
  · rw [rejectedSteps, h.1 _ _ (by decide) (by decide), h.2.1 _ _ (by decide) (by decide) (by rfl)]
    rfl
  · rw [rejectedSteps, h.1 _ _ (by decide) (by decide), h.2.1 _ _ (by decide) (by decide) (by rfl)]
    rfl

theorem pamAuthenticate_true (env : Env) (st : WorkerState) (u p r : Option String)
    (h : (pamAuthenticate env st u p r).1 = true) : (pamAuthenticate env st u p r).2.authenticated = true := by
  revert h
  unfold pamAuthenticate
  split
  · simp
  · split
    · simp
    · split
      · simp
      · split <;> simp

/-- C2. The first loop stops at the first AUTHENTICATE that PAM accepts and leaves the
worker authenticated; from then on messages are handled by the second loop, where an
AUTHENTICATE is answered with INTERNAL_ERROR by the default case; no event of the second
loop is a run of the authenticator, and the state at the end of `main` is the state at the
end of the first loop. -/
theorem authenticate_after_success_is_refused (fuel : Nat) (st : WorkerState) :
    (∀ (s : Step) (rest : List Step), 0 < s.recvResult → s.message.mID = RAP_REQUEST_AUTHENTICATE →
      (pamAuthenticate s.env st (messageParamToString (s.message.param RAP_PARAM_AUTH_USER))
        (messageParamToString (s.message.param RAP_PARAM_AUTH_PASSWORD))
        (messageParamToString (s.message.param RAP_PARAM_AUTH_RHOST))).1 = true →
      (preAuthLoop st (s :: rest)).2.1.authenticated = true ∧
      (preAuthLoop st (s :: rest)).2.2 = some (s.env.sendMessage ⟨RAP_RESPOND_OK, -1, 0, []⟩, rest) ∧
      (preAuthLoop st (s :: rest)).1 =
        Event.recvMessage s.recvResult s.message :: Event.call Handler.authenticate
          :: (closeRequestFd s.message
            ++ [Event.pamAuthenticate (messageParamToString (s.message.param RAP_PARAM_AUTH_USER))
                  (messageParamToString (s.message.param RAP_PARAM_AUTH_PASSWORD))
                  (messageParamToString (s.message.param RAP_PARAM_AUTH_RHOST)),
                Event.sendMessage ⟨RAP_RESPOND_OK, -1, 0, []⟩])) ∧
    (∀ (ioResult : Int) (s : Step) (rest : List Step), 0 < ioResult → 0 < s.recvResult →
      s.message.mID = RAP_REQUEST_AUTHENTICATE →
      verbLoop fuel st ioResult (s :: rest) =
        (Event.recvMessage s.recvResult s.message
            :: Event.sendMessage ⟨RAP_RESPOND_INTERNAL_ERROR, -1, 0, []⟩
            :: (verbLoop fuel st (s.env.sendMessage ⟨RAP_RESPOND_INTERNAL_ERROR, -1, 0, []⟩) rest).1,
          (verbLoop fuel st (s.env.sendMessage ⟨RAP_RESPOND_INTERNAL_ERROR, -1, 0, []⟩) rest).2)) ∧
    (∀ (ioResult : Int) (steps : List Step) (user password rhost : Option String),
      Event.pamAuthenticate user password rhost ∉ (verbLoop fuel st ioResult steps).1) ∧
    (∀ (mimeTypes : List MimeType) (steps : List Step),
      (main fuel mimeTypes steps).state = (preAuthLoop ⟨false, none, mimeTypes⟩ steps).2.1 ∧
      ∃ later : List Event,
        (main fuel mimeTypes steps).events = (preAuthLoop ⟨false, none, mimeTypes⟩ steps).1 ++ later ∧
        ∀ user password rhost, Event.pamAuthenticate user password rhost ∉ later) := by
  refine ⟨?_, ?_, ?_, ?_⟩
  · intro s rest hr hm hp
    have hauth := pamAuthenticate_true _ _ _ _ _ hp
    have hstep : (preAuthStep st s).2.authenticated = true := by
      simp only [preAuthStep, hm, if_true, authenticate]
      exact hauth
    rw [preAuthLoop_cons, if_neg (not_le.mpr hr), if_neg (by simp [hstep])]
    refine ⟨hstep, ?_, ?_⟩
    · simp [preAuthStep, hm, authenticate, hp, respond]
    · simp [preAuthStep, hm, authenticate, hp, respond]
  · intro io s rest hio hr hm
    simp only [verbLoop, if_pos hio, if_neg (not_le.mpr hr), dispatch, hm, respond]
    rfl
  · intro io steps u p r
    exact noPam_verbLoop fuel st io steps u p r
  · intro mimeTypes steps
    obtain ⟨hstate, hev⟩ := main_events fuel mimeTypes steps
    refine ⟨hstate, ?_⟩
    rcases hev with hev | ⟨io, rest, _, _, hev⟩
    · exact ⟨[], by simpa using hev, by simp⟩
    · exact ⟨_, hev, noPam_verbLoop _ _ _ _⟩

theorem authenticate_after_success_is_refused_witness :
    (main 0 [] [⟨1, authenticateAlice, exampleEnv⟩, ⟨1, authenticateAlice, exampleEnv⟩]).events =
      [Event.recvMessage 1 authenticateAlice,
       Event.call Handler.authenticate,
       Event.pamAuthenticate (some "alice") (some "secret") (some "host"),
       Event.sendMessage ⟨RAP_RESPOND_OK, -1, 0, []⟩,
       Event.recvMessage 1 authenticateAlice,
       Event.sendMessage ⟨RAP_RESPOND_INTERNAL_ERROR, -1, 0, []⟩] ∧
    (main 0 [] [⟨1, authenticateAlice, exampleEnv⟩, ⟨1, authenticateAlice, exampleEnv⟩]).state =
      ⟨true, some "alice", []⟩ ∧
    verbLoop 0 ⟨true, some "alice", []⟩ 1 [⟨1, authenticateAlice, exampleEnv⟩] =
      ([Event.recvMessage 1 authenticateAlice, Event.sendMessage ⟨RAP_RESPOND_INTERNAL_ERROR, -1, 0, []⟩],
        Outcome.waiting) := by
  refine ⟨by rfl, by rfl, ?_⟩
  rw [(authenticate_after_success_is_refused 0 ⟨true, some "alice", []⟩).2.1 1
    ⟨1, authenticateAlice, exampleEnv⟩ [] (by decide) (by decide) rfl]
  rfl

/-! ## MOVE, descriptors and the GET location (C3, C4, C5) -/

/-- C3. When `rename` fails with `EXDEV`, `_copyFile` returns `-1`, nothing is unlinked and
`moveFile` falls through to its last statement: the answer is OK_NO_CONTENT, not
INTERNAL_ERROR. -/
theorem move_across_devices_answers_ok_no_content (env : Env) (m : Message) (source target : String)
    (hs : m.param RAP_PARAM_REQUEST_FILE = Param.str source)
    (ht : m.param RAP_PARAM_REQUEST_TARGET = Param.str target)
    (hx : env.rename source target = Except.error EXDEV) :
    moveFile env m =
      (closeRequestFd m
        ++ [Event.rename (some source) (some target),
            Event.sendMessage ⟨RAP_RESPOND_OK_NO_CONTENT, -1, 0, []⟩],
        env.sendMessage ⟨RAP_RESPOND_OK_NO_CONTENT, -1, 0, []⟩) := by
  simp [moveFile, hs, ht, messageParamToString, sysRename, hx, _copyFile, respond]

theorem move_across_devices_answers_ok_no_content_witness :
    moveFile twoDevicesEnv moveAcrossDevices =
      ([Event.rename (some "/a/src") (some "/b/dst"),
        Event.sendMessage ⟨RAP_RESPOND_OK_NO_CONTENT, -1, 0, []⟩], 1) :=
  move_across_devices_answers_ok_no_content twoDevicesEnv moveAcrossDevices "/a/src" "/b/dst" rfl rfl rfl

/-- C4. Three returns leave the descriptor of the request open: `writeFile` when `open`
fails, `writeFile` when the interim CONTINUE cannot be sent, and `propfind` when the
interim CONTINUE cannot be sent. -/
theorem early_returns_leave_request_descriptor_open (fuel : Nat) (env : Env) (st : WorkerState)
    (m : Message) (hfd : m.fd ≠ -1) :
    (∀ e : Errno,
      sysOpen env (messageParamToString (m.param RAP_PARAM_REQUEST_FILE)) [O_WRONLY, O_CREAT, O_TRUNC]
        = Except.error e →
      Event.close m.fd ∉ (writeFile env m).1) ∧
    (∀ fd : Int,
      sysOpen env (messageParamToString (m.param RAP_PARAM_REQUEST_FILE)) [O_WRONLY, O_CREAT, O_TRUNC]
        = Except.ok fd →
      env.sendMessage ⟨RAP_RESPOND_CONTINUE, -1, 0, []⟩ < 0 →
      writeFile env m =
        ([Event.open (messageParamToString (m.param RAP_PARAM_REQUEST_FILE)) [O_WRONLY, O_CREAT, O_TRUNC],
          Event.sendMessage ⟨RAP_RESPOND_CONTINUE, -1, 0, []⟩],
          env.sendMessage ⟨RAP_RESPOND_CONTINUE, -1, 0, []⟩)) ∧
    (m.paramCount = 3 → env.sendMessage ⟨RAP_RESPOND_CONTINUE, -1, 0, []⟩ < 0 →
      propfind fuel env st m =
        some ([Event.sendMessage ⟨RAP_RESPOND_CONTINUE, -1, 0, []⟩],
          env.sendMessage ⟨RAP_RESPOND_CONTINUE, -1, 0, []⟩)) := by
  refine ⟨?_, ?_, ?_⟩
  · intro e he
    simp only [writeFile, if_neg hfd, he]
    split <;> simp [respond]
  · intro fd hok hsend
    simp [writeFile, if_neg hfd, hok, respond, hsend]
  · intro hc hsend
    simp [propfind, hc, if_neg hfd, respond, hsend]

theorem early_returns_leave_request_descriptor_open_witness :
    writeFile readOnlyEnv putWithBody =
      ([Event.open (some "/srv/x/new") [O_WRONLY, O_CREAT, O_TRUNC],
        Event.sendMessage ⟨RAP_RESPOND_ACCESS_DENIED, -1, 0, []⟩], 1) ∧
    Event.close 5 ∉ (writeFile readOnlyEnv putWithBody).1 :=
  ⟨rfl, (early_returns_leave_request_descriptor_open 0 readOnlyEnv initialState putWithBody
    (by decide)).1 EACCES rfl⟩

/-- C5. For a GET on a directory the RESPONSE_LOCATION of the OK message is the
REQUEST_FILE parameter as it was received: no `/` is appended. -/
theorem get_directory_location_is_request_path (env : Env) (st : WorkerState) (m : Message)
    (f : String) (fd pipeRead pipeWrite : Int)
    (hfile : m.param RAP_PARAM_REQUEST_FILE = Param.str f)
    (hopen : env.openFile f [O_RDONLY] = Except.ok fd)
    (hdir : (env.fstat fd).st_mode = S_IFDIR)
    (hpipe : env.pipe = some (pipeRead, pipeWrite)) :
    ∃ rest : List Event,
      (readFile env st m).1 =
        closeRequestFd m
          ++ Event.open (some f) [O_RDONLY]
            :: Event.sendMessage
                ⟨RAP_RESPOND_OK, pipeRead, 3,
                  [(RAP_PARAM_RESPONSE_DATE, Param.time env.time),
                   (RAP_PARAM_RESPONSE_MIME, Param.str "text/html"),
                   (RAP_PARAM_RESPONSE_LOCATION, Param.str f)]⟩
            :: rest := by
  simp only [readFile, hfile, messageParamToString, hopen, hdir, if_true, hpipe]
  split
  · exact ⟨_, rfl⟩
  · exact ⟨_, rfl⟩

theorem get_directory_location_is_request_path_witness :
    ∃ rest : List Event,
      (readFile directoryEnv initialState (requestFor RAP_REQUEST_GET "/srv/x")).1 =
        Event.open (some "/srv/x") [O_RDONLY]
          :: Event.sendMessage
              ⟨RAP_RESPOND_OK, 3, 3,
                [(RAP_PARAM_RESPONSE_DATE, Param.time 0),
                 (RAP_PARAM_RESPONSE_MIME, Param.str "text/html"),
                 (RAP_PARAM_RESPONSE_LOCATION, Param.str "/srv/x")]⟩
          :: rest :=
  get_directory_location_is_request_path directoryEnv initialState (requestFor RAP_REQUEST_GET "/srv/x")
    "/srv/x" 7 3 4 rfl rfl rfl rfl

/-! ## The properties of one PROPFIND response (C6) -/

@[simp] theorem elementCount_nil (name : String) : elementCount name [] = 0 := rfl

@[simp] theorem elementCount_append (name : String) (a b : List XmlOp) :
    elementCount name (a ++ b) = elementCount name a + elementCount name b := by
  simp [elementCount]

@[simp] theorem elementCount_cons (name : String) (op : XmlOp) (l : List XmlOp) :
    elementCount name (op :: l) = (if op.startsElement name then 1 else 0) + elementCount name l := by
  simp [elementCount, List.countP_cons, add_comm]

theorem elementCount_ite (name : String) (c : Prop) [Decidable c] (a b : List XmlOp) :
    elementCount name (if c then a else b) = if c then elementCount name a else elementCount name b := by
  split <;> rfl

theorem responseCount_propElements (env : Env) (st : WorkerState) (fileName displayName : String)
    (properties : PropertySet) (fileStat : Stat) :
    elementCount "response" (propElements env st fileName displayName properties fileStat) = 0 := by
  simp only [propElements, elementCount_append, elementCount_ite, elementCount_cons, elementCount_nil,
    XmlOp.startsElement]
  by_cases hd : fileStat.st_mode = S_IFDIR <;> cases h : env.statvfs fileName <;>
    simp [PROPFIND_ETAG, PROPFIND_CREATION_DATE, PROPFIND_LAST_MODIFIED,
      PROPFIND_RESOURCE_TYPE, PROPFIND_AVAILABLE_BYTES, PROPFIND_USED_BYTES, PROPFIND_WINDOWS_ATTRIBUTES,
      PROPFIND_CONTENT_LENGTH, PROPFIND_CONTENT_TYPE, PROPFIND_DISPLAY_NAME,
      elementCount_ite, XmlOp.startsElement, hd]

theorem responseCount_part (env : Env) (st : WorkerState) (fileName displayName : String)
    (properties : PropertySet) (fileStat : Stat) :
    responseCount (writePropFindResponsePart env st fileName displayName properties fileStat) = 1 := by
  simp [responseCount, writePropFindResponsePart, responseCount_propElements, XmlOp.startsElement]

theorem name_eq_iff (dp : Dirent) (l : List Char) :
    dp.name = String.mk l ↔ dp.d_name.takeWhile (fun c => c != NUL) = l := by
  unfold Dirent.name
  constructor
  · intro h; injection h
  · intro h; rw [h]

theorem NUL_ne_dot : ¬ NUL = '.' := by decide

theorem childFilter_iff (dp : Dirent) :
    childFilter dp = false ↔ (dp.name = "." ∧ dp.byte 2 = NUL) ∨ dp.name = ".." := by
  have e1 : ("." : String) = String.mk ['.'] := rfl
  have e2 : (".." : String) = String.mk ['.', '.'] := rfl
  have hn := NUL_ne_dot
  have hn2 : ¬ '.' = NUL := fun h => hn h.symm
  rw [e1, e2, name_eq_iff, name_eq_iff]
  obtain ⟨l, t⟩ := dp
  simp only [childFilter, Dirent.byte]
  rcases l with _ | ⟨a, _ | ⟨b, _ | ⟨c, r⟩⟩⟩
  · simp [hn]
  · by_cases ha : a = '.'
    · subst ha; simp [List.takeWhile_cons, hn2]
    · by_cases ha0 : a = NUL
      · subst ha0; simp [List.takeWhile_cons, hn]
      · simp [ha, ha0, List.takeWhile_cons]
  · by_cases ha : a = '.'
    · subst ha
      by_cases hb : b = '.'
      · subst hb; simp [List.takeWhile_cons, hn2]
      · by_cases hb0 : b = NUL
        · subst hb0; simp [List.takeWhile_cons, hn2, hn]
        · simp [List.takeWhile_cons, hn2, hb, hb0]
    · by_cases ha0 : a = NUL
      · subst ha0; simp [List.takeWhile_cons, hn]
      · simp [ha, ha0, List.takeWhile_cons]
  · by_cases ha : a = '.'
    · subst ha
      by_cases hb : b = '.'
      · subst hb
        by_cases hc0 : c = NUL
        · subst hc0; simp [List.takeWhile_cons, hn2]
        · simp [List.takeWhile_cons, hn2, hc0]
      · by_cases hb0 : b = NUL
        · subst hb0; simp [List.takeWhile_cons, hn2, hn]
        · simp [List.takeWhile_cons, hn2, hb, hb0]
    · by_cases ha0 : a = NUL
      · subst ha0; simp [List.takeWhile_cons, hn]
      · simp [ha, ha0, List.takeWhile_cons]

theorem responseCount_child (env : Env) (st : WorkerState) (filePath : String) (properties : PropertySet)
    (dp : Dirent) :
    responseCount (propFindChild env st filePath properties dp)
      = if childFilter dp = true ∧ (env.stat (filePath ++ dp.name)).toBool = true then 1 else 0 := by
  unfold propFindChild
  by_cases hf : childFilter dp = true
  · simp only [hf, if_true, true_and]
    cases hs : env.stat (filePath ++ dp.name) with
    | error e => simp [responseCount, Except.toBool]
    | ok fileStat => simp [responseCount_part, Except.toBool]
  · simp [hf, responseCount]

theorem responseCount_readdirLoop (env : Env) (st : WorkerState) (filePath : String)
    (properties : PropertySet) (entries : List Dirent)
    (hpad : ∀ dp ∈ entries, dp.name = "." → dp.byte 2 = NUL) :
    responseCount (readdirLoop env st filePath properties entries)
      = (listedChildren env filePath entries).length := by
  induction entries with
  | nil => simp [readdirLoop, listedChildren, responseCount]
  | cons dp rest ih =>
    have ih1 := ih (fun d hd => hpad d (List.mem_cons_of_mem _ hd))
    have hdp := hpad dp (List.mem_cons_self _ _)
    have hc := responseCount_child env st filePath properties dp
    simp only [responseCount] at hc ih1 ⊢
    simp only [readdirLoop, elementCount_append, hc, ih1, listedChildren, List.filter_cons]
    have hfilter : childFilter dp = true ↔ (dp.name != "." && dp.name != "..") = true := by
      rw [← Bool.not_eq_false, childFilter_iff]
      simp only [Bool.and_eq_true, bne_iff_ne, ne_eq, not_or, not_and]
      constructor
      · intro h
        exact ⟨fun hd => h.1 hd (hdp hd), h.2⟩
      · intro h
        exact ⟨fun hd => absurd hd h.1, h.2⟩
    by_cases hk : (dp.name != "." && dp.name != "..") = true
    · have hf := hfilter.mpr hk
      by_cases hs : (env.stat (filePath ++ dp.name)).toBool = true
      · simp [hf, hk, hs, add_comm]
      · simp [hf, hk, hs]
    · have hf : ¬ childFilter dp = true := fun h => hk (hfilter.mp h)
      simp [hf, hk]

theorem responseCount_propFindXml_one (env : Env) (st : WorkerState) (file filePath : String)
    (properties : PropertySet) (fileStat : Stat) :
    responseCount (propFindXml env st file filePath properties fileStat 1) = 1 := by
  have h := responseCount_part env st filePath (displayNameOf (env.byteBefore file) file) properties fileStat
  simp only [responseCount] at h ⊢
  simp [propFindXml, h, XmlOp.startsElement]

theorem responseCount_propFindXml_two (env : Env) (st : WorkerState) (file filePath : String)
    (properties : PropertySet) (fileStat : Stat) (entries : List Dirent)
    (hdir : fileStat.st_mode = S_IFDIR) (hopen : env.opendir filePath = some entries) :
    responseCount (propFindXml env st file filePath properties fileStat 2)
      = 1 + responseCount (readdirLoop env st filePath properties entries) := by
  have h := responseCount_part env st filePath (displayNameOf (env.byteBefore file) file) properties fileStat
  simp only [responseCount] at h ⊢
  simp [propFindXml, h, XmlOp.startsElement, hdir, hopen]

theorem parsePropFind_events (fuel : Nat) (env : Env) (fd : Int) (ev : List Event) (ret : Int)
    (p : PropertySet) (h : parsePropFind fuel env fd = some (ev, ret, p)) :
    ev = [Event.close fd] ∨ ev = [Event.readXml fd, Event.close fd] := by
  unfold parsePropFind at h
  split at h
  · simp at h; exact Or.inl h.1.symm
  · right
    split at h
    · simp at h; exact h.1.symm
    · dsimp only at h
      split at h
      · simp at h; exact h.1.symm
      · split at h
        · simp at h; exact h.1.symm
        · split at h
          · simp at h
          · split at h
            · simp at h; exact h.1.symm
            · split at h
              · simp at h
              · split at h
                · simp at h
                · simp at h; exact h.1.symm

theorem strcmp_zero_one : strcmp "0".data "1".data ≠ 0 := by decide

theorem strcmp_zero_zero : strcmp "0".data "0".data = 0 := by decide

/-- The depth handed to `respondToPropFind` by `propfind`. -/
theorem propfind_no_body (fuel : Nat) (env : Env) (st : WorkerState) (m : Message)
    (hcount : m.paramCount = 3) (hfd : m.fd = -1) :
    propfind fuel env st m =
      some (respondToPropFind env st (messageParamToString (m.param RAP_PARAM_REQUEST_FILE)) PropertySet.all
        (if strcmp "0".data ((messageParamToString (m.param RAP_PARAM_REQUEST_DEPTH)).getD "1").data ≠ 0
          then 2 else 1)) := by
  simp [propfind, hcount, hfd]

theorem propfind_with_body (fuel : Nat) (env : Env) (st : WorkerState) (m : Message)
    (events : List Event) (properties : PropertySet)
    (hcount : m.paramCount = 3) (hfd : m.fd ≠ -1)
    (hcontinue : 0 ≤ env.sendMessage ⟨RAP_RESPOND_CONTINUE, -1, 0, []⟩)
    (hparse : parsePropFind fuel env m.fd = some (events, 1, properties)) :
    propfind fuel env st m =
      some (Event.sendMessage ⟨RAP_RESPOND_CONTINUE, -1, 0, []⟩ :: events
          ++ (respondToPropFind env st (messageParamToString (m.param RAP_PARAM_REQUEST_FILE)) properties
            (if strcmp "0".data ((messageParamToString (m.param RAP_PARAM_REQUEST_DEPTH)).getD "1").data ≠ 0
              then 2 else 1)).1,
        (respondToPropFind env st (messageParamToString (m.param RAP_PARAM_REQUEST_FILE)) properties
            (if strcmp "0".data ((messageParamToString (m.param RAP_PARAM_REQUEST_DEPTH)).getD "1").data ≠ 0
              then 2 else 1)).2) := by
  simp [propfind, hcount, hfd, respond, not_lt.mpr hcontinue, hparse]

theorem respondToPropFind_ok (env : Env) (st : WorkerState) (f : String) (properties : PropertySet)
    (depth : Int) (fileStat : Stat) (pipeRead pipeWrite : Int)
    (hstat : env.stat f = Except.ok fileStat)
    (hpipe : env.pipe = some (pipeRead, pipeWrite))
    (hsend : 0 < env.sendMessage ⟨RAP_RESPOND_MULTISTATUS, pipeRead, 2,
      xmlResponseParams env.time
        (Param.str (normalizeDirName (env.byteBefore f) f (fileStat.st_mode = S_IFDIR)))⟩) :
    respondToPropFind env st (some f) properties depth =
      ([Event.sendMessage ⟨RAP_RESPOND_MULTISTATUS, pipeRead, 2,
          xmlResponseParams env.time
            (Param.str (normalizeDirName (env.byteBefore f) f (fileStat.st_mode = S_IFDIR)))⟩,
        Event.writeXml pipeWrite
          (propFindXml env st f (normalizeDirName (env.byteBefore f) f (fileStat.st_mode = S_IFDIR))
            properties fileStat depth)],
       env.sendMessage ⟨RAP_RESPOND_MULTISTATUS, pipeRead, 2,
          xmlResponseParams env.time
            (Param.str (normalizeDirName (env.byteBefore f) f (fileStat.st_mode = S_IFDIR)))⟩) := by
  simp only [respondToPropFind, hstat, hpipe]
  rw [if_neg (not_le.mpr hsend)]

/-- C7 (amended). A PROPFIND with three parameters, without body or with a body that
`parsePropFind` accepts, whose target can be stat'ed and whose multistatus message is sent,
writes one document: with depth `0` it holds one `d:response`; with depth `1` or no depth,
on a directory that `opendir` opens and whose `.` entry is NUL-padded, it holds one
`d:response` for the target and one for each entry other than `.` and `..` whose `stat`
succeeds. -/
theorem propfind_response_count (fuel : Nat) (env : Env) (st : WorkerState) (m : Message) (f : String)
    (fileStat : Stat) (pipeRead pipeWrite : Int)
    (hcount : m.paramCount = 3)
    (hfile : m.param RAP_PARAM_REQUEST_FILE = Param.str f)
    (hstat : env.stat f = Except.ok fileStat)
    (hpipe : env.pipe = some (pipeRead, pipeWrite))
    (hsend : 0 < env.sendMessage ⟨RAP_RESPOND_MULTISTATUS, pipeRead, 2,
      xmlResponseParams env.time
        (Param.str (normalizeDirName (env.byteBefore f) f (fileStat.st_mode = S_IFDIR)))⟩)
    (hbody : m.fd = -1 ∨
      (0 ≤ env.sendMessage ⟨RAP_RESPOND_CONTINUE, -1, 0, []⟩ ∧
        ∃ events properties, parsePropFind fuel env m.fd = some (events, 1, properties))) :
    ∃ (before : List Event) (ops : List XmlOp) (result : Int),
      propfind fuel env st m = some (before ++ [Event.writeXml pipeWrite ops], result) ∧
      (∀ fd ops1, Event.writeXml fd ops1 ∉ before) ∧
      (m.param RAP_PARAM_REQUEST_DEPTH = Param.str "0" → responseCount ops = 1) ∧
      (m.param RAP_PARAM_REQUEST_DEPTH = Param.str "1"
          ∨ messageParamToString (m.param RAP_PARAM_REQUEST_DEPTH) = none →
        fileStat.st_mode = S_IFDIR →
        ∀ entries : List Dirent,
          env.opendir (normalizeDirName (env.byteBefore f) f (fileStat.st_mode = S_IFDIR)) = some entries →
          (∀ dp ∈ entries, dp.name = "." → dp.byte 2 = NUL) →
          responseCount ops =
            1 + (listedChildren env (normalizeDirName (env.byteBefore f) f (fileStat.st_mode = S_IFDIR))
                  entries).length) := by
  have hcounts : ∀ properties : PropertySet,
      (m.param RAP_PARAM_REQUEST_DEPTH = Param.str "0" →
        responseCount (propFindXml env st f (normalizeDirName (env.byteBefore f) f (fileStat.st_mode = S_IFDIR))
          properties fileStat
          (if strcmp "0".data ((messageParamToString (m.param RAP_PARAM_REQUEST_DEPTH)).getD "1").data ≠ 0
            then 2 else 1)) = 1) ∧
      (m.param RAP_PARAM_REQUEST_DEPTH = Param.str "1"
          ∨ messageParamToString (m.param RAP_PARAM_REQUEST_DEPTH) = none →
        fileStat.st_mode = S_IFDIR →
        ∀ entries : List Dirent,
          env.opendir (normalizeDirName (env.byteBefore f) f (fileStat.st_mode = S_IFDIR)) = some entries →
          (∀ dp ∈ entries, dp.name = "." → dp.byte 2 = NUL) →
          responseCount (propFindXml env st f (normalizeDirName (env.byteBefore f) f (fileStat.st_mode = S_IFDIR))
            properties fileStat
            (if strcmp "0".data ((messageParamToString (m.param RAP_PARAM_REQUEST_DEPTH)).getD "1").data ≠ 0
              then 2 else 1)) =
            1 + (listedChildren env (normalizeDirName (env.byteBefore f) f (fileStat.st_mode = S_IFDIR))
                  entries).length) := by
    intro properties
    constructor
    · intro hd
      rw [hd]
      simp only [messageParamToString, Option.getD_some, strcmp_zero_zero, ne_eq, not_true, if_false]
      exact responseCount_propFindXml_one _ _ _ _ _ _
    · intro hd hdir entries hopen hpad
      have hdepth : (messageParamToString (m.param RAP_PARAM_REQUEST_DEPTH)).getD "1" = "1" := by
        rcases hd with hd | hd
        · rw [hd]; rfl
        · rw [hd]; rfl
      rw [hdepth, if_pos strcmp_zero_one, responseCount_propFindXml_two _ _ _ _ _ _ entries hdir hopen,
        responseCount_readdirLoop _ _ _ _ _ hpad]
  rcases hbody with hfd | ⟨hcontinue, events, properties, hparse⟩
  · refine ⟨[Event.sendMessage ⟨RAP_RESPOND_MULTISTATUS, pipeRead, 2,
          xmlResponseParams env.time
            (Param.str (normalizeDirName (env.byteBefore f) f (fileStat.st_mode = S_IFDIR)))⟩],
      _, env.sendMessage ⟨RAP_RESPOND_MULTISTATUS, pipeRead, 2,
          xmlResponseParams env.time
            (Param.str (normalizeDirName (env.byteBefore f) f (fileStat.st_mode = S_IFDIR)))⟩, ?_, ?_, hcounts PropertySet.all⟩
    · rw [propfind_no_body fuel env st m hcount hfd, hfile]
      simp only [messageParamToString]
      rw [respondToPropFind_ok env st f _ _ fileStat pipeRead pipeWrite hstat hpipe hsend]
      rfl
    · intro fd ops1; simp
  · by_cases hfd : m.fd = -1
    · refine ⟨[Event.sendMessage ⟨RAP_RESPOND_MULTISTATUS, pipeRead, 2,
            xmlResponseParams env.time
              (Param.str (normalizeDirName (env.byteBefore f) f (fileStat.st_mode = S_IFDIR)))⟩],
        _, env.sendMessage ⟨RAP_RESPOND_MULTISTATUS, pipeRead, 2,
          xmlResponseParams env.time
            (Param.str (normalizeDirName (env.byteBefore f) f (fileStat.st_mode = S_IFDIR)))⟩, ?_, ?_, hcounts PropertySet.all⟩
      · rw [propfind_no_body fuel env st m hcount hfd, hfile]
        simp only [messageParamToString]
        rw [respondToPropFind_ok env st f _ _ fileStat pipeRead pipeWrite hstat hpipe hsend]
        rfl
      · intro fd ops1; simp
    · refine ⟨Event.sendMessage ⟨RAP_RESPOND_CONTINUE, -1, 0, []⟩ :: events
          ++ [Event.sendMessage ⟨RAP_RESPOND_MULTISTATUS, pipeRead, 2,
              xmlResponseParams env.time
                (Param.str (normalizeDirName (env.byteBefore f) f (fileStat.st_mode = S_IFDIR)))⟩],
        _, env.sendMessage ⟨RAP_RESPOND_MULTISTATUS, pipeRead, 2,
          xmlResponseParams env.time
            (Param.str (normalizeDirName (env.byteBefore f) f (fileStat.st_mode = S_IFDIR)))⟩, ?_, ?_, hcounts properties⟩
      · rw [propfind_with_body fuel env st m events properties hcount hfd hcontinue hparse, hfile]
        simp only [messageParamToString]
        rw [respondToPropFind_ok env st f _ _ fileStat pipeRead pipeWrite hstat hpipe hsend]
        simp
      · intro fd ops1
        rcases parsePropFind_events _ _ _ _ _ _ hparse with he | he <;> subst he <;> simp

theorem listingEnv_path :
    normalizeDirName (listingEnv.byteBefore "/srv/x/") "/srv/x/" (decide ((⟨S_IFDIR, 0, 0, 0⟩ : Stat).st_mode = S_IFDIR))
      = "/srv/x/" := by
  decide

theorem listingEntries_padded : ∀ dp ∈ listingEntries, dp.name = "." → dp.byte 2 = NUL := by
  decide

theorem listingEntries_children : (listedChildren listingEnv "/srv/x/" listingEntries).length = 1 := by
  decide

/-- C7, as stated, fails: `/srv/x/` has two entries other than `.` and `..`, yet the
multistatus of a PROPFIND with depth `1` holds two `d:response` elements, not three,
because `stat` fails on one of the entries. -/
theorem propfind_depth_one_counterexample :
    listingEnv.opendir "/srv/x/" = some listingEntries ∧
    (listingEntries.filter (fun dp => dp.name != "." && dp.name != "..")).length = 2 ∧
    propfind 0 listingEnv initialState (propfindDepth "1")
      = some ([Event.sendMessage
                ⟨RAP_RESPOND_MULTISTATUS, 3, 2, xmlResponseParams 0 (Param.str "/srv/x/")⟩,
               Event.writeXml 4
                (propFindXml listingEnv initialState "/srv/x/" "/srv/x/" PropertySet.all
                  ⟨S_IFDIR, 0, 0, 0⟩ 2)], 1) ∧
    responseCount
      (propFindXml listingEnv initialState "/srv/x/" "/srv/x/" PropertySet.all ⟨S_IFDIR, 0, 0, 0⟩ 2) = 2 := by
  refine ⟨rfl, by decide, ?_, ?_⟩
  · rw [propfind_no_body 0 listingEnv initialState (propfindDepth "1") rfl rfl]
    have h := respondToPropFind_ok listingEnv initialState "/srv/x/" PropertySet.all 2 ⟨S_IFDIR, 0, 0, 0⟩ 3 4
      rfl rfl (by decide)
    rw [listingEnv_path] at h
    exact congrArg some h
  · rw [responseCount_propFindXml_two listingEnv initialState "/srv/x/" "/srv/x/" PropertySet.all
        ⟨S_IFDIR, 0, 0, 0⟩ listingEntries rfl rfl,
      responseCount_readdirLoop _ _ _ _ _ listingEntries_padded, listingEntries_children]

theorem propfind_response_count_witness :
    ∃ (before : List Event) (ops : List XmlOp) (result : Int),
      propfind 0 listingEnv initialState (propfindDepth "1")
        = some (before ++ [Event.writeXml 4 ops], result) ∧
      responseCount ops = 1 + 1 := by
  obtain ⟨before, ops, result, h1, _, _, h4⟩ :=
    propfind_response_count 0 listingEnv initialState (propfindDepth "1") "/srv/x/" ⟨S_IFDIR, 0, 0, 0⟩ 3 4
      rfl rfl rfl rfl (by decide) (Or.inl rfl)
  refine ⟨before, ops, result, h1, ?_⟩
  rw [h4 (Or.inl rfl) rfl listingEntries (by rw [listingEnv_path]; rfl) listingEntries_padded, listingEnv_path,
    listingEntries_children]

/-! ## PROPPATCH (C8) -/

/-- C8 (amended). A PROPPATCH with a body sends CONTINUE, reads the body to its end, closes
it, and then answers exactly as a PROPFIND of the same path with three parameters, no body
and depth `0` does: `respondToPropFind` is called with every property and with a depth
that does not list the children of a directory. -/
theorem proppatch_answers_as_propfind_depth_zero (fuel : Nat) (env : Env) (st : WorkerState)
    (patch find : Message)
    (hbody : patch.fd ≠ -1) (hnobody : find.fd = -1) (hcount : find.paramCount = 3)
    (hfile : find.param RAP_PARAM_REQUEST_FILE = patch.param RAP_PARAM_REQUEST_FILE)
    (hdepth : find.param RAP_PARAM_REQUEST_DEPTH = Param.str "0") :
    ∃ w : Reply,
      propfind fuel env st find = some w ∧
      proppatch env st patch =
        (Event.sendMessage ⟨RAP_RESPOND_CONTINUE, -1, 0, []⟩
            :: (drainBody patch.fd env.chunks ++ Event.close patch.fd :: w.1),
          w.2) := by
  refine ⟨respondToPropFind env st (messageParamToString (patch.param RAP_PARAM_REQUEST_FILE))
    PropertySet.all 1, ?_, ?_⟩
  · have hd : (if strcmp "0".data ((messageParamToString (Param.str "0")).getD "1").data ≠ 0
        then (2 : Int) else 1) = 1 := by decide
    rw [propfind_no_body fuel env st find hcount hnobody, hfile, hdepth, hd]
  · simp [proppatch, hbody, respond]

theorem proppatch_answers_as_propfind_depth_zero_witness :
    ∃ w : Reply,
      propfind 0 listingEnv initialState (propfindDepth "0") = some w ∧
      proppatch listingEnv initialState proppatchRequest =
        (Event.sendMessage ⟨RAP_RESPOND_CONTINUE, -1, 0, []⟩
            :: (drainBody 5 [] ++ Event.close 5 :: w.1),
          w.2) :=
  proppatch_answers_as_propfind_depth_zero 0 listingEnv initialState proppatchRequest (propfindDepth "0")
    (by decide) rfl rfl rfl rfl

/-- C8, as stated, fails: on the directory `/srv/x/` the multistatus of a PROPPATCH holds one
`d:response`, the multistatus of a PROPFIND without body and with depth `1` holds two. -/
theorem proppatch_depth_one_counterexample :
    proppatch listingEnv initialState proppatchRequest
      = ([Event.sendMessage ⟨RAP_RESPOND_CONTINUE, -1, 0, []⟩,
          Event.read 5 0,
          Event.close 5,
          Event.sendMessage ⟨RAP_RESPOND_MULTISTATUS, 3, 2, xmlResponseParams 0 (Param.str "/srv/x/")⟩,
          Event.writeXml 4
            (propFindXml listingEnv initialState "/srv/x/" "/srv/x/" PropertySet.all ⟨S_IFDIR, 0, 0, 0⟩ 1)],
         1) ∧
    propfind 0 listingEnv initialState (propfindDepth "1")
      = some ([Event.sendMessage
                ⟨RAP_RESPOND_MULTISTATUS, 3, 2, xmlResponseParams 0 (Param.str "/srv/x/")⟩,
               Event.writeXml 4
                (propFindXml listingEnv initialState "/srv/x/" "/srv/x/" PropertySet.all
                  ⟨S_IFDIR, 0, 0, 0⟩ 2)], 1) ∧
    responseCount
      (propFindXml listingEnv initialState "/srv/x/" "/srv/x/" PropertySet.all ⟨S_IFDIR, 0, 0, 0⟩ 1) = 1 ∧
    responseCount
      (propFindXml listingEnv initialState "/srv/x/" "/srv/x/" PropertySet.all ⟨S_IFDIR, 0, 0, 0⟩ 2) = 2 := by
  have h := respondToPropFind_ok listingEnv initialState "/srv/x/" PropertySet.all
  refine ⟨?_, ?_, responseCount_propFindXml_one _ _ _ _ _ _, ?_⟩
  · have h1 := h 1 ⟨S_IFDIR, 0, 0, 0⟩ 3 4 rfl rfl (by decide)
    rw [listingEnv_path] at h1
    simp only [proppatch, proppatchRequest, respond]
    rw [if_pos (by decide)]
    show (_ ++ (respondToPropFind listingEnv initialState (some "/srv/x/") PropertySet.all 1).1,
      (respondToPropFind listingEnv initialState (some "/srv/x/") PropertySet.all 1).2) = _
    rw [h1]
    rfl
  · rw [propfind_no_body 0 listingEnv initialState (propfindDepth "1") rfl rfl]
    have h2 := h 2 ⟨S_IFDIR, 0, 0, 0⟩ 3 4 rfl rfl (by decide)
    rw [listingEnv_path] at h2
    exact congrArg some h2
  · rw [responseCount_propFindXml_two listingEnv initialState "/srv/x/" "/srv/x/" PropertySet.all
        ⟨S_IFDIR, 0, 0, 0⟩ listingEntries rfl rfl,
      responseCount_readdirLoop _ _ _ _ _ listingEntries_padded, listingEntries_children]

/-! ## LOCK (C9, C10) -/

/-- C9. When the coordinator's reply has the kind COMPLETE_REQUEST_RELOCK, the second phase
of `lockFile` takes the `else` branch: it writes an error response whose message kind is
COMPLETE_REQUEST_RELOCK, not the lock response. -/
theorem relock_completion_is_answered_as_error (env : Env) (st : WorkerState) (file : Option String)
    (lockRequest : LockRequest) (interimMessage : Message)
    (hio : 0 < (env.sendRecvMessage interimMessage).1)
    (hkind : (env.sendRecvMessage interimMessage).2.mID = RAP_COMPLETE_REQUEST_RELOCK) :
    lockFileComplete env st file lockRequest interimMessage =
      some (Event.sendRecvMessage interimMessage
          :: (writeErrorResponse env RAP_COMPLETE_REQUEST_RELOCK
                (messageParamToString ((env.sendRecvMessage interimMessage).2.param RAP_PARAM_ERROR_REASON))
                none file).1,
        (writeErrorResponse env RAP_COMPLETE_REQUEST_RELOCK
                (messageParamToString ((env.sendRecvMessage interimMessage).2.param RAP_PARAM_ERROR_REASON))
                none file).2) := by
  simp [lockFileComplete, not_le.mpr hio, hkind]

theorem relock_completion_is_answered_as_error_witness :
    lockFile 0 relockEnv initialState refreshRequest =
      some ([Event.sendMessage ⟨RAP_RESPOND_CONTINUE, -1, 0, []⟩,
             Event.sendRecvMessage
               ⟨RAP_INTERIM_RESPOND_RELOCK, -1, 2,
                 [(RAP_PARAM_LOCK_LOCATION, Param.str "/srv/x/a.txt"),
                  (RAP_PARAM_LOCK_TOKEN, Param.str "opaquelocktoken:1")]⟩,
             Event.sendMessage
               ⟨RAP_COMPLETE_REQUEST_RELOCK, 3, 2, xmlResponseParams 0 (Param.str "/srv/x/a.txt")⟩,
             Event.writeXml 4 (errorResponseXml none none (some "/srv/x/a.txt"))], 1) ∧
    lockFileComplete relockEnv initialState (some "/srv/x/a.txt") ⟨false, LOCK_TYPE_ZERO⟩
        ⟨RAP_INTERIM_RESPOND_RELOCK, -1, 2,
          [(RAP_PARAM_LOCK_LOCATION, Param.str "/srv/x/a.txt"),
           (RAP_PARAM_LOCK_TOKEN, Param.str "opaquelocktoken:1")]⟩ =
      some ([Event.sendRecvMessage
               ⟨RAP_INTERIM_RESPOND_RELOCK, -1, 2,
                 [(RAP_PARAM_LOCK_LOCATION, Param.str "/srv/x/a.txt"),
                  (RAP_PARAM_LOCK_TOKEN, Param.str "opaquelocktoken:1")]⟩,
             Event.sendMessage
               ⟨RAP_COMPLETE_REQUEST_RELOCK, 3, 2, xmlResponseParams 0 (Param.str "/srv/x/a.txt")⟩,
             Event.writeXml 4 (errorResponseXml none none (some "/srv/x/a.txt"))], 1) := by
  refine ⟨by rfl, ?_⟩
  rw [relock_completion_is_answered_as_error relockEnv initialState (some "/srv/x/a.txt")
    ⟨false, LOCK_TYPE_ZERO⟩ _ (by decide) rfl]
  rfl

theorem magnitudeLoop_nonneg (n : Int) (h0 : 0 ≤ n) (h63 : n < 2 ^ 63) :
    (n < 1024 ∧ magnitudeLoop 8 0 n = (0, n)) ∨
    (1024 ≤ n ∧ n < 1024 ^ 2 ∧ magnitudeLoop 8 0 n = (1, n / 1024)) ∨
    (1024 ^ 2 ≤ n ∧ n < 1024 ^ 3 ∧ magnitudeLoop 8 0 n = (2, n / 1024 ^ 2)) ∨
    (1024 ^ 3 ≤ n ∧ n < 1024 ^ 4 ∧ magnitudeLoop 8 0 n = (3, n / 1024 ^ 3)) ∨
    (1024 ^ 4 ≤ n ∧ n < 1024 ^ 5 ∧ magnitudeLoop 8 0 n = (4, n / 1024 ^ 4)) ∨
    (1024 ^ 5 ≤ n ∧ n < 1024 ^ 6 ∧ magnitudeLoop 8 0 n = (5, n / 1024 ^ 5)) ∨
    (1024 ^ 6 ≤ n ∧ n < 1024 ^ 7 ∧ magnitudeLoop 8 0 n = (6, n / 1024 ^ 6)) := by
  have e1 : n / 1024 / 1024 = n / 1024 ^ 2 := by omega
  have e2 : n / 1024 ^ 2 / 1024 = n / 1024 ^ 3 := by omega
  have e3 : n / 1024 ^ 3 / 1024 = n / 1024 ^ 4 := by omega
  have e4 : n / 1024 ^ 4 / 1024 = n / 1024 ^ 5 := by omega
  have e5 : n / 1024 ^ 5 / 1024 = n / 1024 ^ 6 := by omega
  simp only [magnitudeLoop, e1, e2, e3, e4, e5]
  norm_num at h63 ⊢
  split_ifs <;> simp <;> omega

theorem formatFileSizeParts_divisor (n : Int) :
    (formatFileSizeParts n).divisor = 2 ^ ((formatFileSizeParts n).magnitude * 10) := by
  unfold formatFileSizeParts
  dsimp only
  split
  · rfl
  · rename_i h
    have h0 : (magnitudeLoop 8 0 n).1 = 0 := by omega
    simp [h0]

/-- C15 (amended). For a size `n` of a non-negative `off_t` and the power `k` of 1024 that
`formatFileSize` selects (`1024^k ≤ n < 1024^(k+1)` when `k > 0`, `n < 1024` when `k = 0`):
for `k > 0` the format has one decimal when `n` is in `[10·1024^k, 100·1024^k)`, none when
`n ≥ 100·1024^k` and two when `n < 10·1024^k`; for `k = 0` it has no decimal; the divisor is
`1024^k`, so for a fixed `k` the value `n / 1024^k` does not decrease when `n` grows. -/
theorem formatFileSize_decimals (n : Int) (h0 : 0 ≤ n) (h63 : n < 2 ^ 63) :
    (formatFileSizeParts n).divisor = 1024 ^ (formatFileSizeParts n).magnitude ∧
    ((formatFileSizeParts n).magnitude = 0 → n < 1024 ∧ (formatFileSizeParts n).decimals = 0) ∧
    (0 < (formatFileSizeParts n).magnitude →
      1024 ^ (formatFileSizeParts n).magnitude ≤ n ∧
      n < 1024 ^ ((formatFileSizeParts n).magnitude + 1) ∧
      (10 * 1024 ^ (formatFileSizeParts n).magnitude ≤ n ∧
          n < 100 * 1024 ^ (formatFileSizeParts n).magnitude →
        (formatFileSizeParts n).decimals = 1) ∧
      (100 * 1024 ^ (formatFileSizeParts n).magnitude ≤ n → (formatFileSizeParts n).decimals = 0) ∧
      (n < 10 * 1024 ^ (formatFileSizeParts n).magnitude → (formatFileSizeParts n).decimals = 2)) ∧
    (∀ n2 : Int, n ≤ n2 →
      (formatFileSizeParts n2).magnitude = (formatFileSizeParts n).magnitude →
      (n : ℚ) / ((formatFileSizeParts n).divisor : ℚ) ≤ (n2 : ℚ) / ((formatFileSizeParts n2).divisor : ℚ)) := by
  refine ⟨?_, ?_, ?_, ?_⟩
  · rw [formatFileSizeParts_divisor, pow_mul']
    norm_num
  · intro hm
    rcases magnitudeLoop_nonneg n h0 h63 with h | h | h | h | h | h | h <;>
      simp [formatFileSizeParts, h] at hm ⊢
  · intro hm
    rcases magnitudeLoop_nonneg n h0 h63 with h | h | h | h | h | h | h <;>
      simp [formatFileSizeParts, h] at hm ⊢ <;>
      (obtain ⟨h1, h2, _⟩ := h; norm_num at h1 h2 ⊢
       repeat' apply And.intro
       all_goals (try intros)
       all_goals (try split_ifs)
       all_goals omega)
  · intro n2 hle hmag
    rw [formatFileSizeParts_divisor n, formatFileSizeParts_divisor n2, hmag]
    apply div_le_div_of_nonneg_right
    · exact_mod_cast hle
    · positivity

theorem formatFileSize_decimals_witness :
    (formatFileSizeParts 15360).magnitude = 1 ∧ (formatFileSizeParts 15360).decimals = 1 ∧
    (formatFileSizeParts 15360).divisor = 1024 := by
  have h := formatFileSize_decimals 15360 (by decide) (by decide)
  have hm : (formatFileSizeParts 15360).magnitude = 1 := by decide
  refine ⟨hm, ?_, ?_⟩
  · exact (h.2.2.1 (by rw [hm]; decide)).2.2.1 (by rw [hm]; decide)
  · rw [h.1, hm]; rfl

/-- C15, as stated, fails for the suffix `B`: the size 5 is below `10·1024^0`, where the
claim asks for two decimals, and the size 50 is in `[10·1024^0, 100·1024^0)`, where it asks
for one; `formatFileSize` uses the format without decimals for both. -/
theorem formatFileSize_bytes_counterexample :
    (formatFileSizeParts 5).magnitude = 0 ∧ (5 : Int) < 10 * 1024 ^ 0 ∧
    (formatFileSizeParts 5).decimals = 0 ∧
    (formatFileSizeParts 50).magnitude = 0 ∧ (10 : Int) * 1024 ^ 0 ≤ 50 ∧ (50 : Int) < 100 * 1024 ^ 0 ∧
    (formatFileSizeParts 50).decimals = 0 := by
  decide

/-- C16. For a size of at least `1024^5` the entry of the array `suffix` that
`formatFileSize` prints is `PiBEiB` below `1024^6` and `ZiB` from `1024^6` on: the entries
after `TiB` are not `PiB` and `EiB`. -/
theorem formatFileSize_suffix_above_tebibytes (n : Int) (h5 : 1024 ^ 5 ≤ n) (h63 : n < 2 ^ 63) :
    (n < 1024 ^ 6 →
      (formatFileSizeParts n).magnitude = 5 ∧ (formatFileSizeParts n).suffixString = some "PiBEiB") ∧
    (1024 ^ 6 ≤ n →
      (formatFileSizeParts n).magnitude = 6 ∧ (formatFileSizeParts n).suffixString = some "ZiB") := by
  have h0 : 0 ≤ n := le_trans (by norm_num) h5
  constructor
  · intro h6
    rcases magnitudeLoop_nonneg n h0 h63 with h | h | h | h | h | h | h <;>
      first
      | (simp [formatFileSizeParts, h, suffix]; done)
      | (exfalso; obtain ⟨h1, h2⟩ := h; norm_num at h1 h2 h5 h6; omega)
  · intro h6
    rcases magnitudeLoop_nonneg n h0 h63 with h | h | h | h | h | h | h <;>
      first
      | (simp [formatFileSizeParts, h, suffix]; done)
      | (exfalso; obtain ⟨h1, h2⟩ := h; norm_num at h1 h2 h5 h6; omega)

theorem formatFileSize_suffix_above_tebibytes_witness :
    (formatFileSizeParts (1024 ^ 5)).suffixString = some "PiBEiB" ∧
    (formatFileSizeParts (1024 ^ 6)).suffixString = some "ZiB" :=
  ⟨((formatFileSize_suffix_above_tebibytes (1024 ^ 5) (by decide) (by decide)).1 (by decide)).2,
   ((formatFileSize_suffix_above_tebibytes (1024 ^ 6) (by decide) (by decide)).2 (by decide)).2⟩

/-! ## Declared parameter counts and the child filter (C17, C20) -/

/-- C17. When the pipe is made, the message sent by `writeErrorResponse`, by
`writeLockResponse` and by `respondToPropFind` declares `paramCount` 2 although three
parameters are filled in, RESPONSE_LOCATION among them; only the directory listing of
`readFile` declares 3. -/
theorem xml_responses_declare_two_parameters (env : Env) (st : WorkerState) (pipeRead pipeWrite : Int)
    (hpipe : env.pipe = some (pipeRead, pipeWrite)) :
    (∀ (responseCode : RapConstant) (textError error file : Option String),
      ∃ (message : Message) (rest : List Event),
        (writeErrorResponse env responseCode textError error file).1 = Event.sendMessage message :: rest ∧
        message.fd = pipeRead ∧ message.paramCount = 2 ∧ message.params.length = 3 ∧
        message.param RAP_PARAM_RESPONSE_LOCATION = stringToMessageParam file) ∧
    (∀ (fileName : Option String) (request : LockRequest) (lockToken : Option String) (timeout : Int),
      ∃ (message : Message) (rest : List Event),
        (writeLockResponse env st fileName request lockToken timeout).1 = Event.sendMessage message :: rest ∧
        message.fd = pipeRead ∧ message.paramCount = 2 ∧ message.params.length = 3 ∧
        message.param RAP_PARAM_RESPONSE_LOCATION = stringToMessageParam fileName) ∧
    (∀ (f : String) (properties : PropertySet) (depth : Int) (fileStat : Stat),
      env.stat f = Except.ok fileStat →
      ∃ (message : Message) (rest : List Event),
        (respondToPropFind env st (some f) properties depth).1 = Event.sendMessage message :: rest ∧
        message.fd = pipeRead ∧ message.paramCount = 2 ∧ message.params.length = 3 ∧
        message.param RAP_PARAM_RESPONSE_LOCATION =
          Param.str (normalizeDirName (env.byteBefore f) f (fileStat.st_mode = S_IFDIR))) ∧
    (∀ (m : Message) (f : String) (fd : Int),
      m.param RAP_PARAM_REQUEST_FILE = Param.str f →
      env.openFile f [O_RDONLY] = Except.ok fd → (env.fstat fd).st_mode = S_IFDIR →
      ∃ (message : Message) (rest : List Event),
        (readFile env st m).1 = closeRequestFd m ++ Event.open (some f) [O_RDONLY]
          :: Event.sendMessage message :: rest ∧
        message.fd = pipeRead ∧ message.paramCount = 3 ∧ message.params.length = 3) := by
  refine ⟨?_, ?_, ?_, ?_⟩
  · intro responseCode textError error file
    simp only [writeErrorResponse, hpipe]
    split <;> exact ⟨_, _, rfl, rfl, rfl, rfl, rfl⟩
  · intro fileName request lockToken timeout
    simp only [writeLockResponse, hpipe]
    split <;> exact ⟨_, _, rfl, rfl, rfl, rfl, rfl⟩
  · intro f properties depth fileStat hstat
    simp only [respondToPropFind, hstat, hpipe]
    split <;> exact ⟨_, _, rfl, rfl, rfl, rfl, rfl⟩
  · intro m f fd hfile hopen hdir
    simp only [readFile, hfile, messageParamToString, hopen, hdir, if_true, hpipe]
    split <;> exact ⟨_, _, rfl, rfl, rfl, rfl⟩

theorem xml_responses_declare_two_parameters_witness :
    (respondToPropFind listingEnv initialState (some "/srv/x/") PropertySet.all 1).1 =
      [Event.sendMessage
          ⟨RAP_RESPOND_MULTISTATUS, 3, 2,
            [(RAP_PARAM_RESPONSE_DATE, Param.time 0),
             (RAP_PARAM_RESPONSE_MIME, Param.str "application/xml; charset=utf-8"),
             (RAP_PARAM_RESPONSE_LOCATION, Param.str "/srv/x/")]⟩,
        Event.writeXml 4
          (propFindXml listingEnv initialState "/srv/x/" "/srv/x/" PropertySet.all ⟨S_IFDIR, 0, 0, 0⟩ 1)] ∧
    ∃ (message : Message) (rest : List Event),
      (writeErrorResponse listingEnv RAP_RESPOND_CONFLICT (some "error") none (some "/srv/x/")).1
        = Event.sendMessage message :: rest ∧
      message.fd = 3 ∧ message.paramCount = 2 ∧ message.params.length = 3 ∧
      message.param RAP_PARAM_RESPONSE_LOCATION = Param.str "/srv/x/" := by
  have h := xml_responses_declare_two_parameters listingEnv initialState 3 4 rfl
  refine ⟨?_, h.1 RAP_RESPOND_CONFLICT (some "error") none (some "/srv/x/")⟩
  have h1 := respondToPropFind_ok listingEnv initialState "/srv/x/" PropertySet.all 1 ⟨S_IFDIR, 0, 0, 0⟩ 3 4
    rfl rfl (by decide)
  rw [listingEnv_path] at h1
  rw [h1]
  rfl

/-- C20. An entry whose name is not `.` is left out by the test of `respondToPropFind`
exactly when its name is `..`; an entry whose name is `.` is left out only when the byte
`d_name[2]`, which lies behind the terminating NUL of the name, is NUL, and is listed
otherwise. -/
theorem child_filter_reads_behind_dot (dp : Dirent) :
    (dp.name ≠ "." → (childFilter dp = false ↔ dp.name = "..")) ∧
    (dp.name = "." → (childFilter dp = true ↔ dp.byte 2 ≠ NUL)) := by
  have h := childFilter_iff dp
  constructor
  · intro hne
    rw [h]
    constructor
    · rintro (⟨h1, _⟩ | h1)
      · exact absurd h1 hne
      · exact h1
    · intro h1; exact Or.inr h1
  · intro hdot
    have hne : dp.name ≠ ".." := by rw [hdot]; decide
    rw [← Bool.not_eq_false, h]
    constructor
    · intro hn h2; exact hn (Or.inl ⟨hdot, h2⟩)
    · rintro hn (⟨_, h2⟩ | h1)
      · exact hn h2
      · exact hne h1

theorem child_filter_reads_behind_dot_witness :
    dotWithLeftover.name = "." ∧ childFilter dotWithLeftover = true ∧
    (⟨['.', NUL], DT_DIR⟩ : Dirent).name = "." ∧ childFilter ⟨['.', NUL], DT_DIR⟩ = false := by
  have h1 : dotWithLeftover.name = "." := by decide
  have h2 : (⟨['.', NUL], DT_DIR⟩ : Dirent).name = "." := by decide
  refine ⟨h1, ((child_filter_reads_behind_dot dotWithLeftover).2 h1).2 (by decide), h2, ?_⟩
  rw [← Bool.not_eq_true, ((child_filter_reads_behind_dot ⟨['.', NUL], DT_DIR⟩).2 h2)]
  decide

/-! ## DELETE (C18) -/

theorem deleteError_eq (env : Env) (e : Errno) :
    deleteError env e = respond env (specDeleteFailure (env.errnoAfterLog e)) := by
  unfold deleteError
  cases env.errnoAfterLog e <;> rfl

/-- C18. The function `deleteFile` closes the descriptor of the request if there is one, stats
the target, calls `rmdir` and not `unlink` on a directory, `unlink` and not `rmdir` on
anything else, and neither when `stat` fails; success is answered by OK_NO_CONTENT and
every answer is one message without descriptor and without parameters.  A failure with
`errno` `e` is answered by the kind that the specification gives, not for `e`, but for the
value that `errno` holds once `stdLogError` has run: `switch (errno)` comes after the call
of `stdLogError` and `errno` is not saved before it.  So when the target does not exist
and the calls made by `stdLogError` leave in `errno` a value that the `switch` does not
name, the answer is INTERNAL_ERROR and not NOT_FOUND. -/
theorem delete_answers_by_errno_after_log (env : Env) (m : Message) :
    (∀ e : Errno, sysStat env (messageParamToString (m.param RAP_PARAM_REQUEST_FILE)) = Except.error e →
      deleteFile env m =
        (closeRequestFd m ++ [Event.sendMessage ⟨specDeleteFailure (env.errnoAfterLog e), -1, 0, []⟩],
          env.sendMessage ⟨specDeleteFailure (env.errnoAfterLog e), -1, 0, []⟩)) ∧
    (∀ fileStat : Stat,
      sysStat env (messageParamToString (m.param RAP_PARAM_REQUEST_FILE)) = Except.ok fileStat →
      (fileStat.st_mode = S_IFDIR →
        (∀ e : Errno, sysRmdir env (messageParamToString (m.param RAP_PARAM_REQUEST_FILE)) = Except.error e →
          deleteFile env m =
            (closeRequestFd m
              ++ [Event.rmdir (messageParamToString (m.param RAP_PARAM_REQUEST_FILE)),
                  Event.sendMessage ⟨specDeleteFailure (env.errnoAfterLog e), -1, 0, []⟩],
              env.sendMessage ⟨specDeleteFailure (env.errnoAfterLog e), -1, 0, []⟩)) ∧
        (sysRmdir env (messageParamToString (m.param RAP_PARAM_REQUEST_FILE)) = Except.ok () →
          deleteFile env m =
            (closeRequestFd m
              ++ [Event.rmdir (messageParamToString (m.param RAP_PARAM_REQUEST_FILE)),
                  Event.sendMessage ⟨RAP_RESPOND_OK_NO_CONTENT, -1, 0, []⟩],
              env.sendMessage ⟨RAP_RESPOND_OK_NO_CONTENT, -1, 0, []⟩))) ∧
      (fileStat.st_mode ≠ S_IFDIR →
        (∀ e : Errno, sysUnlink env (messageParamToString (m.param RAP_PARAM_REQUEST_FILE)) = Except.error e →
          deleteFile env m =
            (closeRequestFd m
              ++ [Event.unlink (messageParamToString (m.param RAP_PARAM_REQUEST_FILE)),
                  Event.sendMessage ⟨specDeleteFailure (env.errnoAfterLog e), -1, 0, []⟩],
              env.sendMessage ⟨specDeleteFailure (env.errnoAfterLog e), -1, 0, []⟩)) ∧
        (sysUnlink env (messageParamToString (m.param RAP_PARAM_REQUEST_FILE)) = Except.ok () →
          deleteFile env m =
            (closeRequestFd m
              ++ [Event.unlink (messageParamToString (m.param RAP_PARAM_REQUEST_FILE)),
                  Event.sendMessage ⟨RAP_RESPOND_OK_NO_CONTENT, -1, 0, []⟩],
              env.sendMessage ⟨RAP_RESPOND_OK_NO_CONTENT, -1, 0, []⟩)))) ∧
    (∀ message : Message, Event.sendMessage message ∈ (deleteFile env m).1 →
      message.fd = -1 ∧ message.paramCount = 0 ∧ message.params = []) ∧
    (sysStat env (messageParamToString (m.param RAP_PARAM_REQUEST_FILE)) = Except.error ENOENT →
      specDeleteFailure ENOENT = RAP_RESPOND_NOT_FOUND ∧
      (specDeleteFailure (env.errnoAfterLog ENOENT) = RAP_RESPOND_INTERNAL_ERROR →
        deleteFile env m =
          (closeRequestFd m ++ [Event.sendMessage ⟨RAP_RESPOND_INTERNAL_ERROR, -1, 0, []⟩],
            env.sendMessage ⟨RAP_RESPOND_INTERNAL_ERROR, -1, 0, []⟩) ∧
        Event.sendMessage ⟨RAP_RESPOND_NOT_FOUND, -1, 0, []⟩ ∉ (deleteFile env m).1)) := by
  have hstat : ∀ e : Errno,
      sysStat env (messageParamToString (m.param RAP_PARAM_REQUEST_FILE)) = Except.error e →
      deleteFile env m =
        (closeRequestFd m ++ [Event.sendMessage ⟨specDeleteFailure (env.errnoAfterLog e), -1, 0, []⟩],
          env.sendMessage ⟨specDeleteFailure (env.errnoAfterLog e), -1, 0, []⟩) := by
    intro e he
    simp [deleteFile, he, deleteError_eq, respond]
  refine ⟨hstat, ?_, ?_, ?_⟩
  · intro fileStat hs
    refine ⟨fun hdir => ⟨?_, ?_⟩, fun hdir => ⟨?_, ?_⟩⟩
    · intro e he
      simp [deleteFile, hs, hdir, he, deleteError_eq, respond]
    · intro he
      simp [deleteFile, hs, hdir, he, respond]
    · intro e he
      simp [deleteFile, hs, hdir, he, deleteError_eq, respond]
    · intro he
      simp [deleteFile, hs, hdir, he, respond]
  · intro message hmem
    have hclose : Event.sendMessage message ∉ closeRequestFd m := by
      unfold closeRequestFd; split <;> simp
    simp only [deleteFile, List.mem_append] at hmem
    rcases hmem with hmem | hmem
    · exact absurd hmem hclose
    · split at hmem
      · rw [deleteError_eq] at hmem
        simp [respond] at hmem
        subst hmem
        exact ⟨rfl, rfl, rfl⟩
      · split at hmem
        · split at hmem
          · rw [deleteError_eq] at hmem
            simp [respond] at hmem
            subst hmem
            exact ⟨rfl, rfl, rfl⟩
          · simp [respond] at hmem
            subst hmem
            exact ⟨rfl, rfl, rfl⟩
        · split at hmem
          · rw [deleteError_eq] at hmem
            simp [respond] at hmem
            subst hmem
            exact ⟨rfl, rfl, rfl⟩
          · simp [respond] at hmem
            subst hmem
            exact ⟨rfl, rfl, rfl⟩
  · intro he
    refine ⟨rfl, fun hk => ?_⟩
    have h := hstat ENOENT he
    rw [hk] at h
    refine ⟨h, ?_⟩
    rw [h]
    have hclose : Event.sendMessage ⟨RAP_RESPOND_NOT_FOUND, -1, 0, []⟩ ∉ closeRequestFd m := by
      unfold closeRequestFd; split <;> simp
    intro hmem
    rcases List.mem_append.mp hmem with h1 | h1
    · exact hclose h1
    · simp at h1

theorem delete_answers_by_errno_after_log_witness :
    sysStat logClobbersErrnoEnv (some "/srv/none") = Except.error ENOENT ∧
    logClobbersErrnoEnv.errnoAfterLog ENOENT = EBADF ∧
    deleteFile logClobbersErrnoEnv (requestFor RAP_REQUEST_DELETE "/srv/none") =
      ([Event.sendMessage ⟨RAP_RESPOND_INTERNAL_ERROR, -1, 0, []⟩], 1) ∧
    deleteFile emptyDirEnv (requestFor RAP_REQUEST_DELETE "/srv/none") =
      ([Event.sendMessage ⟨RAP_RESPOND_NOT_FOUND, -1, 0, []⟩], 1) ∧
    deleteFile emptyDirEnv (requestFor RAP_REQUEST_DELETE "/srv/empty/") =
      ([Event.rmdir (some "/srv/empty/"), Event.sendMessage ⟨RAP_RESPOND_OK_NO_CONTENT, -1, 0, []⟩], 1) :=
  ⟨rfl, rfl,
   (((delete_answers_by_errno_after_log logClobbersErrnoEnv
      (requestFor RAP_REQUEST_DELETE "/srv/none")).2.2.2 rfl).2 rfl).1,
   (delete_answers_by_errno_after_log emptyDirEnv (requestFor RAP_REQUEST_DELETE "/srv/none")).1 ENOENT rfl,
   (((delete_answers_by_errno_after_log emptyDirEnv
      (requestFor RAP_REQUEST_DELETE "/srv/empty/")).2.1 ⟨S_IFDIR, 0, 0, 0⟩ rfl).1 rfl).2 rfl⟩

/-! ## Exit of the two loops (C19) -/

theorem preAuthResults_spec (st : WorkerState) (steps : List Step) :
    ((preAuthLoop st steps).2.2 = none ∧ ∀ x ∈ preAuthResults st steps, 0 < x) ∨
    ∃ (ioResult : Int) (rest : List Step) (before : List Int),
      (preAuthLoop st steps).2.2 = some (ioResult, rest) ∧
      preAuthResults st steps = before ++ [ioResult] ∧ ∀ x ∈ before, 0 < x := by
  induction steps generalizing st with
  | nil => left; simp [preAuthLoop, preAuthResults]
  | cons s rest ih =>
    rw [preAuthLoop_cons]
    simp only [preAuthResults]
    by_cases hr : s.recvResult ≤ 0
    · right
      simp only [if_pos hr]
      exact ⟨s.recvResult, rest, [], rfl, rfl, by simp⟩
    · simp only [if_neg hr]
      have hr1 : 0 < s.recvResult := not_le.mp hr
      by_cases hc : (preAuthStep st s).1.2 > 0 ∧ (preAuthStep st s).2.authenticated = false
      · simp only [if_pos hc]
        rcases ih (preAuthStep st s).2 with ⟨h1, h2⟩ | ⟨io, rest1, before, h1, h2, h3⟩
        · left
          refine ⟨h1, ?_⟩
          intro x hx
          simp only [List.mem_cons] at hx
          rcases hx with hx | hx | hx
          · rw [hx]; exact hr1
          · rw [hx]; exact hc.1
          · exact h2 x hx
        · right
          refine ⟨io, rest1, s.recvResult :: (preAuthStep st s).1.2 :: before, h1, ?_, ?_⟩
          · rw [h2]; rfl
          · intro x hx
            simp only [List.mem_cons] at hx
            rcases hx with hx | hx | hx
            · rw [hx]; exact hr1
            · rw [hx]; exact hc.1
            · exact h3 x hx
      · right
        simp only [if_neg hc]
        refine ⟨(preAuthStep st s).1.2, rest, [s.recvResult], rfl, rfl, ?_⟩
        intro x hx
        simp only [List.mem_singleton] at hx
        rw [hx]; exact hr1

theorem verbResults_spec (fuel : Nat) (st : WorkerState) (ioResult : Int) (steps : List Step)
    (hio : 0 < ioResult) :
    ((∀ x ∈ verbResults fuel st ioResult steps, 0 < x) ∧
      ((verbLoop fuel st ioResult steps).2 = Outcome.waiting
        ∨ (verbLoop fuel st ioResult steps).2 = Outcome.stuck)) ∨
    ∃ (before : List Int) (r : Int),
      verbResults fuel st ioResult steps = before ++ [r] ∧ (∀ x ∈ before, 0 < x) ∧ r ≤ 0 ∧
      (verbLoop fuel st ioResult steps).2 = Outcome.exit (if r < 0 then 1 else 0) := by
  induction steps generalizing ioResult with
  | nil => left; simp [verbResults, verbLoop, hio]
  | cons s rest ih =>
    simp only [verbResults, verbLoop, if_pos hio]
    by_cases hr : s.recvResult ≤ 0
    · right
      simp only [if_pos hr]
      refine ⟨[], s.recvResult, rfl, by simp, hr, ?_⟩
      by_cases h0 : s.recvResult = 0
      · simp [h0]
      · have : s.recvResult < 0 := by omega
        simp [h0, this]
    · simp only [if_neg hr]
      have hr1 : 0 < s.recvResult := not_le.mp hr
      cases hd : dispatch fuel s.env st s.message with
      | none =>
        left
        exact ⟨by simpa using hr1, Or.inr rfl⟩
      | some w =>
        simp only
        by_cases hw : 0 < w.2
        · rcases ih w.2 hw with ⟨h1, h2⟩ | ⟨before, r, h1, h2, h3, h4⟩
          · left
            refine ⟨?_, h2⟩
            intro x hx
            simp only [List.mem_cons] at hx
            rcases hx with hx | hx | hx
            · rw [hx]; exact hr1
            · rw [hx]; exact hw
            · exact h1 x hx
          · right
            refine ⟨s.recvResult :: w.2 :: before, r, ?_, ?_, h3, h4⟩
            · rw [h1]; rfl
            · intro x hx
              simp only [List.mem_cons] at hx
              rcases hx with hx | hx | hx
              · rw [hx]; exact hr1
              · rw [hx]; exact hw
              · exact h2 x hx
        · right
          have hw0 : w.2 ≤ 0 := not_lt.mp hw
          have hv : verbResults fuel st w.2 rest = [] := by
            cases rest with
            | nil => rfl
            | cons t tl => simp [verbResults, hw]
          have ho : (verbLoop fuel st w.2 rest).2 = Outcome.exit (if w.2 < 0 then 1 else 0) := by
            cases rest with
            | nil => simp [verbLoop, hw]
            | cons t tl => simp [verbLoop, hw]
          refine ⟨[s.recvResult], w.2, ?_, ?_, hw0, ho⟩
          · rw [hv]; rfl
          · intro x hx
            simp only [List.mem_singleton] at hx
            rw [hx]; exact hr1

/-- C19. In a run of `main` the values assigned to `ioResult` (the results of
`recvMessage` and of the handlers, in both loops) are either all positive, and then the
worker has not exited (it waits for a message or is inside a handler), or they end with the
first value that is not positive, and then the worker has exited with code 1 when that value
is negative and 0 when it is zero. -/
theorem main_stops_at_first_nonpositive_result (fuel : Nat) (mimeTypes : List MimeType)
    (steps : List Step) :
    ((∀ x ∈ mainResults fuel mimeTypes steps, 0 < x) ∧
      ((main fuel mimeTypes steps).outcome = Outcome.waiting
        ∨ (main fuel mimeTypes steps).outcome = Outcome.stuck)) ∨
    ∃ (before : List Int) (r : Int),
      mainResults fuel mimeTypes steps = before ++ [r] ∧ (∀ x ∈ before, 0 < x) ∧ r ≤ 0 ∧
      (main fuel mimeTypes steps).outcome = Outcome.exit (if r < 0 then 1 else 0) := by
  rcases preAuthResults_spec ⟨false, none, mimeTypes⟩ steps with ⟨h1, h2⟩ | ⟨io, rest, before, h1, h2, h3⟩
  · left
    simp only [mainResults, main, h1, List.append_nil]
    exact ⟨h2, by simp⟩
  · simp only [mainResults, main, h1, h2]
    by_cases hio : 0 < io
    · rcases verbResults_spec fuel (preAuthLoop ⟨false, none, mimeTypes⟩ steps).2.1 io rest hio with
        ⟨v1, v2⟩ | ⟨vbefore, r, v1, v2, v3, v4⟩
      · left
        refine ⟨?_, v2⟩
        intro x hx
        simp only [List.mem_append, List.mem_singleton] at hx
        rcases hx with (hx | hx) | hx
        · exact h3 x hx
        · rw [hx]; exact hio
        · exact v1 x hx
      · right
        refine ⟨before ++ [io] ++ vbefore, r, ?_, ?_, v3, v4⟩
        · rw [v1]; simp
        · intro x hx
          simp only [List.mem_append, List.mem_singleton] at hx
          rcases hx with (hx | hx) | hx
          · exact h3 x hx
          · rw [hx]; exact hio
          · exact v2 x hx
    · right
      have hio0 : io ≤ 0 := not_lt.mp hio
      have hv : verbResults fuel (preAuthLoop ⟨false, none, mimeTypes⟩ steps).2.1 io rest = [] := by
        cases rest with
        | nil => rfl
        | cons t tl => simp [verbResults, hio]
      have ho : (verbLoop fuel (preAuthLoop ⟨false, none, mimeTypes⟩ steps).2.1 io rest).2
          = Outcome.exit (if io < 0 then 1 else 0) := by
        cases rest with
        | nil => simp [verbLoop, hio]
        | cons t tl => simp [verbLoop, hio]
      exact ⟨before, io, by rw [hv]; simp, h3, hio0, ho⟩

theorem main_stops_at_first_nonpositive_result_witness :
    mainResults 0 [] sessionSteps = [1, 1, 1, 1, 0] ∧
    (main 0 [] sessionSteps).outcome = Outcome.exit 0 := by
  have hres : mainResults 0 [] sessionSteps = [1, 1, 1, 1, 0] := by rfl
  refine ⟨hres, ?_⟩
  rcases main_stops_at_first_nonpositive_result 0 [] sessionSteps with ⟨h1, _⟩ | ⟨before, r, h1, _, _, h4⟩
  · rw [hres] at h1
    exact absurd (h1 0 (by simp)) (by decide)
  · rw [hres] at h1
    have hr : r = 0 := by
      have := congrArg List.getLast? h1
      simp at this
      exact this.symm
    rw [h4, hr]
    rfl



/-! ## The extension table (C12, C13, C14) -/

theorem char_toNat_sub_ne_zero (a b : Char) (h : a ≠ b) : (a.toNat : Int) - (b.toNat : Int) ≠ 0 := by
  intro h0
  apply h
  have h1 : a.toNat = b.toNat := by omega
  apply Char.ext
  apply UInt32.ext
  exact h1

theorem strcmp_self (a : List Char) : strcmp a a = 0 := by
  induction a with
  | nil => rfl
  | cons x xs ih => simp [strcmp, ih]

theorem strcmp_eq_zero : ∀ (a b : List Char), strcmp a b = 0 → a = b
  | [], [], _ => rfl
  | [], _ :: _, h => by simp [strcmp] at h
  | _ :: _, [], h => by simp [strcmp] at h
  | x :: xs, y :: ys, h => by
    unfold strcmp at h
    by_cases hxy : x = y
    · rw [if_pos hxy] at h
      rw [hxy, strcmp_eq_zero xs ys h]
    · rw [if_neg hxy] at h
      exact absurd h (char_toNat_sub_ne_zero x y hxy)

theorem strcmp_swap : ∀ (a b : List Char), strcmp a b = - strcmp b a
  | [], [] => rfl
  | [], _ :: _ => rfl
  | _ :: _, [] => rfl
  | x :: xs, y :: ys => by
    unfold strcmp
    by_cases hxy : x = y
    · rw [if_pos hxy, if_pos hxy.symm]
      exact strcmp_swap xs ys
    · rw [if_neg hxy, if_neg (fun h => hxy h.symm)]
      omega

theorem strcmp_trans : ∀ (a b c : List Char), strcmp a b ≤ 0 → strcmp b c ≤ 0 → strcmp a c ≤ 0
  | [], _, [], _, _ => by simp [strcmp]
  | [], _, _ :: _, _, _ => by simp [strcmp]
  | _ :: _, [], _, h, _ => by simp [strcmp] at h
  | _ :: _, _ :: _, [], _, h => by simp [strcmp] at h
  | x :: xs, y :: ys, z :: zs, h1, h2 => by
    unfold strcmp at h1 h2 ⊢
    by_cases hxy : x = y
    · subst hxy
      rw [if_pos rfl] at h1
      by_cases hxz : x = z
      · subst hxz
        rw [if_pos rfl] at h2 ⊢
        exact strcmp_trans xs ys zs h1 h2
      · rw [if_neg hxz] at h2 ⊢
        exact h2
    · rw [if_neg hxy] at h1
      have hxy0 := char_toNat_sub_ne_zero x y hxy
      by_cases hyz : y = z
      · subst hyz
        rw [if_neg hxy]
        exact h1
      · rw [if_neg hyz] at h2
        have hyz0 := char_toNat_sub_ne_zero y z hyz
        by_cases hxz : x = z
        · subst hxz
          omega
        · rw [if_neg hxz]
          omega

theorem bsearch_some (key : MimeType) (table : List MimeType) :
    ∀ (fuel l u : Nat) (p : MimeType), bsearch key table fuel l u = some p →
      p ∈ table ∧ compareExt key p = 0 := by
  intro fuel
  induction fuel with
  | zero => intro l u p h; simp [bsearch] at h
  | succ n ih =>
    intro l u p h
    unfold bsearch at h
    by_cases hlu : l < u
    · rw [if_pos hlu] at h
      dsimp only at h
      cases hg : table.get? ((l + u) / 2) with
      | none => rw [hg] at h; simp at h
      | some q =>
        rw [hg] at h
        dsimp only at h
        by_cases h1 : compareExt key q < 0
        · rw [if_pos h1] at h
          exact ih _ _ _ h
        · rw [if_neg h1] at h
          by_cases h2 : compareExt key q > 0
          · rw [if_pos h2] at h
            exact ih _ _ _ h
          · rw [if_neg h2] at h
            have hp : q = p := by simpa using h
            subst hp
            exact ⟨List.get?_mem hg, by omega⟩
    · rw [if_neg hlu] at h
      simp at h

theorem bsearch_none (key : MimeType) (table : List MimeType)
    (hsorted : List.Pairwise (fun a b => compareExt a b ≤ 0) table) :
    ∀ (fuel l u : Nat), u ≤ table.length → u - l < fuel → bsearch key table fuel l u = none →
      ∀ (j : Nat) (e : MimeType), l ≤ j → j < u → table.get? j = some e → compareExt key e ≠ 0 := by
  intro fuel
  induction fuel with
  | zero => intro l u _ hf; omega
  | succ n ih =>
    intro l u hu hf h j e hlj hju hje
    unfold bsearch at h
    have hlu : l < u := by omega
    rw [if_pos hlu] at h
    dsimp only at h
    have hidx : (l + u) / 2 < table.length := by omega
    have hg : table.get? ((l + u) / 2) = some (table.get ⟨(l + u) / 2, hidx⟩) := List.get?_eq_get hidx
    rw [hg] at h
    dsimp only at h
    have hjlen : j < table.length := by omega
    have hej : e = table.get ⟨j, hjlen⟩ := by
      rw [List.get?_eq_get hjlen] at hje
      exact (Option.some.inj hje).symm
    intro h0
    have hkey : key.fileExtension.data = e.fileExtension.data := strcmp_eq_zero _ _ h0
    by_cases h1 : compareExt key (table.get ⟨(l + u) / 2, hidx⟩) < 0
    · rw [if_pos h1] at h
      by_cases hj : j < (l + u) / 2
      · exact ih l ((l + u) / 2) (by omega) (by omega) h j e hlj hj hje h0
      · by_cases hj2 : j = (l + u) / 2
        · subst hj2
          rw [← hej] at h1
          omega
        · have hlt : (l + u) / 2 < j := by omega
          have hr := List.pairwise_iff_get.mp hsorted ⟨(l + u) / 2, hidx⟩ ⟨j, hjlen⟩ hlt
          rw [← hej] at hr
          unfold compareExt at hr h1
          rw [← hkey] at hr
          rw [strcmp_swap] at hr
          omega
    · rw [if_neg h1] at h
      by_cases h2 : compareExt key (table.get ⟨(l + u) / 2, hidx⟩) > 0
      · rw [if_pos h2] at h
        by_cases hj : (l + u) / 2 < j
        · exact ih ((l + u) / 2 + 1) u hu (by omega) h j e (by omega) hju hje h0
        · by_cases hj2 : j = (l + u) / 2
          · subst hj2
            rw [← hej] at h2
            omega
          · have hlt : j < (l + u) / 2 := by omega
            have hr := List.pairwise_iff_get.mp hsorted ⟨j, hjlen⟩ ⟨(l + u) / 2, hidx⟩ hlt
            rw [← hej] at hr
            unfold compareExt at hr h2
            rw [← hkey] at hr
            omega
      · rw [if_neg h2] at h
        simp at h

theorem scanExtension_eq (l : List Char) : ∀ (acc : List Char),
    scanExtension l acc =
      if '.' ∈ l ∧ '/' ∉ l.takeWhile (fun c => c != '.') then
        some ((l.takeWhile (fun c => c != '.')).reverse ++ acc)
      else none := by
  induction l with
  | nil => intro acc; simp [scanExtension]
  | cons c l ih =>
    intro acc
    unfold scanExtension
    by_cases h1 : c = '/'
    · subst h1
      simp
    · rw [if_neg h1]
      by_cases h2 : c = '.'
      · subst h2
        simp
      · rw [if_neg h2, ih]
        have h3 : ¬ '.' = c := fun h => h2 h.symm
        have h4 : ¬ '/' = c := fun h => h1 h.symm
        simp [h2, h3, h4]

theorem qsortMimeTypes_sorted (table : List MimeType) :
    List.Pairwise (fun a b => compareExt a b ≤ 0) (qsortMimeTypes table) := by
  haveI : IsTotal MimeType (fun a b => compareExt a b ≤ 0) :=
    ⟨fun a b => by
      unfold compareExt
      rw [strcmp_swap b.fileExtension.data a.fileExtension.data]
      omega⟩
  haveI : IsTrans MimeType (fun a b => compareExt a b ≤ 0) :=
    ⟨fun a b c h1 h2 => strcmp_trans _ _ _ h1 h2⟩
  exact List.sorted_insertionSort (fun a b => compareExt a b ≤ 0) table

theorem mem_qsortMimeTypes (table : List MimeType) (e : MimeType) :
    e ∈ qsortMimeTypes table ↔ e ∈ table :=
  (List.perm_insertionSort (fun a b => compareExt a b ≤ 0) table).mem_iff

theorem initializeMimeTypes_sorted (mimeFile : String) :
    List.Pairwise (fun a b => compareExt a b ≤ 0) (initializeMimeTypes mimeFile) :=
  qsortMimeTypes_sorted _

theorem skipToNewline_ge (buffer : List Char) : ∀ (fuel p : Nat), p ≤ skipToNewline buffer fuel p := by
  intro fuel
  induction fuel with
  | zero => intro p; exact Nat.le_refl _
  | succ n ih =>
    intro p
    unfold skipToNewline
    split_ifs
    · exact Nat.le_trans (Nat.le_succ p) (ih (p + 1))
    · exact Nat.le_refl _

theorem findPartStart_ge (buffer : List Char) :
    ∀ (fuel p : Nat) (type : Option Nat), p ≤ (findPartStart buffer fuel p type).1 := by
  intro fuel
  induction fuel with
  | zero => intro p type; exact Nat.le_refl _
  | succ n ih =>
    intro p type
    unfold findPartStart
    by_cases h1 : p < buffer.length
    · rw [if_pos h1]
      by_cases h2 : buffer.getD p NUL = '#'
      · rw [if_pos h2]
        have h3 := skipToNewline_ge buffer buffer.length p
        have h4 := ih (skipToNewline buffer buffer.length p + 1) type
        omega
      · rw [if_neg h2]
        by_cases h3 : buffer.getD p NUL = ' ' ∨ buffer.getD p NUL = '\t' ∨ buffer.getD p NUL = '\r'
            ∨ buffer.getD p NUL = '\n'
        · rw [if_pos h3]
          have h4 := ih (p + 1) (if buffer.getD p NUL = '\n' then none else type)
          omega
        · rw [if_neg h3]
    · rw [if_neg h1]

theorem findPartEnd_ge (buffer : List Char) : ∀ (fuel p : Nat), p ≤ findPartEnd buffer fuel p := by
  intro fuel
  induction fuel with
  | zero => intro p; exact Nat.le_refl _
  | succ n ih =>
    intro p
    unfold findPartEnd
    split_ifs
    · exact Nat.le_refl _
    · exact Nat.le_trans (Nat.le_succ p) (ih (p + 1))
    · exact Nat.le_refl _

theorem skipToNewline_fuel (buffer : List Char) :
    ∀ (fuel1 fuel2 p : Nat), buffer.length ≤ p + fuel1 → buffer.length ≤ p + fuel2 →
      skipToNewline buffer fuel1 p = skipToNewline buffer fuel2 p := by
  intro fuel1
  induction fuel1 with
  | zero =>
    intro fuel2 p h1 _
    cases fuel2 with
    | zero => rfl
    | succ k =>
      unfold skipToNewline
      rw [if_neg (by omega)]
  | succ n ih =>
    intro fuel2 p h1 h2
    cases fuel2 with
    | zero =>
      unfold skipToNewline
      rw [if_neg (by omega)]
    | succ k =>
      unfold skipToNewline
      by_cases h : p < buffer.length ∧ buffer.getD p NUL ≠ '\n'
      · rw [if_pos h, if_pos h]
        exact ih k (p + 1) (by omega) (by omega)
      · rw [if_neg h, if_neg h]

theorem findPartEnd_fuel (buffer : List Char) :
    ∀ (fuel1 fuel2 p : Nat), buffer.length ≤ p + fuel1 → buffer.length ≤ p + fuel2 →
      findPartEnd buffer fuel1 p = findPartEnd buffer fuel2 p := by
  intro fuel1
  induction fuel1 with
  | zero =>
    intro fuel2 p h1 _
    cases fuel2 with
    | zero => rfl
    | succ k =>
      unfold findPartEnd
      rw [if_neg (by omega)]
  | succ n ih =>
    intro fuel2 p h1 h2
    cases fuel2 with
    | zero =>
      unfold findPartEnd
      rw [if_neg (by omega)]
    | succ k =>
      unfold findPartEnd
      by_cases h : p < buffer.length
      · rw [if_pos h, if_pos h]
        by_cases h3 : buffer.getD p NUL = ' ' ∨ buffer.getD p NUL = '\t' ∨ buffer.getD p NUL = '\r'
            ∨ buffer.getD p NUL = '\n'
        · rw [if_pos h3, if_pos h3]
        · rw [if_neg h3, if_neg h3]
          exact ih k (p + 1) (by omega) (by omega)
      · rw [if_neg h, if_neg h]

theorem findPartStart_fuel (buffer : List Char) :
    ∀ (fuel1 fuel2 p : Nat) (type : Option Nat), buffer.length ≤ p + fuel1 →
      buffer.length ≤ p + fuel2 →
      findPartStart buffer fuel1 p type = findPartStart buffer fuel2 p type := by
  intro fuel1
  induction fuel1 with
  | zero =>
    intro fuel2 p type h1 _
    cases fuel2 with
    | zero => rfl
    | succ k =>
      unfold findPartStart
      rw [if_neg (by omega)]
  | succ n ih =>
    intro fuel2 p type h1 h2
    cases fuel2 with
    | zero =>
      unfold findPartStart
      rw [if_neg (by omega)]
    | succ k =>
      unfold findPartStart
      by_cases h : p < buffer.length
      · rw [if_pos h, if_pos h]
        by_cases h3 : buffer.getD p NUL = '#'
        · rw [if_pos h3, if_pos h3]
          have h4 := skipToNewline_ge buffer buffer.length p
          exact ih k _ type (by omega) (by omega)
        · rw [if_neg h3, if_neg h3]
          by_cases h4 : buffer.getD p NUL = ' ' ∨ buffer.getD p NUL = '\t'
              ∨ buffer.getD p NUL = '\r' ∨ buffer.getD p NUL = '\n'
          · rw [if_pos h4, if_pos h4]
            exact ih k (p + 1) _ (by omega) (by omega)
          · rw [if_neg h4, if_neg h4]
      · rw [if_neg h, if_neg h]

theorem parseMimeFile_fuel :
    ∀ (fuel1 fuel2 : Nat) (buffer : List Char) (p : Nat) (type : Option Nat) (slots : List MimeSlot),
      buffer.length ≤ p + fuel1 → buffer.length ≤ p + fuel2 →
      parseMimeFile fuel1 buffer p type slots = parseMimeFile fuel2 buffer p type slots := by
  have hstop : ∀ (k : Nat) (buffer : List Char) (p : Nat) (type : Option Nat) (slots : List MimeSlot),
      buffer.length ≤ p → parseMimeFile (k + 1) buffer p type slots = (buffer, slots) := by
    intro k buffer p type slots h
    unfold parseMimeFile
    dsimp only
    have hstart := findPartStart_ge buffer (buffer.length + 1) p type
    have hend := findPartEnd_ge buffer (buffer.length + 1)
      ((findPartStart buffer (buffer.length + 1) p type).1 + 1)
    rw [if_neg (by omega)]
  intro fuel1
  induction fuel1 with
  | zero =>
    intro fuel2 buffer p type slots h1 _
    cases fuel2 with
    | zero => rfl
    | succ k => rw [hstop k buffer p type slots (by omega)]; rfl
  | succ n ih =>
    intro fuel2 buffer p type slots h1 h2
    cases fuel2 with
    | zero => rw [hstop n buffer p type slots (by omega)]; rfl
    | succ k =>
      unfold parseMimeFile
      dsimp only
      have hstart := findPartStart_ge buffer (buffer.length + 1) p type
      have hend := findPartEnd_ge buffer (buffer.length + 1)
        ((findPartStart buffer (buffer.length + 1) p type).1 + 1)
      by_cases hfound : findPartEnd buffer (buffer.length + 1)
          ((findPartStart buffer (buffer.length + 1) p type).1 + 1) < buffer.length
      · rw [if_pos hfound, if_pos hfound]
        by_cases hmore : findPartEnd buffer (buffer.length + 1)
            ((findPartStart buffer (buffer.length + 1) p type).1 + 1) + 1 < buffer.length
        · rw [if_pos hmore, if_pos hmore]
          exact ih k _ _ _ _ (by rw [List.length_set]; omega) (by rw [List.length_set]; omega)
        · rw [if_neg hmore, if_neg hmore]
      · rw [if_neg hfound, if_neg hfound]

theorem parseMimeFile_enough_fuel (mimeFile : String) (fuel : Nat)
    (h : mimeFile.data.length ≤ fuel) :
    parseMimeFile fuel mimeFile.data 0 none []
      = parseMimeFile (mimeFile.data.length + 1) mimeFile.data 0 none [] :=
  parseMimeFile_fuel _ _ _ _ _ _ (by omega) (by omega)

theorem getD_set_ne (buffer : List Char) (i j : Nat) (c : Char) (h : i ≠ j) :
    (buffer.set j c).getD i NUL = buffer.getD i NUL := by
  simp [List.getD_eq_getElem?_getD, List.getElem?_set_ne (Ne.symm h)]

theorem parseMimeFile_invariant :
    ∀ (fuel : Nat) (buffer : List Char) (p : Nat) (type : Option Nat) (slots : List MimeSlot),
      (∀ i, p ≤ i → i < buffer.length → buffer.getD i NUL ≠ NUL) →
      (parseMimeFile fuel buffer p type slots).1.length = buffer.length ∧
      (∀ i, i < p → (parseMimeFile fuel buffer p type slots).1.getD i NUL = buffer.getD i NUL) ∧
      ∀ s ∈ (parseMimeFile fuel buffer p type slots).2,
        s ∈ slots ∨
          (s.fileExtension < buffer.length ∧
            (parseMimeFile fuel buffer p type slots).1.getD s.fileExtension NUL ≠ NUL) := by
  intro fuel
  induction fuel with
  | zero =>
    intro buffer p type slots _
    exact ⟨rfl, fun _ _ => rfl, fun s hs => Or.inl hs⟩
  | succ n ih =>
    intro buffer p type slots hfree
    unfold parseMimeFile
    dsimp only
    have hstart := findPartStart_ge buffer (buffer.length + 1) p type
    have hend := findPartEnd_ge buffer (buffer.length + 1)
      ((findPartStart buffer (buffer.length + 1) p type).1 + 1)
    generalize findPartStart buffer (buffer.length + 1) p type = start at hstart hend ⊢
    generalize findPartEnd buffer (buffer.length + 1) (start.1 + 1) = partEndPtr at hend ⊢
    by_cases hfound : partEndPtr < buffer.length
    · rw [if_pos hfound]
      have step : ∀ (type2 : Option Nat) (slots1 : List MimeSlot),
          (∀ s ∈ slots1, s ∈ slots ∨ s.fileExtension = start.1) →
          (if partEndPtr + 1 < buffer.length then
              parseMimeFile n (buffer.set partEndPtr NUL) (partEndPtr + 1) type2 slots1
            else (buffer.set partEndPtr NUL, slots1)).1.length = buffer.length ∧
          (∀ i, i < p →
            (if partEndPtr + 1 < buffer.length then
              parseMimeFile n (buffer.set partEndPtr NUL) (partEndPtr + 1) type2 slots1
            else (buffer.set partEndPtr NUL, slots1)).1.getD i NUL = buffer.getD i NUL) ∧
          ∀ s ∈ (if partEndPtr + 1 < buffer.length then
              parseMimeFile n (buffer.set partEndPtr NUL) (partEndPtr + 1) type2 slots1
            else (buffer.set partEndPtr NUL, slots1)).2,
            s ∈ slots ∨
              (s.fileExtension < buffer.length ∧
                (if partEndPtr + 1 < buffer.length then
                  parseMimeFile n (buffer.set partEndPtr NUL) (partEndPtr + 1) type2 slots1
                else (buffer.set partEndPtr NUL, slots1)).1.getD s.fileExtension NUL ≠ NUL) := by
        intro type2 slots1 hnew
        by_cases hmore : partEndPtr + 1 < buffer.length
        · simp only [if_pos hmore]
          have hfree1 : ∀ i, partEndPtr + 1 ≤ i → i < (buffer.set partEndPtr NUL).length →
              (buffer.set partEndPtr NUL).getD i NUL ≠ NUL := by
            intro i h1 h2
            rw [getD_set_ne buffer i partEndPtr NUL (by omega)]
            rw [List.length_set] at h2
            exact hfree i (by omega) h2
          obtain ⟨h1, h2, h3⟩ := ih (buffer.set partEndPtr NUL) (partEndPtr + 1) type2 slots1 hfree1
          refine ⟨by rw [h1, List.length_set], ?_, ?_⟩
          · intro i hi
            rw [h2 i (by omega), getD_set_ne buffer i partEndPtr NUL (by omega)]
          · intro s hs
            rcases h3 s hs with h | ⟨h4, h5⟩
            · rcases hnew s h with h | h
              · exact Or.inl h
              · right
                rw [h]
                refine ⟨by omega, ?_⟩
                rw [h2 start.1 (by omega), getD_set_ne buffer start.1 partEndPtr NUL (by omega)]
                exact hfree start.1 hstart (by omega)
            · right
              rw [List.length_set] at h4
              exact ⟨h4, h5⟩
        · simp only [if_neg hmore]
          refine ⟨List.length_set _ _ _, ?_, ?_⟩
          · intro i hi
            exact getD_set_ne buffer i partEndPtr NUL (by omega)
          · intro s hs
            rcases hnew s hs with h | h
            · exact Or.inl h
            · right
              rw [h]
              refine ⟨by omega, ?_⟩
              rw [getD_set_ne buffer start.1 partEndPtr NUL (by omega)]
              exact hfree start.1 hstart (by omega)
      obtain ⟨q, t⟩ := start
      cases t with
      | none =>
        dsimp only
        exact step _ slots (fun s hs => Or.inl hs)
      | some t =>
        dsimp only
        refine step _ _ (fun s hs => ?_)
        rcases List.mem_append.mp hs with h | h
        · exact Or.inl h
        · right
          rw [List.mem_singleton.mp h]
    · rw [if_neg hfound]
      exact ⟨rfl, fun _ _ => rfl, fun s hs => Or.inl hs⟩

theorem cStringAt_ne_empty (buffer : List Char) (p : Nat) (hp : p < buffer.length)
    (h : buffer.getD p NUL ≠ NUL) : (cStringAt buffer p).data ≠ [] := by
  unfold cStringAt
  have hd : buffer.drop p = buffer.getD p NUL :: buffer.drop (p + 1) := by
    rw [List.getD_eq_getElem _ _ hp]
    exact List.drop_eq_getElem_cons hp
  have hb : (buffer.getD p NUL != NUL) = true := by simpa using h
  rw [hd, List.takeWhile_cons, if_pos hb]
  exact List.cons_ne_nil _ _

theorem initializeMimeTypes_extension_ne_empty (mimeFile : String) (hfree : NUL ∉ mimeFile.data) :
    ∀ e ∈ initializeMimeTypes mimeFile, e.fileExtension.data ≠ [] := by
  intro e he
  unfold initializeMimeTypes at he
  dsimp only at he
  rw [mem_qsortMimeTypes] at he
  obtain ⟨slot, hslot, rfl⟩ := List.mem_map.mp he
  have hinv := parseMimeFile_invariant (mimeFile.data.length + 1) mimeFile.data 0 none []
    (fun i _ hi => by
      intro hc
      apply hfree
      rw [← hc, List.getD_eq_getElem _ _ hi]
      exact List.getElem_mem _)
  obtain ⟨h1, _, h3⟩ := hinv
  rcases h3 slot hslot with h | ⟨h4, h5⟩
  · simp at h
  · exact cStringAt_ne_empty _ _ (by rw [h1]; exact h4) h5

theorem bsearch_absent (ext : List Char) (table : List MimeType)
    (h : ∀ e ∈ table, e.fileExtension.data ≠ ext) (fuel l u : Nat) :
    bsearch ⟨String.mk ext, "", 0⟩ table fuel l u = none := by
  cases hb : bsearch ⟨String.mk ext, "", 0⟩ table fuel l u with
  | none => rfl
  | some p =>
    obtain ⟨hp, hc⟩ := bsearch_some _ _ _ _ _ _ hb
    exact absurd (strcmp_eq_zero _ _ hc).symm (h p hp)

theorem bsearch_present (ext : List Char) (table : List MimeType)
    (hsorted : List.Pairwise (fun a b => compareExt a b ≤ 0) table)
    (h : ∃ e ∈ table, e.fileExtension.data = ext) :
    ∃ p, bsearch ⟨String.mk ext, "", 0⟩ table (table.length + 1) 0 table.length = some p ∧
      p ∈ table ∧ p.fileExtension.data = ext := by
  cases hb : bsearch ⟨String.mk ext, "", 0⟩ table (table.length + 1) 0 table.length with
  | none =>
    obtain ⟨e, he, hext⟩ := h
    obtain ⟨j, hje⟩ := List.mem_iff_get.mp he
    exfalso
    refine bsearch_none _ table hsorted (table.length + 1) 0 table.length (Nat.le_refl _)
      (by omega) hb j.val e (Nat.zero_le _) j.isLt ?_ ?_
    · rw [List.get?_eq_get j.isLt]
      exact congrArg some hje
    · unfold compareExt
      rw [hext]
      exact strcmp_self ext
  | some p =>
    obtain ⟨hp, hc⟩ := bsearch_some _ _ _ _ _ _ hb
    exact ⟨p, rfl, hp, (strcmp_eq_zero _ _ hc).symm⟩

theorem findMimeType_nonempty (mimeTypes : List MimeType) (before : Char) (f : String)
    (hf : f.data ≠ []) :
    findMimeType mimeTypes before (some f) =
      if '.' ∈ f.data ∧ '/' ∉ specAfterLastDot f.data then
        match bsearch ⟨String.mk (specAfterLastDot f.data), "", 0⟩ mimeTypes (mimeTypes.length + 1) 0
            mimeTypes.length with
        | some result => result
        | none => UNKNOWN_MIME_TYPE
      else UNKNOWN_MIME_TYPE := by
  unfold findMimeType
  dsimp only
  rw [if_neg hf, scanExtension_eq]
  unfold specAfterLastDot
  by_cases h : '.' ∈ f.data ∧ '/' ∉ (f.data.reverse.takeWhile (fun c => c != '.')).reverse
  · rw [if_pos h, if_pos (by simpa using h), List.append_nil]
  · rw [if_neg h, if_neg (by simpa using h)]

theorem findMimeType_empty (mimeTypes : List MimeType) (before : Char)
    (h : before = '.' → ∀ e ∈ mimeTypes, e.fileExtension.data ≠ []) :
    findMimeType mimeTypes before (some "") = UNKNOWN_MIME_TYPE := by
  unfold findMimeType
  dsimp only
  rw [if_pos rfl]
  unfold scanExtension
  by_cases h1 : before = '/'
  · rw [if_pos h1]
  · rw [if_neg h1]
    by_cases h2 : before = '.'
    · rw [if_pos h2]
      dsimp only
      rw [bsearch_absent [] mimeTypes (h h2)]
    · rw [if_neg h2]
      rfl

/-- C14. On a table sorted by `compareExt`, as `qsort` leaves it, `findMimeType` returns the
`application/octet-stream` record, of size 25, for the null path, for a path in which the
scan from the end meets a `/` or the start before any `.`, and for a path whose substring
after the last `.` is the extension of no entry; otherwise it returns an entry of the
table whose extension is that substring, byte for byte.  For the empty path the scan
starts at the byte stored before the string: the result is the same record as long as
that byte is not a `.` or no entry has the empty extension. -/
theorem findMimeType_by_extension (mimeTypes : List MimeType) (before : Char) (file : Option String)
    (hsorted : List.Pairwise (fun a b => compareExt a b ≤ 0) mimeTypes)
    (hempty : file = some "" → before = '.' → ∀ e ∈ mimeTypes, e.fileExtension.data ≠ []) :
    UNKNOWN_MIME_TYPE.type = "application/octet-stream" ∧ UNKNOWN_MIME_TYPE.typeStringSize = 25 ∧
    (file = none → findMimeType mimeTypes before file = UNKNOWN_MIME_TYPE) ∧
    ∀ f, file = some f →
      (('.' ∉ f.data ∨ '/' ∈ specAfterLastDot f.data) →
        findMimeType mimeTypes before file = UNKNOWN_MIME_TYPE) ∧
      ((∀ e ∈ mimeTypes, e.fileExtension.data ≠ specAfterLastDot f.data) →
        findMimeType mimeTypes before file = UNKNOWN_MIME_TYPE) ∧
      ('.' ∈ f.data → '/' ∉ specAfterLastDot f.data →
        (∃ e ∈ mimeTypes, e.fileExtension.data = specAfterLastDot f.data) →
        findMimeType mimeTypes before file ∈ mimeTypes ∧
          (findMimeType mimeTypes before file).fileExtension.data = specAfterLastDot f.data) := by
  refine ⟨rfl, rfl, ?_, ?_⟩
  · intro h
    rw [h]
    rfl
  · intro f hfile
    subst hfile
    by_cases hf : f.data = []
    · have hf2 : f = "" := String.ext hf
      subst hf2
      have hu := findMimeType_empty mimeTypes before (hempty rfl)
      refine ⟨fun _ => hu, fun _ => hu, fun h => ?_⟩
      simp at h
    · rw [findMimeType_nonempty mimeTypes before f hf]
      refine ⟨?_, ?_, ?_⟩
      · intro h
        rw [if_neg]
        intro hc
        rcases h with h | h
        · exact h hc.1
        · exact hc.2 h
      · intro h
        rw [bsearch_absent _ mimeTypes h]
        simp
      · intro h1 h2 h3
        rw [if_pos ⟨h1, h2⟩]
        obtain ⟨p, hp1, hp2, hp3⟩ := bsearch_present _ mimeTypes hsorted h3
        rw [hp1]
        exact ⟨hp2, hp3⟩

theorem findMimeType_by_extension_witness :
    NUL ∉ "text/html html htm\nimage/png png\n".data ∧
    '.' ∈ "/srv/www/index.html".data ∧ '/' ∉ specAfterLastDot "/srv/www/index.html".data ∧
    (⟨"html", "text/html", 5⟩ : MimeType) ∈ sampleMimeTypes ∧
    findMimeType sampleMimeTypes 'x' (some "/srv/www/index.html") ∈ sampleMimeTypes ∧
    (findMimeType sampleMimeTypes 'x' (some "/srv/www/index.html")).fileExtension.data
      = ['h', 't', 'm', 'l'] :=
  have hfree : NUL ∉ "text/html html htm\nimage/png png\n".data := by decide
  have hdot : '.' ∈ "/srv/www/index.html".data := by decide
  have hslash : '/' ∉ specAfterLastDot "/srv/www/index.html".data := by decide
  have hmem : (⟨"html", "text/html", 5⟩ : MimeType) ∈ sampleMimeTypes := by decide
  have h := ((findMimeType_by_extension sampleMimeTypes 'x' (some "/srv/www/index.html")
    (initializeMimeTypes_sorted _)
    (fun _ _ => initializeMimeTypes_extension_ne_empty _ hfree)).2.2.2 _ rfl).2.2 hdot hslash
    ⟨_, hmem, by decide⟩
  ⟨hfree, hdot, hslash, hmem, h.1, h.2⟩

/-- C12. For the MIME file of the one line `text/html html`, the table holds the entry
of extension `html` and type `text/html` with the size 5, the length of the extension
plus one, and `findMimeType` returns that entry for `any.html`: the type is the one of the
file, the size is not the 10 of `len(type) + 1`. -/
theorem mime_round_trip_size_is_of_extension :
    initializeMimeTypes "text/html html\n" = [⟨"html", "text/html", 5⟩] ∧
    ∀ before : Char,
      (findMimeType (initializeMimeTypes "text/html html\n") before (some "any.html")).type
          = "text/html" ∧
      (findMimeType (initializeMimeTypes "text/html html\n") before (some "any.html")).typeStringSize
          = "html".length + 1 ∧
      (findMimeType (initializeMimeTypes "text/html html\n") before (some "any.html")).typeStringSize
          ≠ "text/html".length + 1 := by
  have h : initializeMimeTypes "text/html html\n" = [⟨"html", "text/html", 5⟩] := by decide
  refine ⟨h, fun before => ?_⟩
  rw [h]
  have h2 : findMimeType [⟨"html", "text/html", 5⟩] before (some "any.html")
      = ⟨"html", "text/html", 5⟩ := by
    rw [findMimeType_nonempty _ _ _ (by decide)]
    decide
  rw [h2]
  decide

/-- C13. For the MIME file of the two lines `text/html html # c` and `image/png png`, the
comment swallows the end of its line without forgetting the type: the table pairs the
first token of the second line, `image/png`, and its extension `png` with the type
`text/html` of the first line, and holds no entry of type `image/png`. -/
theorem mime_comment_joins_next_line :
    initializeMimeTypes "text/html html # c\nimage/png png\n"
      = [⟨"html", "text/html", 5⟩, ⟨"image/png", "text/html", 10⟩, ⟨"png", "text/html", 4⟩] ∧
    (⟨"image/png", "text/html", 10⟩ : MimeType) ∈
      initializeMimeTypes "text/html html # c\nimage/png png\n" ∧
    (⟨"png", "text/html", 4⟩ : MimeType) ∈
      initializeMimeTypes "text/html html # c\nimage/png png\n" ∧
    (∀ e ∈ initializeMimeTypes "text/html html # c\nimage/png png\n", e.type ≠ "image/png") ∧
    initializeMimeTypes "text/html html\nimage/png png\n"
      = [⟨"html", "text/html", 5⟩, ⟨"png", "image/png", 4⟩] := by
  have h : initializeMimeTypes "text/html html # c\nimage/png png\n"
      = [⟨"html", "text/html", 5⟩, ⟨"image/png", "text/html", 10⟩, ⟨"png", "text/html", 4⟩] := by
    decide
  rw [h]
  refine ⟨rfl, by decide, by decide, by decide, by decide⟩

/-! ## The type of a new lock (C21) -/

theorem skipSubtree_append (d : Nat) (rest : List XmlNode)
    (hrest : ∀ x, rest.head? = some x → x.depth ≤ d) :
    ∀ (sub : List XmlNode) (i : Nat), (∀ x ∈ sub, d < x.depth) →
      skipSubtree d (sub ++ rest) i = if rest = [] then none else some (i + sub.length) := by
  intro sub
  induction sub with
  | nil =>
    intro i _
    cases rest with
    | nil => rfl
    | cons x xs =>
      have hx := hrest x rfl
      simp [skipSubtree, hx]
  | cons y ys ih =>
    intro i hsub
    have hy : ¬ y.depth ≤ d := by
      have := hsub y (List.mem_cons_self _ _)
      omega
    have h2 := ih (i + 1) (fun x hx => hsub x (List.mem_cons_of_mem _ hx))
    rw [List.cons_append, skipSubtree, if_neg hy, h2]
    by_cases hr : rest = []
    · rw [if_pos hr, if_pos hr]
    · rw [if_neg hr, if_neg hr, List.length_cons]
      congr 1
      omega

theorem get?_middle (pre : List XmlNode) (n : XmlNode) (tail : List XmlNode) :
    (pre ++ n :: tail).get? pre.length = some n := by
  rw [List.get?_eq_getElem?, List.getElem?_append_right (Nat.le_refl _)]
  simp

theorem reader_stepInto (nodes : List XmlNode) (i : Nat) :
    (readerOfNodes nodes).stepInto (i + 1) = positionAt nodes (i + 1) := rfl

theorem reader_stepOver (pre : List XmlNode) (n : XmlNode) (sub rest : List XmlNode)
    (hsub : ∀ x ∈ sub, n.depth < x.depth) (hrest : ∀ x, rest.head? = some x → x.depth ≤ n.depth) :
    (readerOfNodes (pre ++ n :: (sub ++ rest))).stepOver (pre.length + 1)
      = positionAt (pre ++ n :: (sub ++ rest)) (pre.length + 1 + sub.length) := by
  have hdrop : (pre ++ n :: (sub ++ rest)).drop (pre.length + 1) = sub ++ rest := by
    rw [List.drop_append_eq_append_drop]
    simp
  have hlen : (pre ++ n :: (sub ++ rest)).length = pre.length + 1 + sub.length + rest.length := by
    simp only [List.length_append, List.length_cons]
    omega
  simp only [readerOfNodes, get?_middle, hdrop, skipSubtree_append n.depth rest hrest sub _ hsub,
    positionAt]
  rw [hlen]
  by_cases hr : rest = []
  · rw [if_pos hr]
    subst hr
    rw [if_neg (by simp)]
  · rw [if_neg hr]
    have hpos : 0 < rest.length := List.length_pos.mpr hr
    rw [if_pos (by omega)]

theorem reader_depth (pre : List XmlNode) (n : XmlNode) (tail : List XmlNode) :
    (readerOfNodes (pre ++ n :: tail)).depth (pre.length + 1) = (n.depth : Int) := by
  simp only [readerOfNodes, get?_middle]
  rfl

theorem reader_localName (pre : List XmlNode) (n : XmlNode) (tail : List XmlNode) :
    (readerOfNodes (pre ++ n :: tail)).localName (pre.length + 1) = n.localName := by
  simp only [readerOfNodes, get?_middle]
  rfl

theorem reader_isNamespaceElement (pre : List XmlNode) (n : XmlNode) (tail : List XmlNode)
    (ns : String) :
    (readerOfNodes (pre ++ n :: tail)).isNamespaceElement (pre.length + 1) ns
      = (n.isElement && n.namespaceUri == some ns) := by
  simp only [readerOfNodes, get?_middle]

theorem mergeLockType_none (type : LockType) : mergeLockType type false false = type := by
  cases type <;> simp [mergeLockType]

theorem mergeLockType_scope (type : LockType) (name : String) (e s : Bool) :
    mergeLockType
        (if name = "shared" then (if type ≠ LOCK_TYPE_EXCLUSIVE then LOCK_TYPE_SHARED else type)
          else if name = "exclusive" then LOCK_TYPE_EXCLUSIVE else type) e s
      = mergeLockType type (decide (name = "exclusive") || e) (decide (name = "shared") || s) := by
  by_cases h1 : name = "shared"
  · subst h1
    cases type <;> cases e <;> cases s <;> simp [mergeLockType]
  · by_cases h2 : name = "exclusive"
    · subst h2
      cases type <;> cases e <;> cases s <;> simp [mergeLockType]
    · cases type <;> cases e <;> cases s <;> simp [mergeLockType, h1, h2]

theorem mergeLockType_type (type : LockType) (name : String) (e s : Bool) :
    mergeLockType
        (if name = "read" ∧ type ≠ LOCK_TYPE_EXCLUSIVE then LOCK_TYPE_SHARED
          else if name = "write" then LOCK_TYPE_EXCLUSIVE else type) e s
      = mergeLockType type (decide (name = "write") || e) (decide (name = "read") || s) := by
  by_cases h1 : name = "read"
  · subst h1
    cases type <;> cases e <;> cases s <;> simp [mergeLockType]
  · by_cases h2 : name = "write"
    · subst h2
      cases type <;> cases e <;> cases s <;> simp [mergeLockType]
    · cases type <;> cases e <;> cases s <;> simp [mergeLockType, h1, h2]

theorem leavesNodes_head (rest : List XmlNode) (hrest : ∀ x, rest.head? = some x → x.depth ≤ 1)
    (ls : List LockInfoLeaf) : ∀ x, (leavesNodes ls ++ rest).head? = some x → x.depth ≤ 2 := by
  intro x hx
  cases ls with
  | nil =>
    have := hrest x hx
    omega
  | cons l ls =>
    simp [leavesNodes, leafNodes] at hx
    rw [← hx]

theorem positionAt_lt (nodes : List XmlNode) (i : Nat) (h : i < nodes.length) :
    positionAt nodes i = (1, i + 1) := by
  unfold positionAt
  rw [if_pos h]

theorem lockScopeLoop_leaves (rest : List XmlNode) (hrest : ∀ x, rest.head? = some x → x.depth ≤ 1) :
    ∀ (leaves : List LockInfoLeaf) (pre nodes : List XmlNode) (fuel : Nat) (type : LockType),
      nodes = pre ++ (leavesNodes leaves ++ rest) →
      (∀ l ∈ leaves, l.node.isElement = true → l.node.namespaceUri = some WEBDAV_NAMESPACE →
        l.node.localName ≠ none) →
      leaves.length < fuel →
      lockScopeLoop (readerOfNodes nodes) fuel (positionAt nodes pre.length).1
          (positionAt nodes pre.length).2 type
        = some ((positionAt nodes (pre.length + (leavesNodes leaves).length)).1,
            (positionAt nodes (pre.length + (leavesNodes leaves).length)).2,
            mergeLockType type (leaves.any (fun l => isDavElement l.node "exclusive"))
              (leaves.any (fun l => isDavElement l.node "shared"))) := by
  intro leaves
  induction leaves with
  | nil =>
    intro pre nodes fuel type hnodes _ hfuel
    obtain ⟨k, rfl⟩ : ∃ k, fuel = k + 1 := ⟨fuel - 1, by simp at hfuel; omega⟩
    simp only [leavesNodes, List.nil_append, List.length_nil, Nat.add_zero, List.any_nil,
      mergeLockType_none] at hnodes ⊢
    unfold lockScopeLoop
    rw [if_neg]
    intro hc
    cases rest with
    | nil =>
      apply hc.1
      unfold positionAt
      rw [if_neg (by rw [hnodes]; simp)]
    | cons x xs =>
      have hx := hrest x rfl
      have hd := reader_depth pre x xs
      rw [← hnodes] at hd
      have hp := positionAt_lt nodes pre.length (by rw [hnodes]; simp)
      rw [hp] at hc
      have h2 := hc.2
      dsimp only at h2
      rw [hd] at h2
      omega
  | cons l ls ih =>
    intro pre nodes fuel type hnodes hnamed hfuel
    obtain ⟨k, rfl⟩ : ∃ k, fuel = k + 1 := ⟨fuel - 1, by simp at hfuel; omega⟩
    have hn : nodes = pre ++ ({ l.node with depth := 2 } : XmlNode) ::
        (l.below.map (fun n => ({ n with depth := n.depth + 3 } : XmlNode)) ++ (leavesNodes ls ++ rest)) := by
      rw [hnodes]
      simp [leavesNodes, leafNodes]
    have hn2 : nodes = (pre ++ leafNodes l) ++ (leavesNodes ls ++ rest) := by
      rw [hnodes]
      simp [leavesNodes]
    have hp := positionAt_lt nodes pre.length (by rw [hn]; simp)
    have hd := reader_depth pre ({ l.node with depth := 2 } : XmlNode)
      (l.below.map (fun n => ({ n with depth := n.depth + 3 } : XmlNode)) ++ (leavesNodes ls ++ rest))
    have hl := reader_localName pre ({ l.node with depth := 2 } : XmlNode)
      (l.below.map (fun n => ({ n with depth := n.depth + 3 } : XmlNode)) ++ (leavesNodes ls ++ rest))
    have he := reader_isNamespaceElement pre ({ l.node with depth := 2 } : XmlNode)
      (l.below.map (fun n => ({ n with depth := n.depth + 3 } : XmlNode)) ++ (leavesNodes ls ++ rest))
      WEBDAV_NAMESPACE
    have hs := reader_stepOver pre ({ l.node with depth := 2 } : XmlNode)
      (l.below.map (fun n => ({ n with depth := n.depth + 3 } : XmlNode))) (leavesNodes ls ++ rest)
      (by
        intro x hx
        obtain ⟨y, _, rfl⟩ := List.mem_map.mp hx
        show 2 < y.depth + 3
        omega)
      (leavesNodes_head rest hrest ls)
    rw [← hn] at hd hl he hs
    dsimp only at hd hl he
    have hlen : pre.length + 1 + (l.below.map (fun n => ({ n with depth := n.depth + 3 } : XmlNode))).length
        = (pre ++ leafNodes l).length := by
      simp [leafNodes]
      omega
    rw [hlen] at hs
    have hlen2 : pre.length + (leavesNodes (l :: ls)).length
        = (pre ++ leafNodes l).length + (leavesNodes ls).length := by
      simp [leavesNodes]
      omega
    have hih := fun type1 => ih (pre ++ leafNodes l) nodes k type1 hn2
      (fun l2 h2 => hnamed l2 (List.mem_cons_of_mem _ h2)) (by simp at hfuel; omega)
    rw [hp, hlen2]
    unfold lockScopeLoop
    dsimp only
    rw [if_pos ⟨by decide, by rw [hd]; rfl⟩, he, hs, hl]
    by_cases hne : (l.node.isElement && l.node.namespaceUri == some WEBDAV_NAMESPACE) = true
    · rw [if_pos hne]
      cases hname : l.node.localName with
      | none =>
        exfalso
        simp at hne
        exact hnamed l (List.mem_cons_self _ _) hne.1 hne.2 hname
      | some name =>
        dsimp only
        have hd2 : ∀ nm, isDavElement l.node nm = decide (name = nm) := by
          intro nm
          unfold isDavElement
          rw [hne, hname]
          by_cases hnm : name = nm <;> simp [hnm]
        rw [hih, mergeLockType_scope, List.any_cons, List.any_cons, hd2, hd2]
    · rw [if_neg hne, hih]
      have hf : ∀ nm, isDavElement l.node nm = false := by
        intro nm
        unfold isDavElement
        simp only [Bool.not_eq_true] at hne
        rw [hne]
        rfl
      rw [List.any_cons, List.any_cons, hf, hf, Bool.false_or, Bool.false_or]

theorem lockTypeLoop_leaves (rest : List XmlNode) (hrest : ∀ x, rest.head? = some x → x.depth ≤ 1) :
    ∀ (leaves : List LockInfoLeaf) (pre nodes : List XmlNode) (fuel : Nat) (type : LockType),
      nodes = pre ++ (leavesNodes leaves ++ rest) →
      (∀ l ∈ leaves, l.node.isElement = true → l.node.namespaceUri = some WEBDAV_NAMESPACE →
        l.node.localName ≠ none) →
      leaves.length < fuel →
      lockTypeLoop (readerOfNodes nodes) fuel (positionAt nodes pre.length).1
          (positionAt nodes pre.length).2 type
        = some ((positionAt nodes (pre.length + (leavesNodes leaves).length)).1,
            (positionAt nodes (pre.length + (leavesNodes leaves).length)).2,
            mergeLockType type (leaves.any (fun l => isDavElement l.node "write"))
              (leaves.any (fun l => isDavElement l.node "read"))) := by
  intro leaves
  induction leaves with
  | nil =>
    intro pre nodes fuel type hnodes _ hfuel
    obtain ⟨k, rfl⟩ : ∃ k, fuel = k + 1 := ⟨fuel - 1, by simp at hfuel; omega⟩
    simp only [leavesNodes, List.nil_append, List.length_nil, Nat.add_zero, List.any_nil,
      mergeLockType_none] at hnodes ⊢
    unfold lockTypeLoop
    rw [if_neg]
    intro hc
    cases rest with
    | nil =>
      apply hc.1
      unfold positionAt
      rw [if_neg (by rw [hnodes]; simp)]
    | cons x xs =>
      have hx := hrest x rfl
      have hd := reader_depth pre x xs
      rw [← hnodes] at hd
      have hp := positionAt_lt nodes pre.length (by rw [hnodes]; simp)
      rw [hp] at hc
      have h2 := hc.2
      dsimp only at h2
      rw [hd] at h2
      omega
  | cons l ls ih =>
    intro pre nodes fuel type hnodes hnamed hfuel
    obtain ⟨k, rfl⟩ : ∃ k, fuel = k + 1 := ⟨fuel - 1, by simp at hfuel; omega⟩
    have hn : nodes = pre ++ ({ l.node with depth := 2 } : XmlNode) ::
        (l.below.map (fun n => ({ n with depth := n.depth + 3 } : XmlNode)) ++ (leavesNodes ls ++ rest)) := by
      rw [hnodes]
      simp [leavesNodes, leafNodes]
    have hn2 : nodes = (pre ++ leafNodes l) ++ (leavesNodes ls ++ rest) := by
      rw [hnodes]
      simp [leavesNodes]
    have hp := positionAt_lt nodes pre.length (by rw [hn]; simp)
    have hd := reader_depth pre ({ l.node with depth := 2 } : XmlNode)
      (l.below.map (fun n => ({ n with depth := n.depth + 3 } : XmlNode)) ++ (leavesNodes ls ++ rest))
    have hl := reader_localName pre ({ l.node with depth := 2 } : XmlNode)
      (l.below.map (fun n => ({ n with depth := n.depth + 3 } : XmlNode)) ++ (leavesNodes ls ++ rest))
    have he := reader_isNamespaceElement pre ({ l.node with depth := 2 } : XmlNode)
      (l.below.map (fun n => ({ n with depth := n.depth + 3 } : XmlNode)) ++ (leavesNodes ls ++ rest))
      WEBDAV_NAMESPACE
    have hs := reader_stepOver pre ({ l.node with depth := 2 } : XmlNode)
      (l.below.map (fun n => ({ n with depth := n.depth + 3 } : XmlNode))) (leavesNodes ls ++ rest)
      (by
        intro x hx
        obtain ⟨y, _, rfl⟩ := List.mem_map.mp hx
        show 2 < y.depth + 3
        omega)
      (leavesNodes_head rest hrest ls)
    rw [← hn] at hd hl he hs
    dsimp only at hd hl he
    have hlen : pre.length + 1 + (l.below.map (fun n => ({ n with depth := n.depth + 3 } : XmlNode))).length
        = (pre ++ leafNodes l).length := by
      simp [leafNodes]
      omega
    rw [hlen] at hs
    have hlen2 : pre.length + (leavesNodes (l :: ls)).length
        = (pre ++ leafNodes l).length + (leavesNodes ls).length := by
      simp [leavesNodes]
      omega
    have hih := fun type1 => ih (pre ++ leafNodes l) nodes k type1 hn2
      (fun l2 h2 => hnamed l2 (List.mem_cons_of_mem _ h2)) (by simp at hfuel; omega)
    rw [hp, hlen2]
    unfold lockTypeLoop
    dsimp only
    rw [if_pos ⟨by decide, by rw [hd]; rfl⟩, he, hs, hl]
    by_cases hne : (l.node.isElement && l.node.namespaceUri == some WEBDAV_NAMESPACE) = true
    · rw [if_pos hne]
      cases hname : l.node.localName with
      | none =>
        exfalso
        simp at hne
        exact hnamed l (List.mem_cons_self _ _) hne.1 hne.2 hname
      | some name =>
        dsimp only
        have hd2 : ∀ nm, isDavElement l.node nm = decide (name = nm) := by
          intro nm
          unfold isDavElement
          rw [hne, hname]
          by_cases hnm : name = nm <;> simp [hnm]
        rw [hih, mergeLockType_type, List.any_cons, List.any_cons, hd2, hd2]
    · rw [if_neg hne, hih]
      have hf : ∀ nm, isDavElement l.node nm = false := by
        intro nm
        unfold isDavElement
        simp only [Bool.not_eq_true] at hne
        rw [hne]
        rfl
      rw [List.any_cons, List.any_cons, hf, hf, Bool.false_or, Bool.false_or]

theorem mergeLockType_merge (type : LockType) (e1 s1 e2 s2 : Bool) :
    mergeLockType (mergeLockType type e1 s1) e2 s2 = mergeLockType type (e1 || e2) (s1 || s2) := by
  cases type <;> cases e1 <;> cases s1 <;> cases e2 <;> cases s2 <;> simp [mergeLockType]

theorem appearsUnder_cons (c : LockInfoChild) (cs : List LockInfoChild) (parent name : String) :
    appearsUnder (c :: cs) parent name
      = ((c.localName == parent && c.leaves.any (fun l => isDavElement l.node name))
          || appearsUnder cs parent name) := by
  unfold appearsUnder
  rw [List.any_cons]

theorem leavesNodes_depth : ∀ (ls : List LockInfoLeaf) (x : XmlNode), x ∈ leavesNodes ls → 1 < x.depth := by
  intro ls
  induction ls with
  | nil => intro x hx; simp [leavesNodes] at hx
  | cons l ls ih =>
    intro x hx
    unfold leavesNodes at hx
    rcases List.mem_append.mp hx with h | h
    · unfold leafNodes at h
      rcases List.mem_cons.mp h with h | h
      · rw [h]
        show 1 < 2
        omega
      · obtain ⟨y, _, rfl⟩ := List.mem_map.mp h
        show 1 < y.depth + 3
        omega
    · exact ih x h

theorem leavesNodes_length : ∀ (ls : List LockInfoLeaf), ls.length ≤ (leavesNodes ls).length := by
  intro ls
  induction ls with
  | nil => exact Nat.le_refl _
  | cons l ls ih =>
    simp only [leavesNodes, leafNodes, List.length_append, List.length_cons, List.length_map]
    omega

theorem childrenNodes_head (cs : List LockInfoChild) :
    ∀ x, (childrenNodes cs).head? = some x → x.depth ≤ 1 := by
  intro x hx
  cases cs with
  | nil => simp [childrenNodes] at hx
  | cons c cs =>
    simp [childrenNodes, childNodes] at hx
    rw [← hx]

theorem lockInfoLoop_children :
    ∀ (children : List LockInfoChild) (pre nodes : List XmlNode) (fuel : Nat) (type : LockType),
      nodes = pre ++ childrenNodes children →
      (∀ c ∈ children, ∀ l ∈ c.leaves, l.node.isElement = true →
        l.node.namespaceUri = some WEBDAV_NAMESPACE → l.node.localName ≠ none) →
      (childrenNodes children).length < fuel →
      lockInfoLoop (readerOfNodes nodes) fuel (positionAt nodes pre.length).1
          (positionAt nodes pre.length).2 type
        = some (0, nodes.length + 1,
            mergeLockType type
              (appearsUnder children "lockscope" "exclusive" || appearsUnder children "locktype" "write")
              (appearsUnder children "lockscope" "shared" || appearsUnder children "locktype" "read")) := by
  intro children
  induction children with
  | nil =>
    intro pre nodes fuel type hnodes _ hfuel
    obtain ⟨k, rfl⟩ : ∃ k, fuel = k + 1 := ⟨fuel - 1, by omega⟩
    simp only [childrenNodes, List.append_nil] at hnodes
    have hp : positionAt nodes pre.length = (0, nodes.length + 1) := by
      unfold positionAt
      rw [if_neg (by rw [hnodes]; omega)]
    rw [hp]
    unfold lockInfoLoop
    rw [if_neg (fun hc => hc.1 rfl)]
    have : mergeLockType type
        (appearsUnder [] "lockscope" "exclusive" || appearsUnder [] "locktype" "write")
        (appearsUnder [] "lockscope" "shared" || appearsUnder [] "locktype" "read") = type :=
      mergeLockType_none type
    rw [this]
  | cons c cs ih =>
    intro pre nodes fuel type hnodes hnamed hfuel
    obtain ⟨k, rfl⟩ : ∃ k, fuel = k + 1 := ⟨fuel - 1, by omega⟩
    have hn : nodes = pre ++ (⟨1, true, some WEBDAV_NAMESPACE, some c.localName⟩ : XmlNode) ::
        (leavesNodes c.leaves ++ childrenNodes cs) := by
      rw [hnodes]
      simp [childrenNodes, childNodes]
    have hn1 : nodes = (pre ++ [(⟨1, true, some WEBDAV_NAMESPACE, some c.localName⟩ : XmlNode)]) ++
        (leavesNodes c.leaves ++ childrenNodes cs) := by
      rw [hn]
      simp
    have hn2 : nodes = (pre ++ childNodes c) ++ childrenNodes cs := by
      rw [hnodes]
      simp [childrenNodes]
    have hfuel2 : 1 + (leavesNodes c.leaves).length + (childrenNodes cs).length < k + 1 := by
      simp only [childrenNodes, childNodes, List.length_append, List.length_cons] at hfuel
      omega
    have hleaves := leavesNodes_length c.leaves
    have hp := positionAt_lt nodes pre.length (by rw [hn]; simp)
    have hd := reader_depth pre (⟨1, true, some WEBDAV_NAMESPACE, some c.localName⟩ : XmlNode)
      (leavesNodes c.leaves ++ childrenNodes cs)
    have hl := reader_localName pre (⟨1, true, some WEBDAV_NAMESPACE, some c.localName⟩ : XmlNode)
      (leavesNodes c.leaves ++ childrenNodes cs)
    have he := reader_isNamespaceElement pre (⟨1, true, some WEBDAV_NAMESPACE, some c.localName⟩ : XmlNode)
      (leavesNodes c.leaves ++ childrenNodes cs) WEBDAV_NAMESPACE
    have hs := reader_stepOver pre (⟨1, true, some WEBDAV_NAMESPACE, some c.localName⟩ : XmlNode)
      (leavesNodes c.leaves) (childrenNodes cs) (leavesNodes_depth c.leaves) (childrenNodes_head cs)
    rw [← hn] at hd hl he hs
    dsimp only at hd hl he
    have hetrue : (true && some WEBDAV_NAMESPACE == some WEBDAV_NAMESPACE) = true := by decide
    rw [hetrue] at he
    have hlen1 : pre.length + 1 = (pre ++ [(⟨1, true, some WEBDAV_NAMESPACE, some c.localName⟩ : XmlNode)]).length := by
      simp
    have hlen2 : pre.length + 1 + (leavesNodes c.leaves).length = (pre ++ childNodes c).length := by
      simp [childNodes]
      omega
    have hlen3 : (pre ++ [(⟨1, true, some WEBDAV_NAMESPACE, some c.localName⟩ : XmlNode)]).length
        + (leavesNodes c.leaves).length = (pre ++ childNodes c).length := by
      rw [← hlen1, hlen2]
    have hin := reader_stepInto nodes pre.length
    have hih := fun type1 => ih (pre ++ childNodes c) nodes k type1 hn2
      (fun c2 h2 => hnamed c2 (List.mem_cons_of_mem _ h2)) (by omega)
    have hleafnamed := hnamed c (List.mem_cons_self _ _)
    rw [hp]
    unfold lockInfoLoop
    dsimp only
    rw [if_pos ⟨by decide, by rw [hd]; rfl⟩, he, if_pos rfl, hl]
    dsimp only
    rw [appearsUnder_cons, appearsUnder_cons, appearsUnder_cons, appearsUnder_cons]
    by_cases h1 : c.localName = "lockscope"
    · rw [if_pos h1, hin, hlen1,
        lockScopeLoop_leaves (childrenNodes cs) (childrenNodes_head cs) c.leaves _ nodes k type hn1
          hleafnamed (by omega)]
      dsimp only
      rw [hlen3, hih, mergeLockType_merge, h1]
      have hb1 : ("lockscope" == "lockscope") = true := by decide
      have hb2 : ("lockscope" == "locktype") = false := by decide
      rw [hb1, hb2]
      simp only [Bool.true_and, Bool.false_and, Bool.false_or, Bool.or_assoc]
    · rw [if_neg h1]
      by_cases h2 : c.localName = "locktype"
      · rw [if_pos h2, hin, hlen1,
          lockTypeLoop_leaves (childrenNodes cs) (childrenNodes_head cs) c.leaves _ nodes k type hn1
            hleafnamed (by omega)]
        dsimp only
        rw [hlen3, hih, mergeLockType_merge, h2]
        have hb1 : ("locktype" == "lockscope") = false := by decide
        have hb2 : ("locktype" == "locktype") = true := by decide
        rw [hb1, hb2]
        simp only [Bool.true_and, Bool.false_and, Bool.false_or, Bool.or_assoc, Bool.or_left_comm]
      · rw [if_neg h2, hs, hlen2, hih]
        have hb1 : (c.localName == "lockscope") = false := by simpa using h1
        have hb2 : (c.localName == "locktype") = false := by simpa using h2
        rw [hb1, hb2]
        simp

theorem lockScopeLoop_keeps_exclusive (r : XmlReader) :
    ∀ (fuel : Nat) (readResult : Int) (s : Nat) (out : Int × Nat × LockType),
      lockScopeLoop r fuel readResult s LOCK_TYPE_EXCLUSIVE = some out →
      out.2.2 = LOCK_TYPE_EXCLUSIVE := by
  intro fuel
  induction fuel with
  | zero => intro _ _ _ h; simp [lockScopeLoop] at h
  | succ k ih =>
    intro readResult s out h
    unfold lockScopeLoop at h
    by_cases hc : readResult ≠ 0 ∧ r.depth s = 2
    · rw [if_pos hc] at h
      by_cases he : r.isNamespaceElement s WEBDAV_NAMESPACE = true
      · rw [if_pos he] at h
        cases hl : r.localName s with
        | none => rw [hl] at h; simp at h
        | some name =>
          rw [hl] at h
          dsimp only at h
          have ht : (if name = "shared" then
                (if LOCK_TYPE_EXCLUSIVE ≠ LOCK_TYPE_EXCLUSIVE then LOCK_TYPE_SHARED else LOCK_TYPE_EXCLUSIVE)
              else if name = "exclusive" then LOCK_TYPE_EXCLUSIVE else LOCK_TYPE_EXCLUSIVE)
              = LOCK_TYPE_EXCLUSIVE := by
            split_ifs <;> first | rfl | contradiction
          rw [ht] at h
          exact ih _ _ _ h
      · rw [if_neg he] at h
        exact ih _ _ _ h
    · rw [if_neg hc] at h
      rw [← Option.some.inj h]

theorem lockTypeLoop_keeps_exclusive (r : XmlReader) :
    ∀ (fuel : Nat) (readResult : Int) (s : Nat) (out : Int × Nat × LockType),
      lockTypeLoop r fuel readResult s LOCK_TYPE_EXCLUSIVE = some out →
      out.2.2 = LOCK_TYPE_EXCLUSIVE := by
  intro fuel
  induction fuel with
  | zero => intro _ _ _ h; simp [lockTypeLoop] at h
  | succ k ih =>
    intro readResult s out h
    unfold lockTypeLoop at h
    by_cases hc : readResult ≠ 0 ∧ r.depth s = 2
    · rw [if_pos hc] at h
      by_cases he : r.isNamespaceElement s WEBDAV_NAMESPACE = true
      · rw [if_pos he] at h
        cases hl : r.localName s with
        | none => rw [hl] at h; simp at h
        | some name =>
          rw [hl] at h
          dsimp only at h
          have ht : (if name = "read" ∧ LOCK_TYPE_EXCLUSIVE ≠ LOCK_TYPE_EXCLUSIVE then LOCK_TYPE_SHARED
              else if name = "write" then LOCK_TYPE_EXCLUSIVE else LOCK_TYPE_EXCLUSIVE)
              = LOCK_TYPE_EXCLUSIVE := by
            split_ifs with h1 <;> first | rfl | exact absurd rfl h1.2
          rw [ht] at h
          exact ih _ _ _ h
      · rw [if_neg he] at h
        exact ih _ _ _ h
    · rw [if_neg hc] at h
      rw [← Option.some.inj h]

theorem lockInfoLoop_keeps_exclusive (r : XmlReader) :
    ∀ (fuel : Nat) (readResult : Int) (s : Nat) (out : Int × Nat × LockType),
      lockInfoLoop r fuel readResult s LOCK_TYPE_EXCLUSIVE = some out →
      out.2.2 = LOCK_TYPE_EXCLUSIVE := by
  intro fuel
  induction fuel with
  | zero => intro _ _ _ h; simp [lockInfoLoop] at h
  | succ k ih =>
    intro readResult s out h
    unfold lockInfoLoop at h
    by_cases hc : readResult ≠ 0 ∧ r.depth s = 1
    · rw [if_pos hc] at h
      by_cases he : r.isNamespaceElement s WEBDAV_NAMESPACE = true
      · rw [if_pos he] at h
        cases hl : r.localName s with
        | none => rw [hl] at h; simp at h
        | some name =>
          rw [hl] at h
          dsimp only at h
          by_cases h1 : name = "lockscope"
          · rw [if_pos h1] at h
            cases hi : lockScopeLoop r k (r.stepInto s).1 (r.stepInto s).2 LOCK_TYPE_EXCLUSIVE with
            | none => rw [hi] at h; simp at h
            | some mid =>
              rw [hi] at h
              obtain ⟨a, b, c⟩ := mid
              have hm := lockScopeLoop_keeps_exclusive r _ _ _ _ hi
              dsimp only at hm h
              rw [hm] at h
              exact ih _ _ _ h
          · rw [if_neg h1] at h
            by_cases h2 : name = "locktype"
            · rw [if_pos h2] at h
              cases hi : lockTypeLoop r k (r.stepInto s).1 (r.stepInto s).2 LOCK_TYPE_EXCLUSIVE with
              | none => rw [hi] at h; simp at h
              | some mid =>
                rw [hi] at h
                obtain ⟨a, b, c⟩ := mid
                have hm := lockTypeLoop_keeps_exclusive r _ _ _ _ hi
                dsimp only at hm h
                rw [hm] at h
                exact ih _ _ _ h
            · rw [if_neg h2] at h
              exact ih _ _ _ h
      · rw [if_neg he] at h
        exact ih _ _ _ h
    · rw [if_neg hc] at h
      rw [← Option.some.inj h]

theorem appearsUnder_perm (children children2 : List LockInfoChild) (h : List.Perm children children2)
    (parent name : String) : appearsUnder children2 parent name = appearsUnder children parent name := by
  unfold appearsUnder
  rw [Bool.eq_iff_iff]
  simp only [List.any_eq_true]
  constructor
  · rintro ⟨c, hc, hp⟩
    exact ⟨c, h.mem_iff.mpr hc, hp⟩
  · rintro ⟨c, hc, hp⟩
    exact ⟨c, h.mem_iff.mp hc, hp⟩

theorem mergeLockType_zero (children : List LockInfoChild) :
    mergeLockType LOCK_TYPE_ZERO
        (appearsUnder children "lockscope" "exclusive" || appearsUnder children "locktype" "write")
        (appearsUnder children "lockscope" "shared" || appearsUnder children "locktype" "read")
      = specLockType children := by
  unfold mergeLockType specLockType
  simp

/-- C21. For a body whose root is `DAV:` `lockinfo`, whose direct children are elements
of the `DAV:` namespace and in which every `DAV:` element directly below them has a local
name, `parseLockRequest` comes back, given fuel for every node, with a new lock whose type
is the one of the specification: Exclusive if `exclusive` appears under a `lockscope` or
`write` under a `locktype`, otherwise Shared if `shared` appears under a `lockscope` or
`read` under a `locktype`.  That type is the same for every order of the children, and the
loop over the children, entered with Exclusive, leaves with Exclusive for every reader. -/
theorem lock_type_ignores_element_order (fuel : Nat) (env : Env) (fd : Int)
    (children : List LockInfoChild) (hfd : fd ≠ -1)
    (hreader : env.xmlReaderForFd fd = some (readerOfNodes (lockinfoNodes children)))
    (hnamed : ∀ c ∈ children, ∀ l ∈ c.leaves, l.node.isElement = true →
      l.node.namespaceUri = some WEBDAV_NAMESPACE → l.node.localName ≠ none)
    (hfuel : (lockinfoNodes children).length ≤ fuel) :
    parseLockRequest fuel env fd
      = some ([Event.readXml fd, Event.close fd], ⟨true, specLockType children⟩) ∧
    (∀ children2, List.Perm children children2 → specLockType children2 = specLockType children) ∧
    (∀ (r : XmlReader) (fuel2 : Nat) (readResult : Int) (s : Nat) (out : Int × Nat × LockType),
      lockInfoLoop r fuel2 readResult s LOCK_TYPE_EXCLUSIVE = some out →
      out.2.2 = LOCK_TYPE_EXCLUSIVE) := by
  refine ⟨?_, ?_, fun r => lockInfoLoop_keeps_exclusive r⟩
  · have hlen : (lockinfoNodes children).length = 1 + (childrenNodes children).length := by
      simp [lockinfoNodes]
      omega
    obtain ⟨k, rfl⟩ : ∃ k, fuel = k + 1 := ⟨fuel - 1, by omega⟩
    have h0 : (readerOfNodes (lockinfoNodes children)).stepInto 0 = (1, 1) := by
      simp [readerOfNodes, lockinfoNodes]
    have hm : (readerOfNodes (lockinfoNodes children)).elementMatches 1 WEBDAV_NAMESPACE "lockinfo"
        = true := by
      simp [readerOfNodes, lockinfoNodes]
    have hloop := lockInfoLoop_children children
      [(⟨0, true, some WEBDAV_NAMESPACE, some "lockinfo"⟩ : XmlNode)] (lockinfoNodes children) (k + 1)
      LOCK_TYPE_ZERO rfl hnamed (by omega)
    rw [mergeLockType_zero] at hloop
    unfold parseLockRequest
    rw [if_neg hfd, hreader]
    dsimp only
    rw [h0]
    dsimp only
    rw [hm, if_neg (by simp), reader_stepInto]
    have h1 : (0 : Nat) + 1 = [(⟨0, true, some WEBDAV_NAMESPACE, some "lockinfo"⟩ : XmlNode)].length := rfl
    rw [h1, hloop]
    dsimp only
    unfold finishLoop
    rw [if_neg (by simp)]
  · intro children2 hperm
    unfold specLockType
    rw [appearsUnder_perm _ _ hperm, appearsUnder_perm _ _ hperm, appearsUnder_perm _ _ hperm,
      appearsUnder_perm _ _ hperm]

theorem lock_type_ignores_element_order_witness :
    parseLockRequest 100 sharedThenExclusiveEnv 5
      = some ([Event.readXml 5, Event.close 5], ⟨true, LOCK_TYPE_EXCLUSIVE⟩) ∧
    specLockType sharedThenExclusive.reverse = LOCK_TYPE_EXCLUSIVE :=
  have h := lock_type_ignores_element_order 100 sharedThenExclusiveEnv 5 sharedThenExclusive
    (by decide) rfl (by decide) (by decide)
  ⟨h.1, h.2.1 _ (List.reverse_perm _).symm⟩

/-! ## The depth-1 loop of parseLockRequest and the suffix index (C22, C23) -/

theorem magnitudeLoop_negative : ∀ (left magnitude : Nat) (tmpSize : Int), tmpSize < 0 →
    (magnitudeLoop left magnitude tmpSize).1 = magnitude + left := by
  intro left
  induction left with
  | zero => intro magnitude tmpSize _; rfl
  | succ k ih =>
    intro magnitude tmpSize h
    unfold magnitudeLoop
    rw [if_pos (Or.inl h), ih (magnitude + 1) (tmpSize / 1024) (by omega)]
    omega

/-- C23. The array `suffix` of `formatFileSize` has 8 entries.  For a size that is not
negative the magnitude is at most 6, an index of the array; for every negative size the
loop runs until the magnitude is 8, which is not an index of the array: `suffix[8]` is read
past its end. -/
theorem formatFileSize_magnitude_of_negative_size (n : Int) (h63 : n < 2 ^ 63) :
    suffix.length = 8 ∧
    (0 ≤ n → (formatFileSizeParts n).magnitude ≤ 6 ∧
      (formatFileSizeParts n).magnitude < suffix.length) ∧
    (n < 0 → (formatFileSizeParts n).magnitude = 8 ∧
      ¬ (formatFileSizeParts n).magnitude < suffix.length ∧
      (formatFileSizeParts n).suffixString = none) := by
  refine ⟨rfl, ?_, ?_⟩
  · intro h0
    have hlen : suffix.length = 8 := rfl
    rw [hlen]
    rcases magnitudeLoop_nonneg n h0 h63 with h | h | h | h | h | h | h <;>
      simp [formatFileSizeParts, h]
  · intro hneg
    have h8 : (magnitudeLoop 8 0 n).1 = 8 := by
      rw [magnitudeLoop_negative 8 0 n hneg]
    have hlen : suffix.length = 8 := rfl
    have hm : (formatFileSizeParts n).magnitude = 8 := by
      unfold formatFileSizeParts
      dsimp only
      rw [h8]
      rfl
    have hs : (formatFileSizeParts n).suffixString = none := by
      unfold formatFileSizeParts
      dsimp only
      rw [h8]
      rfl
    rw [hm, hlen]
    exact ⟨rfl, by omega, hs⟩

theorem formatFileSize_magnitude_of_negative_size_witness :
    (formatFileSizeParts (-1)).magnitude = 8 ∧ suffix.length = 8 ∧
    (formatFileSizeParts (-1)).suffixString = none ∧
    (formatFileSizeParts 0).magnitude < suffix.length :=
  ⟨((formatFileSize_magnitude_of_negative_size (-1) (by decide)).2.2 (by decide)).1,
   (formatFileSize_magnitude_of_negative_size (-1) (by decide)).1,
   ((formatFileSize_magnitude_of_negative_size (-1) (by decide)).2.2 (by decide)).2.2,
   ((formatFileSize_magnitude_of_negative_size 0 (by decide)).2.1 (by decide)).2⟩

theorem lockInfoLoop_stuck (r : XmlReader) (readResult : Int) (s : Nat) (type : LockType)
    (hresult : readResult ≠ 0) (hdepth : r.depth s = 1)
    (hforeign : r.isNamespaceElement s WEBDAV_NAMESPACE = false) :
    ∀ fuel : Nat, lockInfoLoop r fuel readResult s type = none := by
  intro fuel
  induction fuel with
  | zero => rfl
  | succ k ih =>
    unfold lockInfoLoop
    rw [if_pos ⟨hresult, hdepth⟩, hforeign]
    exact ih

/-- C22. When the root of the body is `DAV:` `lockinfo` and its first child, on which
the reader stands after the second `stepInto`, is at depth 1 and is not an element of the
`DAV:` namespace, the depth-1 loop of `parseLockRequest` makes no call on the reader and
changes no variable in its turn, so it is in the same state at the next turn: whatever the
fuel, `parseLockRequest` does not come back, and neither does `lockFile`. -/
theorem parseLockRequest_loops_on_foreign_child (env : Env) (st : WorkerState) (m : Message)
    (r : XmlReader) (hfd : m.fd ≠ -1) (hreader : env.xmlReaderForFd m.fd = some r)
    (hroot : (r.stepInto 0).1 ≠ 0 ∧ r.elementMatches (r.stepInto 0).2 WEBDAV_NAMESPACE "lockinfo" = true)
    (hchild : (r.stepInto (r.stepInto 0).2).1 ≠ 0 ∧ r.depth (r.stepInto (r.stepInto 0).2).2 = 1 ∧
      r.isNamespaceElement (r.stepInto (r.stepInto 0).2).2 WEBDAV_NAMESPACE = false) :
    ∀ fuel : Nat,
      lockInfoLoop r (fuel + 1) (r.stepInto (r.stepInto 0).2).1 (r.stepInto (r.stepInto 0).2).2 LOCK_TYPE_ZERO
        = lockInfoLoop r fuel (r.stepInto (r.stepInto 0).2).1 (r.stepInto (r.stepInto 0).2).2 LOCK_TYPE_ZERO ∧
      parseLockRequest fuel env m.fd = none ∧ lockFile fuel env st m = none := by
  intro fuel
  have hp : parseLockRequest fuel env m.fd = none := by
    unfold parseLockRequest
    rw [if_neg hfd, hreader]
    dsimp only
    rw [if_neg (by
      intro h
      rcases h with h | h
      · exact hroot.1 h
      · rw [hroot.2] at h
        exact Bool.noConfusion h)]
    rw [lockInfoLoop_stuck r _ _ _ hchild.1 hchild.2.1 hchild.2.2 fuel]
  refine ⟨?_, hp, ?_⟩
  · rw [lockInfoLoop_stuck r _ _ _ hchild.1 hchild.2.1 hchild.2.2,
      lockInfoLoop_stuck r _ _ _ hchild.1 hchild.2.1 hchild.2.2]
  · unfold lockFile
    dsimp only
    rw [hp]

theorem parseLockRequest_loops_on_foreign_child_witness :
    parseLockRequest 1000 foreignChildEnv 5 = none ∧
    lockFile 1000 foreignChildEnv ⟨false, none, []⟩ (newLockRequest "/srv/x") = none :=
  (parseLockRequest_loops_on_foreign_child foreignChildEnv ⟨false, none, []⟩ (newLockRequest "/srv/x")
    (readerOfNodes foreignChildLockinfo) (by decide) rfl ⟨by decide, by decide⟩
    ⟨by decide, by decide, by decide⟩ 1000).2

end Rap
